import Mathlib

/-!
# Booking bot: conversational state machine and slot ledger

A shallow embedding of the Go sources `db.go` and `main.go` of the booking bot,
and the properties of its dialogue engine, availability resolver and booking
ledger.

Conventions of the embedding.

* Go strings are Lean strings; the `strings` functions the bot calls are written
  over the character list so that they compute by structural recursion.
* A Go map with string keys is an association list with unique keys
  (`mapGet`, `mapSet`); the session table `userSessions` is a function from the
  client id to an optional session.
* `time.Time` values are Unix seconds; the location `tz` is a fixed offset from
  UTC in seconds (Europe/Moscow has been UTC+3 without daylight saving since
  October 2014; the fallback location of `main` is UTC).
* The remote store is the list of rows of the table `slots`; whether one of its
  calls fails is part of the environment `Env` of the update being handled.
* The messaging transport is the list `sent` of the requests the bot has issued.
* A Go runtime panic (failed type assertion, write to a nil map, slice bounds)
  is the result `none` of a handler.
-/

namespace Hidjama

/-! ## Strings -/

/-- Go `strings.HasPrefix`. -/
def hasPrefix (s p : String) : Bool := p.data.isPrefixOf s.data

/-- Go `strings.TrimPrefix`. -/
def trimPrefix (s p : String) : String :=
  if hasPrefix s p then String.mk (s.data.drop p.data.length) else s

/-- Substring test on character lists. -/
def containsL (sub : List Char) : List Char → Bool
  | [] => sub.isPrefixOf []
  | c :: cs => sub.isPrefixOf (c :: cs) || containsL sub cs

/-- Go `strings.Contains`. -/
def contains (s sub : String) : Bool := containsL sub.data s.data

/-- Pieces of a character list between the occurrences of a separator. -/
def splitL (sep : Char) : List Char → List (List Char)
  | [] => [[]]
  | c :: cs =>
    if c = sep then [] :: splitL sep cs
    else
      match splitL sep cs with
      | [] => [[c]]
      | p :: ps => (c :: p) :: ps

/-- Go `strings.Split(s, "_")`. -/
def splitUnderscore (s : String) : List String := (splitL '_' s.data).map String.mk

/-- Lower-case mapping of one rune, as `unicode.ToLower` gives it on the basic
Latin, Latin-1, Greek and Cyrillic capital letters; other runes are left as they are. -/
def toLowerRune (c : Char) : Char :=
  let n := c.toNat
  if 65 ≤ n ∧ n ≤ 90 then Char.ofNat (n + 32)
  else if 192 ≤ n ∧ n ≤ 222 ∧ n ≠ 215 then Char.ofNat (n + 32)
  else if 913 ≤ n ∧ n ≤ 939 ∧ n ≠ 930 then Char.ofNat (n + 32)
  else if 1024 ≤ n ∧ n ≤ 1039 then Char.ofNat (n + 80)
  else if 1040 ≤ n ∧ n ≤ 1071 then Char.ofNat (n + 32)
  else c

/-- Go `strings.ToLower`. -/
def toLower (s : String) : String := String.mk (s.data.map toLowerRune)

/-- Go `fmt.Sprintf("%d", n)`. -/
def fmtD (n : Int) : String := toString n

/-- White space in the sense of the scanner of package `fmt`, the newline apart. -/
def isScanSpace (c : Char) : Bool :=
  let n := c.toNat
  n = 32 || n = 9 || n = 11 || n = 12 || n = 13 || n = 133 || n = 160 || n = 5760
    || (8192 ≤ n && n ≤ 8202) || n = 8232 || n = 8233 || n = 8239 || n = 8287 || n = 12288

/-- The scanner skips white space before a number; a newline is an error. -/
def skipScanSpace : List Char → Option (List Char)
  | [] => some []
  | c :: cs =>
    if c = '\n' then none
    else if isScanSpace c then skipScanSpace cs
    else some (c :: cs)

/-- Value of a list of decimal digits, most significant first. -/
def decimalValue (ds : List Char) : Nat :=
  ds.foldl (fun acc c => acc * 10 + (c.toNat - 48)) 0

/-- The verb `%d` of `fmt.Sscanf` on the rest of the input: optional white space,
an optional sign, then the longest run of decimal digits (the scan stops at the
first other character, an underscore included, and leaves the rest unread), which
`strconv.ParseInt` must accept as a 64-bit decimal number. `none` is the scan
error (no digit, or a value out of range), after which the target variable keeps
its value. -/
def scanInt (cs : List Char) : Option Int :=
  match skipScanSpace cs with
  | none => none
  | some rest =>
    let neg := rest.head? = some '-'
    let body := if rest.head? = some '-' ∨ rest.head? = some '+' then rest.tail else rest
    let tok := body.takeWhile fun c => c.isDigit
    if tok = [] then none
    else
      let v : Int := if neg then - (decimalValue tok : Int) else (decimalValue tok : Int)
      if v < -9223372036854775808 ∨ 9223372036854775807 < v then none else some v

/-! ## Go maps as association lists -/

/-- Value stored under a key, if any. -/
def mapGet {α : Type} (m : List (String × α)) (k : String) : Option α :=
  match m with
  | [] => none
  | (k', v) :: rest => if k' = k then some v else mapGet rest k

/-- Store a value under a key, replacing the value the key had. -/
def mapSet {α : Type} (m : List (String × α)) (k : String) (v : α) : List (String × α) :=
  match m with
  | [] => [(k, v)]
  | (k', v') :: rest => if k' = k then (k, v) :: rest else (k', v') :: mapSet rest k v

/-! ## Calendar arithmetic of package `time` -/

/-- Leap years of the proleptic Gregorian calendar. -/
def isLeap (year : Nat) : Bool :=
  year % 4 = 0 && (year % 100 ≠ 0 || year % 400 = 0)

/-- Days of the year before the first of the month (non-leap year), Go `daysBefore`. -/
def daysBefore (month : Nat) : Nat :=
  match month with
  | 0 => 0 | 1 => 0 | 2 => 31 | 3 => 59 | 4 => 90 | 5 => 120 | 6 => 151
  | 7 => 181 | 8 => 212 | 9 => 243 | 10 => 273 | 11 => 304 | 12 => 334
  | _ => 365

/-- Go `daysIn`. -/
def daysIn (month year : Nat) : Nat :=
  if month = 2 ∧ isLeap year then 29 else daysBefore (month + 1) - daysBefore month

/-- Days from 0000-01-01 to the first of January of the year. -/
def daysBeforeYear (year : Nat) : Nat :=
  365 * year + (year + 3) / 4 - (year + 99) / 100 + (year + 399) / 400

/-- Days from 1970-01-01 to the civil date. -/
def daysFromCivil (year month day : Nat) : Int :=
  (daysBeforeYear year + daysBefore month
    + (if 2 < month ∧ isLeap year then 1 else 0) + (day - 1) : Nat) - 719528

/-- Unix seconds of a wall-clock reading taken in UTC, Go `time.Date(..., time.UTC)`. -/
def unixUTC (year month day hour min : Nat) : Int :=
  daysFromCivil year month day * 86400 + hour * 3600 + min * 60

/-- Go `getnum` of package `time`: one or two digits, exactly two when `fixed`. -/
def getnum (s : List Char) (fixed : Bool) : Option (Nat × List Char) :=
  match s with
  | [] => none
  | c0 :: rest =>
    if !c0.isDigit then none
    else
      match rest with
      | [] => if fixed then none else some (c0.toNat - 48, [])
      | c1 :: rest' =>
        if c1.isDigit then some ((c0.toNat - 48) * 10 + (c1.toNat - 48), rest')
        else if fixed then none
        else some (c0.toNat - 48, rest)

/-- Go `skip` of package `time` for a one-character literal of the layout. -/
def skipChar (c : Char) (value : List Char) : Option (List Char) :=
  match value with
  | [] => none
  | v :: rest => if v = c then some rest else none

/-- Go `skip` of package `time` for the space of the layout: the value is at its
end or starts with a space, and the whole run of spaces is consumed. -/
def skipSpaces (value : List Char) : Option (List Char) :=
  match value with
  | [] => some []
  | v :: rest => if v = ' ' then some (rest.dropWhile (fun c => c = ' ')) else none

/-- Go `time.Parse("2006-01-02 15:04", value)`: the Unix seconds of the parsed
reading, which `time.Parse` places in UTC; `none` is the parse error. -/
def timeParse (value : List Char) : Option Int :=
  match value with
  | y0 :: y1 :: y2 :: y3 :: v1 =>
    if !(y0.isDigit && y1.isDigit && y2.isDigit && y3.isDigit) then none
    else
      let year := decimalValue [y0, y1, y2, y3]
      (skipChar '-' v1).bind fun v2 =>
      (getnum v2 true).bind fun (month, v3) =>
      if month = 0 ∨ 12 < month then none
      else
        (skipChar '-' v3).bind fun v4 =>
        (getnum v4 true).bind fun (day, v5) =>
        (skipSpaces v5).bind fun v6 =>
        (getnum v6 false).bind fun (hour, v7) =>
        if 24 ≤ hour then none
        else
          (skipChar ':' v7).bind fun v8 =>
          (getnum v8 true).bind fun (min, v9) =>
          if 60 ≤ min then none
          else if v9 ≠ [] then none
          else if day < 1 ∨ daysIn month year < day then none
          else some (unixUTC year month day hour min)
  | _ => none

/-- Civil date (year, month, day) of a day number counted from 1970-01-01. -/
def civilFromDays (days : Int) : Nat × Nat × Nat :=
  let z := (days + 719468).toNat
  let era := z / 146097
  let doe := z % 146097
  let yoe := (doe - doe / 1460 + doe / 36524 - doe / 146096) / 365
  let doy := doe - (365 * yoe + yoe / 4 - yoe / 100)
  let mp := (5 * doy + 2) / 153
  let d := doy - (153 * mp + 2) / 5 + 1
  let m := if mp < 10 then mp + 3 else mp - 9
  let y := yoe + era * 400 + (if m ≤ 2 then 1 else 0)
  (y, m, d)

/-- Decimal digits of a number, padded with zeros on the left to a width. -/
def pad (width n : Nat) : String :=
  let ds := (toString n).data
  String.mk (List.replicate (width - ds.length) '0' ++ ds)

/-- Go `t.Format("2006-01-02")` for the day number of `t` in its location. -/
def formatDate (days : Int) : String :=
  let (y, m, d) := civilFromDays days
  pad 4 y ++ "-" ++ pad 2 m ++ "-" ++ pad 2 d

/-- Go `t.Format("02.01")`. -/
def formatDayMonth (days : Int) : String :=
  let (_, m, d) := civilFromDays days
  pad 2 d ++ "." ++ pad 2 m

/-- Go `t.Format("2006-01-02 15:04:05")` for local seconds since 1970-01-01 00:00. -/
def formatDateTime (localSeconds : Int) : String :=
  let secs := (localSeconds % 86400).toNat
  formatDate (localSeconds / 86400) ++ " " ++ pad 2 (secs / 3600) ++ ":"
    ++ pad 2 (secs % 3600 / 60) ++ ":" ++ pad 2 (secs % 60)

/-- Go `t.Weekday()`, Sunday = 0. -/
def weekday (days : Int) : Nat := ((days + 4) % 7).toNat

/-! ## Data model (`db.go`, `main.go`) -/

/-- Go `Master`. -/
structure Master where
  ID : String
  Name : String
  Code : String
  Contact : String
  Gender : String
  Active : Bool
deriving DecidableEq, Repr

/-- Go `Package`. -/
structure Package where
  Key : String
  Name : String
  Price : Int
  Desc : String
deriving DecidableEq, Repr

/-- Go `Booking`, the entry of `bookingsLog`. -/
structure Booking where
  User : String
  Master : String
  Date : String
  Time : String
deriving DecidableEq, Repr

/-- Go `UserSession`. `Data` is `none` for the nil map. The fields `Gender`, `Date`,
`Time` and `Master` of the Go struct are never read or written and are left out. -/
structure UserSession where
  Step : String
  Data : Option (List (String × String))
deriving DecidableEq, Repr

/-- A row of the table `slots`. The first group of fields are the columns the Go
struct `Slot` decodes; `ClientName`, `ClientPhone` and `PackageName` are the
columns `client_name`, `client_phone` and `package_name` that the inserts write.
A column holding SQL null is `none`. The field `MasterID` (`master_id`) of the Go
struct is written by no insert and read by no handler, and is left out. -/
structure Slot where
  ID : Int
  Date : String
  Time : String
  Gender : String
  MasterName : String
  Status : String
  UserID : Option String
  Username : Option String
  BookedAt : Option String
  Source : String
  ClientName : Option String
  ClientPhone : Option String
  PackageName : Option String
deriving DecidableEq, Repr

/-- Go `Config`, the part the handlers read: the administrator list and the
location `tz` loaded from `Timezone`, as its offset from UTC in seconds. -/
structure Config where
  Admins : List Int
  tzOffset : Int
deriving DecidableEq, Repr

/-! ## Cancellation cutoff (`db.go`) -/

/-- Go `canCancelBooking`, with the value `now` of `time.Now()` as an argument.
`time.Now().In(tz)` is the same instant as `time.Now()`, and `Before` compares
instants, so the location does not enter the result. -/
def canCancelBooking (slot : Slot) (now : Int) : Bool :=
  match timeParse (slot.Date ++ " " ++ slot.Time).data with
  | none => false
  | some slotDateTime =>
    let twoHoursBefore := slotDateTime - 2 * 3600
    decide (now < twoHoursBefore)

/-- The rule of the specification for the same question: the stored date and time
are well-formed (`YYYY-MM-DD`, `HH:MM`), and `now` is strictly earlier than two
hours before the instant at which the clocks of the configured zone show that
date and time. -/
def cancellableSpec (tzOffset : Int) (slot : Slot) (now : Int) : Bool :=
  match slot.Date.data, slot.Time.data with
  | [y0, y1, y2, y3, '-', m0, m1, '-', d0, d1], [h0, h1, ':', n0, n1] =>
    let year := decimalValue [y0, y1, y2, y3]
    let month := decimalValue [m0, m1]
    let day := decimalValue [d0, d1]
    let hour := decimalValue [h0, h1]
    let min := decimalValue [n0, n1]
    [y0, y1, y2, y3, m0, m1, d0, d1, h0, h1, n0, n1].all Char.isDigit
      && decide (1 ≤ month ∧ month ≤ 12 ∧ 1 ≤ day ∧ day ≤ daysIn month year)
      && decide (hour < 24 ∧ min < 60)
      && decide (now < unixUTC year month day hour min - tzOffset - 2 * 3600)
  | _, _ => false

/-! ## Transport and store -/

/-- A button of a keyboard: inline with callback data, inline with a link, or a
key of the reply keyboard. -/
inductive Button where
  | data (label data : String)
  | url (label url : String)
  | key (label : String)
deriving DecidableEq, Repr

/-- A request the bot issues to the messaging transport: `bot.Send` of a new
message, `bot.Send` of an edit of a message, `bot.Request` of a callback answer. -/
inductive Request where
  | message (chatID : Int) (text : String) (markup : List (List Button))
  | edit (chatID : Int) (messageID : Int) (text : String) (markup : List (List Button))
  | callback (id : String) (text : String) (showAlert : Bool)
deriving DecidableEq, Repr

/-- The fields of `tgbotapi.Message` the handlers read. -/
structure Message where
  FromID : Int
  UserName : String
  ChatID : Int
  Text : String
deriving DecidableEq, Repr

/-- The fields of `tgbotapi.CallbackQuery` the handlers read; `ChatID` and
`MessageID` are those of `cb.Message`. -/
structure CallbackQuery where
  ID : String
  FromID : Int
  UserName : String
  ChatID : Int
  MessageID : Int
  Data : String
deriving DecidableEq, Repr

/-- Go `tgbotapi.Update`: a message, a callback query, or neither. -/
inductive Update where
  | message (msg : Message)
  | callback (cb : CallbackQuery)
  | other
deriving DecidableEq, Repr

/-- What the outside world answers while one update is handled: the clock, and
whether the store fails the read and the write issued by the handler. -/
structure Env where
  now : Int
  readFails : Bool
  writeFails : Bool
deriving DecidableEq, Repr

/-- The package-level variables of the process, the table `slots` of the store,
and the requests sent so far. -/
structure State where
  userSessions : Int → Option UserSession
  masters : List (String × Master)
  packages : List (String × Package)
  masterNotifications : List (String × Bool)
  bookingsLog : List Booking
  slots : List Slot
  sent : List Request

/-- Record a request to the transport (`bot.Send`, `bot.Request`); delivery errors
are ignored by every caller. -/
def State.send (s : State) (r : Request) : State :=
  { s with sent := s.sent ++ [r] }

/-- Wrap-around of Go `int` arithmetic (64 bits). -/
def wrap64 (x : Int) : Int := (x + 9223372036854775808) % 18446744073709551616 - 9223372036854775808

/-- The zero value of `Master`, the result of indexing `masters` with a missing key. -/
def Master.zero : Master :=
  { ID := "", Name := "", Code := "", Contact := "", Gender := "", Active := false }

/-- The zero value of `Package`. -/
def Package.zero : Package := { Key := "", Name := "", Price := 0, Desc := "" }

/-! ### Store calls (`db.go`) -/

/-- The select of `getBookedMasters`: rows of the slot with status `booked`. -/
def bookedRows (slots : List Slot) (date time : String) : List Slot :=
  slots.filter fun r => r.Date = date ∧ r.Time = time ∧ r.Status = "booked"

/-- Go `getBookedMasters`: the map from the provider names of the booked rows to
`true`; the empty map when the read fails. -/
def getBookedMasters (env : Env) (slots : List Slot) (date time : String) : List (String × Bool) :=
  if env.readFails then []
  else (bookedRows slots date time).foldl (fun booked slot => mapSet booked slot.MasterName true) []

/-- The id the store gives to an inserted row: the serial after the largest id. -/
def nextID (slots : List Slot) : Int := (slots.map Slot.ID).foldl max 0 + 1

/-- Go `bookSlotWithPackage`: an unconditional insert; `none` is the returned error. -/
def bookSlotWithPackage (cfg : Config) (env : Env) (slots : List Slot)
    (date slotTime gender master : String) (userID : Int)
    (username clientName clientPhone packageName : String) : Option (List Slot) :=
  let moscowTime := env.now + cfg.tzOffset
  let slot : Slot :=
    { ID := nextID slots
      Date := date
      Time := slotTime
      Gender := gender
      MasterName := master
      Status := "booked"
      UserID := some (fmtD userID)
      Username := some username
      ClientName := some clientName
      ClientPhone := some clientPhone
      PackageName := some packageName
      BookedAt := some (formatDateTime moscowTime)
      Source := "bot" }
  if env.writeFails then none else some (slots ++ [slot])

/-- Go `getUserBookings`: the rows of the client with status `booked`. -/
def getUserBookings (env : Env) (slots : List Slot) (userID : Int) : Option (List Slot) :=
  if env.readFails then none
  else some (slots.filter fun r => r.UserID = some (fmtD userID) ∧ r.Status = "booked")

/-- Go `cancelBooking`: the update of the rows with the given id. -/
def cancelBooking (env : Env) (slots : List Slot) (slotID : Int) : Option (List Slot) :=
  if env.writeFails then none
  else some (slots.map fun r =>
    if r.ID = slotID then
      { r with Status := "cancelled", UserID := none, Username := none, BookedAt := none }
    else r)

/-- Modelled from the spec: `getBookingByID` is called by `cancelUserBooking` and
is not defined in the sources at hand. It is taken to be the equality-filtered
select of the row with the given id, failing when the read fails or no row has
the id. -/
def getBookingByID (env : Env) (slots : List Slot) (bookingID : Int) : Option Slot :=
  if env.readFails then none else slots.find? fun r => r.ID = bookingID

/-! ### Session table (`db.go`, `main.go`) -/

/-- Go `loadUserSession`: the stored session, or a fresh one with an empty map. -/
def loadUserSession (s : State) (userID : Int) : UserSession :=
  match s.userSessions userID with
  | some session => session
  | none => { Step := "", Data := some [] }

/-- Go `saveUserSession`. -/
def saveUserSession (s : State) (userID : Int) (session : UserSession) : State :=
  { s with userSessions := Function.update s.userSessions userID (some session) }

/-- Go `deleteUserSession`. -/
def deleteUserSession (s : State) (userID : Int) : State :=
  { s with userSessions := Function.update s.userSessions userID none }

/-- Go `getSession`: a copy of the loaded session. A nil `Data` is replaced by an
empty map through the pointer, that is in the stored session too (only a stored
session can have a nil map). -/
def getSession (s : State) (userID : Int) : UserSession × State :=
  let session := loadUserSession s userID
  match session.Data with
  | some _ => (session, s)
  | none =>
    let session := { session with Data := some [] }
    (session, saveUserSession s userID session)

/-- Go `setSession`. -/
def setSession (s : State) (userID : Int) (session : UserSession) : State :=
  saveUserSession s userID session

/-- Go `clearSession`. -/
def clearSession (s : State) (userID : Int) : State := deleteUserSession s userID

/-- The read `session.Data[k]` with the type assertion to `string`: `none` when
the key is missing (every value the bot stores is a string). -/
def UserSession.get (session : UserSession) (k : String) : Option String :=
  session.Data.bind fun d => mapGet d k

/-- The write `session.Data[k] = v`; `none` is the panic of a write to a nil map. -/
def UserSession.set (session : UserSession) (k v : String) : Option UserSession :=
  session.Data.map fun d => { session with Data := some (mapSet d k v) }

/-- Go `isAdmin`. -/
def isAdmin (cfg : Config) (userID : Int) : Bool := decide (userID ∈ cfg.Admins)

/-! ## Dialogue engine (`main.go`) -/

/-- The answer to a callback query, `bot.Request(tgbotapi.CallbackConfig ...)`. -/
def State.answer (s : State) (cb : CallbackQuery) (text : String) (showAlert : Bool) : State :=
  s.send (Request.callback cb.ID text showAlert)

/-- Go `start`. -/
def start (cfg : Config) (s : State) (msg : Message) : State :=
  let markup :=
    [[Button.key "📍 Записаться на Хиджаму"], [Button.key "📋 Мои записи"],
     [Button.key "Другие возможности"]]
  let markup :=
    if isAdmin cfg msg.FromID then markup ++ [[Button.key "🔐 Админ панель"]] else markup
  s.send (Request.message msg.ChatID "HGN · Доступ активирован\nРегистрация не требуется" markup)

/-- Go `createServiceKeyboard`. -/
def createServiceKeyboard (s : State) : List (List Button) :=
  ["complex", "upper", "lower", "individual", "cosmetology"].filterMap fun key =>
    (mapGet s.packages key).map fun pkg =>
      [Button.data (pkg.Name ++ " — " ++ fmtD pkg.Price ++ " ₽") ("package_" ++ key)]

/-- Go `bookStart`. -/
def bookStart (s : State) (msg : Message) : State :=
  s.send (Request.message msg.ChatID "Выберите услугу:" (createServiceKeyboard s))

/-- Go `adminPanel`. -/
def adminPanel (s : State) (chatID : Int) : State :=
  s.send (Request.message chatID "Привет мастер!\nЭто админ панель"
    [[Button.data "👨⚕️ Мастера" "admin_masters_btn"],
     [Button.data "👨💻 Разработчик" "admin_developer"]])

/-- Go `otherOptions`. -/
def otherOptions (s : State) (msg : Message) : State :=
  s.send (Request.message msg.ChatID "Выберите опцию:"
    [[Button.url "Стать мастером" "https://hidjamaglobal.net"],
     [Button.url "Открыть центр HGN" "https://hgn-franchise.net"],
     [Button.url "Приложение HGN" "https://apps.apple.com/ru/app/hidjama-quantum/id6479644776"]])

/-- The keyboard with the two gender choices and the way back to the packages. -/
def genderMarkup : List (List Button) :=
  [[Button.data "Мужчина" "gender_male", Button.data "Женщина" "gender_female"],
   [Button.data "← Назад" "back_packages"]]

/-- The text shown with the gender choices, `fmt.Sprintf` over the package. -/
def packageText (pkg : Package) : String :=
  pkg.Name ++ "\n\n" ++ pkg.Desc ++ "\n\nСтоимость: " ++ fmtD pkg.Price ++ " ₽\n\nВыберите пол:"

/-- Go `showAdminMasters`. -/
def showAdminMasters (s : State) (cb : CallbackQuery) : State :=
  let markup := s.masters.map fun e => [Button.data e.2.Name ("master_profile_" ++ e.1)]
  let markup := markup ++
    [[Button.data "➕ Добавить мастера" "add_master_start", Button.data "← Назад" "admin_back"]]
  let s := s.send (Request.edit cb.ChatID cb.MessageID "Выберите мастера:" markup)
  s.answer cb "" false

/-- Go `showDeveloperPanel`. -/
def showDeveloperPanel (s : State) (cb : CallbackQuery) : State :=
  let logs := s.bookingsLog.foldl
    (fun logs b => logs ++ ("👤 " ++ b.User ++ "\n👨⚕️ " ++ b.Master ++ "\n📅 " ++ b.Date ++ " "
      ++ b.Time ++ "\n"))
    "📋 Последние записи:\n"
  let logs := if s.bookingsLog.length = 0 then logs ++ "Нет записей" else logs
  let status := "\n🔌 Статус: ✅ База данных, ✅ Telegram API"
  let s := s.send (Request.edit cb.ChatID cb.MessageID (logs ++ status) [])
  s.answer cb "" false

/-- Go `showAdminMain`. -/
def showAdminMain (s : State) (cb : CallbackQuery) : State :=
  let s := s.send (Request.edit cb.ChatID cb.MessageID "Привет мастер!\nЭто админ панель"
    [[Button.data "👨⚕️ Мастера" "admin_masters_btn"],
     [Button.data "👨💻 Разработчик" "admin_developer"]])
  s.answer cb "" false

/-- Go `showMasterProfileLogin`. -/
def showMasterProfileLogin (s : State) (cb : CallbackQuery) (masterID : String) : State :=
  let s := saveUserSession s cb.FromID
    { Step := "master_login", Data := some [("master_id", masterID)] }
  let s := s.send (Request.edit cb.ChatID cb.MessageID "Введите код доступа для мастера:"
    [[Button.data "Отмена" "admin_masters_btn"]])
  s.answer cb "" false

/-- Go `startAddMaster`; the new session has a nil `Data` map. -/
def startAddMaster (s : State) (cb : CallbackQuery) : State :=
  let s := saveUserSession s cb.FromID { Step := "add_master_name", Data := none }
  let s := s.send (Request.edit cb.ChatID cb.MessageID "Введите имя мастера:"
    [[Button.data "Отмена" "admin_masters_btn"]])
  s.answer cb "" false

/-- Go `strings.ReplaceAll(name, " ", "_")`. -/
def replaceSpaces (name : String) : String :=
  String.mk (name.data.map fun c => if c = ' ' then '_' else c)

/-- Go `processMasterGender`. -/
def processMasterGender (s : State) (cb : CallbackQuery) (data : String) : Option State :=
  let gender := trimPrefix data "gender_master_"
  match s.userSessions cb.FromID with
  | none => some s
  | some session =>
    if session.Step ≠ "add_master_gender" then some s
    else
      (session.set "gender" gender).bind fun session =>
      (session.get "name").bind fun name =>
      (session.get "code").bind fun code =>
      (session.get "contact").bind fun contact =>
      let masterID := toLower (replaceSpaces name)
      let s := saveUserSession s cb.FromID session
      let master : Master :=
        { ID := masterID, Name := name, Code := code, Contact := contact, Gender := gender,
          Active := false }
      let s := { s with masters := mapSet s.masters masterID master }
      let s := s.send (Request.edit cb.ChatID cb.MessageID ("Мастер '" ++ name ++ "' добавлен!") [])
      let s := deleteUserSession s cb.FromID
      some (s.answer cb "" false)

/-- Go `showMasterBookings`. -/
def showMasterBookings (s : State) (cb : CallbackQuery) (data : String) : State :=
  let masterID := trimPrefix data "master_bookings_"
  let s := s.send (Request.edit cb.ChatID cb.MessageID "📋 Записи: (пока пусто)"
    [[Button.data "← Назад" ("master_back_" ++ masterID)]])
  s.answer cb "" false

/-- Go `showMasterProfit`. -/
def showMasterProfit (s : State) (cb : CallbackQuery) (data : String) : State :=
  let masterID := trimPrefix data "master_profit_"
  let s := s.send (Request.edit cb.ChatID cb.MessageID "💰 Прибыль: 0 ₽"
    [[Button.data "← Назад" ("master_back_" ++ masterID)]])
  s.answer cb "" false

/-- Go `toggleMasterNotify`. -/
def toggleMasterNotify (s : State) (cb : CallbackQuery) (data : String) : State :=
  let masterID := trimPrefix data "master_notify_"
  let current := (mapGet s.masterNotifications masterID).getD false
  let s := { s with masterNotifications := mapSet s.masterNotifications masterID (!current) }
  let status := if !current then "✅ Включены" else "❌ Отключены"
  let s := s.send (Request.edit cb.ChatID cb.MessageID ("🔔 Уведомления: " ++ status)
    [[Button.data "← Назад" ("master_back_" ++ masterID)]])
  s.answer cb "" false

/-- Go `showMasterProfile`. -/
def showMasterProfile (s : State) (chatID : Int) (masterID : String) : State :=
  let master := (mapGet s.masters masterID).getD Master.zero
  s.send (Request.message chatID
    ("👨⚕️ " ++ master.Name ++ "\n📞 " ++ master.Contact ++ "\n\nВыполненно: 0\nПрибыль: 0 ₽")
    [[Button.data "📋 Мои записи" ("master_bookings_" ++ masterID)],
     [Button.data "💰 Прибыль" ("master_profit_" ++ masterID)],
     [Button.data "🔔 Уведомления" ("master_notify_" ++ masterID)],
     [Button.data "← Назад" "admin_back"]])

/-- Go `backToMasterProfile`. -/
def backToMasterProfile (s : State) (cb : CallbackQuery) (data : String) : State :=
  let masterID := trimPrefix data "master_back_"
  let s := showMasterProfile s cb.ChatID masterID
  s.answer cb "" false

/-- The label of a weekday, indexed as Go `time.Weekday`. -/
def weekdayName (days : Int) : String :=
  (["Вс", "Пн", "Вт", "Ср", "Чт", "Пт", "Сб"].get? (weekday days)).getD ""

/-- The part that `showDatePage` and `showDatePageMessage` share: the 30 dates
from today in the location `tz`, the slice `dates[start:end]` of the page, one
button per date of the page, and the navigation row. `none` is the panic of a
slice expression whose bounds are out of range. -/
def datePageRows (cfg : Config) (env : Env) (page : Int) : Option (List (List Button)) :=
  let today := (env.now + cfg.tzOffset) / 86400
  let dates := (List.range 30).map fun i => today + (i : Int)
  let datesPerPage : Int := 5
  let start := wrap64 (page * datesPerPage)
  let stop := wrap64 (start + datesPerPage)
  let stop := if stop > 30 then 30 else stop
  if start < 0 ∨ stop < start then none
  else
    let pageDates := (dates.drop start.toNat).take (stop - start).toNat
    let dateRows := pageDates.map fun date =>
      [Button.data (formatDayMonth date ++ " (" ++ weekdayName date ++ ")")
        ("date_" ++ formatDate date)]
    let navButtons :=
      (if page > 0 then [Button.data "← Назад" ("date_page_" ++ fmtD (wrap64 (page - 1)))]
        else [])
      ++ (if stop < 30 then [Button.data "Далее →" ("date_page_" ++ fmtD (wrap64 (page + 1)))]
        else [])
    some (dateRows ++ (if navButtons.length > 0 then [navButtons] else []))

/-- Go `showDatePage`. -/
def showDatePage (cfg : Config) (env : Env) (s : State) (cb : CallbackQuery) (page : Int) :
    Option State :=
  (datePageRows cfg env page).map fun rows =>
    let markup := rows ++ [[Button.data "← Назад" "back_to_gender"]]
    let s := s.send (Request.edit cb.ChatID cb.MessageID "Выберите дату:" markup)
    s.answer cb "" false

/-- Go `showDatePageMessage`. -/
def showDatePageMessage (cfg : Config) (env : Env) (s : State) (msg : Message) (page : Int) :
    Option State :=
  (datePageRows cfg env page).map fun rows =>
    s.send (Request.message msg.ChatID "Выберите дату:" rows)

/-- The fixed list of hourly slots of `showTimeSelection`. -/
def times : List String :=
  ["09:00", "10:00", "11:00", "12:00", "13:00", "14:00", "15:00", "16:00", "17:00", "18:00",
   "19:00", "20:00"]

/-- Go `showTimeSelection`. -/
def showTimeSelection (s : State) (cb : CallbackQuery) (dateStr : String) : State :=
  let markup := times.map fun t => [Button.data t ("time_" ++ dateStr ++ "_" ++ t)]
  let markup := markup ++ [[Button.data "← Назад" "back_to_date"]]
  let s := s.send (Request.edit cb.ChatID cb.MessageID ("Доступное время на " ++ dateStr ++ ":")
    markup)
  s.answer cb "" false

/-- The loop of `showMasterSelection` over the catalog: the names of the providers
that the map of booked names does not hold. -/
def availableMasters (masters : List (String × Master)) (bookedMasters : List (String × Bool)) :
    List String :=
  (masters.filter fun e => !((mapGet bookedMasters e.2.Name).getD false)).map fun e => e.2.Name

/-- Go `showMasterSelection`. -/
def showMasterSelection (env : Env) (s : State) (cb : CallbackQuery) : State :=
  let userID := cb.FromID
  let session := (getSession s userID).1
  let s := (getSession s userID).2
  let date := (session.get "date").getD ""
  let ok := (session.get "date").isSome
  if !ok || date = "" then s.answer cb "Ошибка: дата не выбрана" true
  else
    let time := (session.get "time").getD ""
    let ok := (session.get "time").isSome
    if !ok || time = "" then s.answer cb "Ошибка: время не выбрано" true
    else
      let bookedMasters := getBookedMasters env s.slots date time
      let markup := (availableMasters s.masters bookedMasters).map fun master =>
        [Button.data master ("master_" ++ master)]
      let markup := markup ++ [[Button.data "← Назад" "back_to_time"]]
      let s := s.send (Request.edit cb.ChatID cb.MessageID
        ("Выберите мастера на " ++ date ++ " " ++ time ++ ":") markup)
      s.answer cb "" false

/-- The text of the confirmation prompt, `fmt.Sprintf` of `showBookingConfirmation`. -/
def confirmationText (date time master : String) (pkg : Package) : String :=
  "Подтвердите запись:\n\n📅 " ++ date ++ "\n🕐 " ++ time ++ "\n👨⚕️ " ++ master ++ "\n💼 "
    ++ pkg.Name ++ "\n💰 " ++ fmtD pkg.Price
    ++ " ₽\n\nЦентр: HGN Москва\nАдрес: Мичуринский проспект, 19к1"

/-- Go `showBookingConfirmation`. -/
def showBookingConfirmation (s : State) (cb : CallbackQuery) : State :=
  let userID := cb.FromID
  let session := (getSession s userID).1
  let s := (getSession s userID).2
  let date := (session.get "date").getD ""
  let time := (session.get "time").getD ""
  let master := (session.get "master").getD ""
  let pkgKey := (session.get "package").getD ""
  let ok := (session.get "package").isSome
  if !ok || pkgKey = "" then s.answer cb "Ошибка: процедура не выбрана" true
  else
    let pkg := (mapGet s.packages pkgKey).getD Package.zero
    let text := confirmationText date time master pkg
    let s := s.send (Request.edit cb.ChatID cb.MessageID text
      [[Button.data "✅ Подтвердить" "confirm_booking"],
       [Button.data "← Назад" "back_to_master"]])
    s.answer cb "" false

/-- The notification of a new booking sent to one administrator. -/
def newBookingText (master date time : String) (pkg : Package)
    (clientName clientPhone userName : String) : String :=
  "🔔 Новая запись!\n\n👨⚕️ " ++ master ++ "\n📅 " ++ date ++ "\n🕐 " ++ time ++ "\n💼 " ++ pkg.Name
    ++ "\n💰 " ++ fmtD pkg.Price ++ " ₽\n👤 " ++ clientName ++ "\n📞 " ++ clientPhone ++ "\n💬 @"
    ++ userName

/-- Go `finalizeBooking`. The five type assertions without the comma-ok form panic
when the key is missing. -/
def finalizeBooking (cfg : Config) (env : Env) (s : State) (cb : CallbackQuery) : Option State :=
  let userID := cb.FromID
  let session := (getSession s userID).1
  let s := (getSession s userID).2
  (session.get "date").bind fun date =>
  (session.get "time").bind fun time =>
  (session.get "master").bind fun master =>
  (session.get "gender").bind fun gender =>
  let clientName := (session.get "client_name").getD ""
  let clientPhone := (session.get "client_phone").getD ""
  (session.get "package").bind fun pkgKey =>
  let pkg := (mapGet s.packages pkgKey).getD Package.zero
  match bookSlotWithPackage cfg env s.slots date time gender master userID cb.UserName clientName
      clientPhone pkg.Name with
  | none => some (s.answer cb "Ошибка при бронировании" true)
  | some slots =>
    let s := { s with slots := slots }
    let text := "✅ Запись подтверждена!\n\n📅 " ++ date ++ "\n🕐 " ++ time ++ "\n👨⚕️ " ++ master
      ++ "\n\nЦентр: HGN Москва\nАдрес: Мичуринский проспект, 19к1"
    let s := s.send (Request.edit cb.ChatID cb.MessageID text [])
    let s := cfg.Admins.foldl
      (fun s admin => s.send (Request.message admin
        (newBookingText master date time pkg clientName clientPhone cb.UserName) []))
      s
    let s := clearSession s userID
    some (s.answer cb "Запись успешна!" false)

/-- Go `showMyBookings`: only the first booking found is shown. -/
def showMyBookings (env : Env) (s : State) (msg : Message) : State :=
  match getUserBookings env s.slots msg.FromID with
  | none => s.send (Request.message msg.ChatID "У вас нет активных записей" [])
  | some [] => s.send (Request.message msg.ChatID "У вас нет активных записей" [])
  | some (booking :: _) =>
    let canCancel := canCancelBooking booking env.now
    let text := "📋 Ваша запись:\n\n📅 " ++ booking.Date ++ "\n🕐 " ++ booking.Time ++ "\n👨‍⚕️ "
      ++ booking.MasterName ++ "\n\nЦентр: HGN Москва\nАдрес: Мичуринский проспект, 19г1"
    if canCancel then
      s.send (Request.message msg.ChatID
        (text ++ "\n\n⚠️ Отмена возможна за 2 часа до процедуры")
        [[Button.data "❌ Отменить запись" ("cancel_booking_" ++ fmtD booking.ID)]])
    else
      s.send (Request.message msg.ChatID
        (text ++ "\n\n⚠️ Отмена невозможна (менее 2 часов до процедуры)") [])

/-- The scan `fmt.Sscanf(data, "cancel_booking_%d", &bookingID)`: the id read
after the literal, and 0, the initial value of the variable, when the scan fails. -/
def scanBookingID (data : String) : Int :=
  if hasPrefix data "cancel_booking_" then
    (scanInt (trimPrefix data "cancel_booking_").data).getD 0
  else 0

/-- Go `cancelUserBooking`. -/
def cancelUserBooking (cfg : Config) (env : Env) (s : State) (cb : CallbackQuery)
    (data : String) : State :=
  let bookingID := scanBookingID data
  match getBookingByID env s.slots bookingID with
  | none => s.answer cb "Ошибка при отмене" true
  | some booking =>
    match cancelBooking env s.slots bookingID with
    | none => s.answer cb "Ошибка при отмене" true
    | some slots =>
      let s := { s with slots := slots }
      let s := s.send (Request.edit cb.ChatID cb.MessageID "✅ Запись отменена" [])
      let s := cfg.Admins.foldl
        (fun s admin => s.send (Request.message admin
          ("❌ Отмена записи\n\n👨⚕️ " ++ booking.MasterName ++ "\n📅 " ++ booking.Date ++ "\n🕐 "
            ++ booking.Time ++ "\n💬 @" ++ cb.UserName) []))
        s
      s.answer cb "Запись отменена" false

/-- The case `master_login` of `handleSessionMessage`: the text is compared with
the access code of the provider of the session. -/
def onMasterLogin (s : State) (msg : Message) (session : UserSession) : Option State :=
  (session.get "master_id").bind fun masterID =>
  let master := (mapGet s.masters masterID).getD Master.zero
  let s :=
    if msg.Text = master.Code then showMasterProfile s msg.ChatID masterID
    else s.send (Request.message msg.ChatID "❌ Неверный код" [])
  some (deleteUserSession s msg.FromID)

/-- The case `add_master_name` of `handleSessionMessage`. -/
def onAddMasterName (s : State) (msg : Message) (session : UserSession) : Option State :=
  (session.set "name" msg.Text).bind fun session =>
  let session := { session with Step := "add_master_code" }
  let s := saveUserSession s msg.FromID session
  some (s.send (Request.message msg.ChatID "Введите код доступа:"
    [[Button.data "Отмена" "admin_masters_btn"]]))

/-- The case `add_master_code` of `handleSessionMessage`. -/
def onAddMasterCode (s : State) (msg : Message) (session : UserSession) : Option State :=
  (session.set "code" msg.Text).bind fun session =>
  let session := { session with Step := "add_master_contact" }
  let s := saveUserSession s msg.FromID session
  some (s.send (Request.message msg.ChatID "Введите контакт (или пусто):"
    [[Button.data "Отмена" "admin_masters_btn"]]))

/-- The case `add_master_contact` of `handleSessionMessage`. -/
def onAddMasterContact (s : State) (msg : Message) (session : UserSession) : Option State :=
  (session.set "contact" msg.Text).bind fun session =>
  let session := { session with Step := "add_master_gender" }
  let s := saveUserSession s msg.FromID session
  some (s.send (Request.message msg.ChatID "Выберите пол:"
    [[Button.data "Мужчина" "gender_master_male"],
     [Button.data "Женщина" "gender_master_female"],
     [Button.data "Отмена" "admin_masters_btn"]]))

/-- The case `waiting_name` of `handleSessionMessage`. -/
def onWaitingName (s : State) (msg : Message) (session : UserSession) : Option State :=
  (session.set "client_name" msg.Text).bind fun session =>
  let session := { session with Step := "waiting_phone" }
  let s := s.send (Request.message msg.ChatID "Укажите ваш номер телефона:"
    [[Button.data "← Назад" "back_to_gender"]])
  some (saveUserSession s msg.FromID session)

/-- The case `waiting_phone` of `handleSessionMessage`. -/
def onWaitingPhone (cfg : Config) (env : Env) (s : State) (msg : Message)
    (session : UserSession) : Option State :=
  (session.set "client_phone" msg.Text).bind fun session =>
  let session := { session with Step := "" }
  let s := saveUserSession s msg.FromID session
  showDatePageMessage cfg env s msg 0

/-- Go `handleSessionMessage`, the switch over `session.Step`; each case is the
function above of its name. The argument `session` is the pointer stored in
`userSessions` for the sender, so the writes to it are writes to the table. -/
def handleSessionMessage (cfg : Config) (env : Env) (s : State) (msg : Message)
    (session : UserSession) : Option State :=
  if session.Step = "master_login" then onMasterLogin s msg session
  else if session.Step = "add_master_name" then onAddMasterName s msg session
  else if session.Step = "add_master_code" then onAddMasterCode s msg session
  else if session.Step = "add_master_contact" then onAddMasterContact s msg session
  else if session.Step = "waiting_name" then onWaitingName s msg session
  else if session.Step = "waiting_phone" then onWaitingPhone cfg env s msg session
  else some s

/-- The switch of `handleMessage` over the lower-cased text of a client without
a session. -/
def handleCommand (cfg : Config) (env : Env) (s : State) (msg : Message) : Option State :=
  let text := toLower msg.Text
  if text = "/start" then some (start cfg s msg)
  else if contains text "записаться" then some (bookStart s msg)
  else if contains text "админ панель" then
    if isAdmin cfg msg.FromID then some (adminPanel s msg.ChatID) else some s
  else if contains text "другие возможности" then some (otherOptions s msg)
  else if contains text "мои записи" then some (showMyBookings env s msg)
  else some s

/-- Go `handleMessage`. -/
def handleMessage (cfg : Config) (env : Env) (s : State) (msg : Message) : Option State :=
  match s.userSessions msg.FromID with
  | some session => handleSessionMessage cfg env s msg session
  | none => handleCommand cfg env s msg

/-- The branch `package_` of `handleCallback`: a package of the catalog is stored
in the session and the gender choice is shown; an unknown key does nothing. -/
def onPackage (s : State) (cb : CallbackQuery) : Option State :=
  let key := trimPrefix cb.Data "package_"
  match mapGet s.packages key with
  | some pkg =>
    let session := (getSession s cb.FromID).1
    let s := (getSession s cb.FromID).2
    let session := { session with Step := "package_selected" }
    (session.set "package" key).bind fun session =>
    let s := setSession s cb.FromID session
    let s := s.send (Request.edit cb.ChatID cb.MessageID (packageText pkg) genderMarkup)
    some (s.answer cb "" false)
  | none => some s

/-- The branch `back_packages` of `handleCallback`. -/
def onBackPackages (s : State) (cb : CallbackQuery) : Option State :=
  let markup := createServiceKeyboard s
  let s := s.send (Request.edit cb.ChatID cb.MessageID
    "Виды хиджамы и стоимость\n\nСтерильно по ГОСТ ISO 11135-2017" markup)
  some (s.answer cb "" false)

/-- The branch `gender_male`, `gender_female` of `handleCallback`. -/
def onGender (s : State) (cb : CallbackQuery) : Option State :=
  let gender := if cb.Data = "gender_female" then "female" else "male"
  let session := (getSession s cb.FromID).1
  let s := (getSession s cb.FromID).2
  (session.set "gender" gender).bind fun session =>
  let s := setSession s cb.FromID session
  let s := s.send (Request.edit cb.ChatID cb.MessageID "Вам есть 18 лет?"
    [[Button.data "Да, 18+" "age_yes"], [Button.data "Нет" "age_no"]])
  some (s.answer cb "" false)

/-- The branch `age_no` of `handleCallback`. -/
def onAgeNo (s : State) (cb : CallbackQuery) : Option State :=
  let s := s.send (Request.edit cb.ChatID cb.MessageID
    "Услуга доступна только лицам старше 18 лет" [])
  some (s.answer cb "" false)

/-- The branch `age_yes` of `handleCallback`. -/
def onAgeYes (s : State) (cb : CallbackQuery) : Option State :=
  let s := s.send (Request.edit cb.ChatID cb.MessageID
    "Прежде чем начать запись, укажите свое имя:" [[Button.data "← Назад" "back_to_gender"]])
  let session := (getSession s cb.FromID).1
  let s := (getSession s cb.FromID).2
  let session := { session with Step := "waiting_name" }
  let s := setSession s cb.FromID session
  some (s.answer cb "" false)

/-- The branch `date_page_` of `handleCallback`; the page stays 0 when the scan fails. -/
def onDatePage (cfg : Config) (env : Env) (s : State) (cb : CallbackQuery) : Option State :=
  let pageStr := trimPrefix cb.Data "date_page_"
  let page := (scanInt pageStr.data).getD 0
  showDatePage cfg env s cb page

/-- The branch `back_to_gender` of `handleCallback`. -/
def onBackToGender (s : State) (cb : CallbackQuery) : Option State :=
  let session := (getSession s cb.FromID).1
  let s := (getSession s cb.FromID).2
  let pkgKey := (session.get "package").getD ""
  let ok := (session.get "package").isSome
  if !ok || pkgKey = "" then
    let markup := createServiceKeyboard s
    let s := s.send (Request.edit cb.ChatID cb.MessageID "Выберите услугу:" markup)
    some (s.answer cb "" false)
  else
    let pkg := (mapGet s.packages pkgKey).getD Package.zero
    let s := s.send (Request.edit cb.ChatID cb.MessageID (packageText pkg) genderMarkup)
    some (s.answer cb "" false)

/-- The branch `date_` of `handleCallback`. -/
def onDate (s : State) (cb : CallbackQuery) : Option State :=
  if !hasPrefix cb.Data "date_page_" then
    let dateStr := trimPrefix cb.Data "date_"
    let session := (getSession s cb.FromID).1
    let s := (getSession s cb.FromID).2
    (session.set "date" dateStr).bind fun session =>
    let s := setSession s cb.FromID session
    some (showTimeSelection s cb dateStr)
  else some s

/-- The branch `time_` of `handleCallback`. -/
def onTime (env : Env) (s : State) (cb : CallbackQuery) : Option State :=
  let parts := splitUnderscore cb.Data
  if parts.length ≥ 3 then
    let timeStr := (parts.get? 2).getD ""
    let session := (getSession s cb.FromID).1
    let s := (getSession s cb.FromID).2
    (session.set "time" timeStr).bind fun session =>
    let s := setSession s cb.FromID session
    some (showMasterSelection env s cb)
  else some s

/-- The branch `master_` of `handleCallback`. -/
def onMaster (s : State) (cb : CallbackQuery) : Option State :=
  let master := trimPrefix cb.Data "master_"
  let session := (getSession s cb.FromID).1
  let s := (getSession s cb.FromID).2
  (session.set "master" master).bind fun session =>
  let s := setSession s cb.FromID session
  some (showBookingConfirmation s cb)

/-- The branch `back_to_time` of `handleCallback`. -/
def onBackToTime (cfg : Config) (env : Env) (s : State) (cb : CallbackQuery) : Option State :=
  let session := (getSession s cb.FromID).1
  let s := (getSession s cb.FromID).2
  let date := (session.get "date").getD ""
  let ok := (session.get "date").isSome
  if !ok || date = "" then showDatePage cfg env s cb 0
  else some (showTimeSelection s cb date)

/-- Go `handleCallback`, the chain of tests on the callback data in the order of
the source; a branch written in place in the source is the function above of
its name. -/
def handleCallback (cfg : Config) (env : Env) (s : State) (cb : CallbackQuery) : Option State :=
  let data := cb.Data
  if hasPrefix data "package_" then onPackage s cb
  else if data = "back_packages" then onBackPackages s cb
  else if data = "gender_male" ∨ data = "gender_female" then onGender s cb
  else if data = "age_no" then onAgeNo s cb
  else if data = "age_yes" then onAgeYes s cb
  else if hasPrefix data "date_page_" then onDatePage cfg env s cb
  else if data = "back_to_gender" then onBackToGender s cb
  else if hasPrefix data "date_" then onDate s cb
  else if hasPrefix data "time_" then onTime env s cb
  else if data = "back_to_date" then showDatePage cfg env s cb 0
  else if hasPrefix data "master_" then onMaster s cb
  else if data = "back_to_time" then onBackToTime cfg env s cb
  else if data = "confirm_booking" then finalizeBooking cfg env s cb
  else if data = "back_to_master" then some (showMasterSelection env s cb)
  else if data = "admin_masters_btn" then some (showAdminMasters s cb)
  else if data = "admin_developer" then some (showDeveloperPanel s cb)
  else if data = "admin_back" then some (showAdminMain s cb)
  else if hasPrefix data "master_profile_" then
    some (showMasterProfileLogin s cb (trimPrefix data "master_profile_"))
  else if data = "add_master_start" then some (startAddMaster s cb)
  else if hasPrefix data "gender_master_" then processMasterGender s cb data
  else if hasPrefix data "master_bookings_" then some (showMasterBookings s cb data)
  else if hasPrefix data "master_profit_" then some (showMasterProfit s cb data)
  else if hasPrefix data "master_notify_" then some (toggleMasterNotify s cb data)
  else if hasPrefix data "master_back_" then some (backToMasterProfile s cb data)
  else if hasPrefix data "cancel_booking_" then some (cancelUserBooking cfg env s cb data)
  else some s

/-- Go `handleUpdate`. -/
def handleUpdate (cfg : Config) (env : Env) (s : State) (update : Update) : Option State :=
  match update with
  | Update.message msg => handleMessage cfg env s msg
  | Update.callback cb => handleCallback cfg env s cb
  | Update.other => some s

/-- The loop of `main` over the updates, each handled in the environment it arrives
in; `none` when a handler panics, which ends the process. -/
def run (cfg : Config) (s : State) : List (Env × Update) → Option State
  | [] => some s
  | (env, update) :: rest => (handleUpdate cfg env s update).bind fun s => run cfg s rest

/-! ## Vocabulary of the properties -/

/-- The callback data a button carries, if it is an inline data button. -/
def Button.callbackData : Button → Option String
  | Button.data _ d => some d
  | Button.url _ _ => none
  | Button.key _ => none

/-- The keyboard sent with a request. -/
def Request.markup : Request → List (List Button)
  | Request.message _ _ m => m
  | Request.edit _ _ _ m => m
  | Request.callback _ _ _ => []

/-- The menu choices a request offers: the callback data of its buttons. -/
def Request.buttonData (r : Request) : List String :=
  r.markup.flatten.filterMap Button.callbackData

/-- The requests issued while a handler took the state `s` to `s'`. -/
def issued (s s' : State) : List Request := s'.sent.drop s.sent.length

/-- The provider names that a list of requests offers for selection: the rest of
the callback data `master_<name>` of their buttons. -/
def offeredProviders (reqs : List Request) : List String :=
  (reqs.flatMap Request.buttonData).filterMap fun d =>
    if hasPrefix d "master_" then some (trimPrefix d "master_") else none

/-- Number of rows with status `booked` for a (date, time, provider) triple. -/
def countBooked (slots : List Slot) (date time master : String) : Nat :=
  (slots.filter fun r =>
    r.Date = date ∧ r.Time = time ∧ r.MasterName = master ∧ r.Status = "booked").length

/-- The ledger invariant: at most one booked row for each triple. -/
def atMostOneBooked (slots : List Slot) : Prop :=
  ∀ date time master, countBooked slots date time master ≤ 1

/-! ### Sample data -/

/-- A provider of the sample catalog. -/
def anna : Master :=
  { ID := "anna", Name := "Anna", Code := "1234", Contact := "@anna", Gender := "female",
    Active := true }

/-- A package of the sample catalog. -/
def complexPackage : Package :=
  { Key := "complex", Name := "complex", Price := 3000, Desc := "full" }

/-- The configured zone and two administrators. -/
def moscowCfg : Config := { Admins := [348038520, 1831673006], tzOffset := 10800 }

/-- A state after start-up: the sample catalog, no session, an empty ledger. -/
def freshState : State :=
  { userSessions := fun _ => none
    masters := [("anna", anna)]
    packages := [("complex", complexPackage)]
    masterNotifications := []
    bookingsLog := []
    slots := []
    sent := [] }

/-- An environment in which the store answers every call, at the given instant. -/
def envAt (now : Int) : Env := { now := now, readFails := false, writeFails := false }

/-- The callback query of a menu choice of a client in the private chat with the bot. -/
def query (userID : Int) (data : String) : CallbackQuery :=
  { ID := "cb", FromID := userID, UserName := "client", ChatID := userID, MessageID := 1,
    Data := data }

/-- A menu choice of a client in the private chat with the bot. -/
def click (userID : Int) (data : String) : Update := Update.callback (query userID data)

/-- A text message of a client in the private chat with the bot. -/
def say (userID : Int) (text : String) : Update :=
  Update.message { FromID := userID, UserName := "client", ChatID := userID, Text := text }

/-- A booked row of the sample ledger: 10 March 2025, 14:00, with Anna. -/
def sampleSlot : Slot :=
  { ID := 7, Date := "2025-03-10", Time := "14:00", Gender := "male", MasterName := "Anna",
    Status := "booked", UserID := some "5", Username := some "client",
    BookedAt := some "2025-03-03 12:00:00", Source := "bot", ClientName := some "Ivan",
    ClientPhone := some "+79990000000", PackageName := some "complex" }

/-- The sample state in which client 5 holds a session with the given fields. -/
def stateWithSession (fields : List (String × String)) : State :=
  { freshState with
    userSessions := fun u => if u = 5 then some { Step := "", Data := some fields } else none }

/-- The sample state with the given ledger. -/
def stateWithLedger (slots : List Slot) : State := { freshState with slots := slots }

/-- An environment in which the store fails its reads. -/
def envReadFails (now : Int) : Env := { now := now, readFails := true, writeFails := false }

/-- The map of the session that `getSession` returns: the stored one, empty when
there is no session or the stored map is nil. -/
def sessionData (s : State) (u : Int) : List (String × String) :=
  ((s.userSessions u).bind fun x => x.Data).getD []

/-- The step of the session that `getSession` returns. -/
def sessionStep (s : State) (u : Int) : String :=
  ((s.userSessions u).map fun x => x.Step).getD ""

/-- The state `s'` agrees with `s` on the package catalog, on the ledger and on the
session of every client other than `u`. -/
def frame (u : Int) (s s' : State) : Prop :=
  s'.packages = s.packages ∧ s'.slots = s.slots ∧
    ∀ v, v ≠ u → s'.userSessions v = s.userSessions v

/-- The session of the client names a date, a time and a provider for which the
ledger already holds a booked row. -/
def sessionSlotTaken (s : State) (userID : Int) : Bool :=
  match (loadUserSession s userID).get "date", (loadUserSession s userID).get "time",
    (loadUserSession s userID).get "master" with
  | some date, some time, some master => decide (countBooked s.slots date time master ≠ 0)
  | _, _, _ => false

/-- The update is a `confirm_booking` of a client whose session names a slot that
the ledger already holds as booked. -/
def confirmsTakenSlot (s : State) (update : Update) : Bool :=
  match update with
  | Update.callback cb => decide (cb.Data = "confirm_booking") && sessionSlotTaken s cb.FromID
  | _ => false

/-- The states the process goes through while it handles the updates, the initial
one first; the list ends with the state before a handler that panics. -/
def reached (cfg : Config) (s : State) : List (Env × Update) → List State
  | [] => [s]
  | (env, update) :: rest =>
    s :: (match handleUpdate cfg env s update with
      | some s' => reached cfg s' rest
      | none => [])

/-- No update of the run is a `confirm_booking` for a slot already booked at the
time the update is handled. -/
def neverConfirmsTaken (cfg : Config) (s : State) : List (Env × Update) → Bool
  | [] => true
  | (env, update) :: rest =>
    !confirmsTakenSlot s update &&
      (match handleUpdate cfg env s update with
        | some s' => neverConfirmsTaken cfg s' rest
        | none => true)

/-- The choices of a client from the book keyword to the provider, with the given
gender choice, all handled in the same environment. -/
def selectionFlow (env : Env) (userID : Int) (gender name phone date time master : String) :
    List (Env × Update) :=
  [(env, say userID "записаться"), (env, click userID "package_complex"),
   (env, click userID gender), (env, click userID "age_yes"), (env, say userID name),
   (env, say userID phone), (env, click userID ("date_" ++ date)),
   (env, click userID ("time_" ++ date ++ "_" ++ time)),
   (env, click userID ("master_" ++ master))]

/-- The instant 8 March 2025, 15:00 Moscow time, with a store that answers. -/
def march8 : Env := envAt 1741435200

/-- Two clients select the same slot while it is free, then both confirm. -/
def raceEvents : List (Env × Update) :=
  selectionFlow march8 5 "gender_male" "Ivan" "+79990000000" "2025-03-10" "14:00" "Anna"
    ++ selectionFlow march8 6 "gender_male" "Oleg" "+79990000001" "2025-03-10" "14:00" "Anna"
    ++ [(march8, click 5 "confirm_booking"), (march8, click 6 "confirm_booking")]

/-- Two clients book different hours of the same day with the same provider. -/
def twoBookings : List (Env × Update) :=
  selectionFlow march8 5 "gender_male" "Ivan" "+79990000000" "2025-03-10" "14:00" "Anna"
    ++ [(march8, click 5 "confirm_booking")]
    ++ selectionFlow march8 6 "gender_male" "Oleg" "+79990000001" "2025-03-10" "15:00" "Anna"
    ++ [(march8, click 6 "confirm_booking")]

/-- The sender of an update is the given client (an update that is neither a
message nor a callback has no sender and is ignored by the engine). -/
def fromClient (userID : Int) : Update → Bool
  | Update.message msg => decide (msg.FromID = userID)
  | Update.callback cb => decide (cb.FromID = userID)
  | Update.other => true

/-- The update is the affirmative answer to the 18+ question. -/
def isAgeYes : Update → Bool
  | Update.callback cb => decide (cb.Data = "age_yes")
  | _ => false

/-- A request sent so far offers the menu choice: one of its buttons carries the data. -/
def offered (s : State) (data : String) : Bool :=
  s.sent.any fun r => decide (data ∈ r.buttonData)

/-- A menu choice is one that the engine has offered; a text message is free. -/
def choiceOffered (s : State) : Update → Bool
  | Update.callback cb => offered s cb.Data
  | _ => true

/-- Every menu choice of the run is offered by a request sent earlier in the run. -/
def choicesOffered (cfg : Config) (s : State) : List (Env × Update) → Bool
  | [] => true
  | (env, update) :: rest =>
    choiceOffered s update &&
      (match handleUpdate cfg env s update with
        | some s' => choicesOffered cfg s' rest
        | none => true)

/-- The menu choices other than those that only the prompts after the age gate
offer: the dates and date pages and the two ways back to them. -/
def safeChoice (data : String) : Bool :=
  !hasPrefix data "date_" && decide (data ≠ "back_to_date") && decide (data ≠ "back_to_time")

/-- A session that has not passed the age gate: it waits for neither the name nor
the phone, and holds no date. -/
def sessionBeforeAgeGate (x : UserSession) : Prop :=
  x.Step ≠ "waiting_name" ∧ x.Step ≠ "waiting_phone" ∧ x.get "date" = none

/-- The state of a client who has not passed the age gate: no request sent offers
a date, a date page or a way back to them, and the session of the client, if any,
has not passed the gate. -/
def beforeAgeGate (u : Int) (s : State) : Prop :=
  (∀ r ∈ s.sent, ∀ d ∈ r.buttonData, safeChoice d = true)
    ∧ ∀ x, s.userSessions u = some x → sessionBeforeAgeGate x

/-- A client reaches the confirmation without the 18+ answer, by choices that no
prompt offered at that point. -/
def skipAgeEvents : List (Env × Update) :=
  [(march8, click 5 "package_complex"), (march8, click 5 "gender_male"),
   (march8, click 5 "date_2025-03-10"), (march8, click 5 "time_2025-03-10_14:00"),
   (march8, click 5 "master_Anna"), (march8, click 5 "confirm_booking")]

/-- A client declines the 18+ question and then tries the book keyword, her
bookings and the package menu again. -/
def declineEvents : List (Env × Update) :=
  [(march8, say 5 "записаться"), (march8, click 5 "package_complex"),
   (march8, click 5 "gender_male"), (march8, click 5 "age_no"),
   (march8, click 5 "back_packages"), (march8, click 5 "package_complex"),
   (march8, say 5 "мои записи")]

/-- Two character lists differ at a position that both have. -/
def diverge : List Char → List Char → Bool
  | [], _ => false
  | _, [] => false
  | a :: as, b :: bs => a != b || diverge as bs

/-- The sender of an update, if it has one. -/
def Update.sender : Update → Option Int
  | Update.message msg => some msg.FromID
  | Update.callback cb => some cb.FromID
  | Update.other => none

/-- The update is the menu choice `data` of the client `u`. -/
def isChoice (u : Int) (data : String) (update : Update) : Prop :=
  ∃ cb, update = Update.callback cb ∧ cb.FromID = u ∧ cb.Data = data

/-- The update is the text message `text` of the client `u`. -/
def isText (u : Int) (text : String) (update : Update) : Prop :=
  ∃ msg, update = Update.message msg ∧ msg.FromID = u ∧ msg.Text = text

/-- The text of the last prompt (new or edited message) sent. -/
def lastPromptText (s : State) : Option String :=
  s.sent.foldl
    (fun last r =>
      match r with
      | Request.message _ text _ => some text
      | Request.edit _ _ text _ => some text
      | Request.callback _ _ _ => last)
    none

/-- No update of a client other than `u` makes its handler panic: along the run, a
panic may only occur at an update of `u`. -/
def othersSurvive (cfg : Config) (u : Int) (s : State) : List (Env × Update) → Bool
  | [] => true
  | (env, update) :: rest =>
    match handleUpdate cfg env s update with
    | some s' => othersSurvive cfg u s' rest
    | none => decide (update.sender = some u)

/-- The sessions of `s'` hold what those of `s` hold: for every client the same
fields, the same step, and a session exists in one exactly when it does in the
other. (A nil map and an empty map hold the same fields: none.) -/
def sameSessions (s s' : State) : Prop :=
  ∀ v, sessionData s' v = sessionData s v ∧ sessionStep s' v = sessionStep s v
    ∧ (s'.userSessions v).isSome = (s.userSessions v).isSome

/-- The sample state in which client 5 is asked for the access code of Anna. -/
def loginState : State :=
  { freshState with
    userSessions := fun u =>
      if u = 5 then some { Step := "master_login", Data := some [("master_id", "anna")] }
      else none }

/-- The day number of today in the location `tz`: `time.Now().In(tz)` of
`showDatePage`, reduced to its calendar date. -/
def todayIn (cfg : Config) (env : Env) : Int := (env.now + cfg.tzOffset) / 86400

/-- The row of the date keyboard for one date: the body of the loop of
`showDatePage` over the dates of the page. -/
def dateRow (date : Int) : List Button :=
  [Button.data (formatDayMonth date ++ " (" ++ weekdayName date ++ ")")
    ("date_" ++ formatDate date)]

/-- The dates of a page, the slice `dates[start:end]` of `showDatePage` and
`showDatePageMessage`; `none` is the panic of the slice expression. -/
def pageDates (cfg : Config) (env : Env) (page : Int) : Option (List Int) :=
  let today := (env.now + cfg.tzOffset) / 86400
  let dates := (List.range 30).map fun (i : Nat) => today + (i : Int)
  let datesPerPage : Int := 5
  let start := wrap64 (page * datesPerPage)
  let stop := wrap64 (start + datesPerPage)
  let stop := if stop > 30 then 30 else stop
  if start < 0 ∨ stop < start then none
  else some ((dates.drop start.toNat).take (stop - start).toNat)

/-- The text contains the keyword in some letter case: a piece of the text
becomes the keyword when each of its letters is lower-cased. -/
def mentions (text kw : String) : Prop :=
  ∃ pre mid post : List Char, text.data = pre ++ mid ++ post ∧ mid.map toLowerRune = kw.data

/-- The chats to which the requests send a new message, in the order of sending. -/
def messageChats (reqs : List Request) : List Int :=
  reqs.filterMap fun r =>
    match r with
    | Request.message chatID _ _ => some chatID
    | _ => none

/-- Go `cancelUserBooking` with the lookup `getBookingByID`, which the sources at
hand call and do not define, as a parameter: the call passes the booking id only,
so the lookup is a function of the store and the id. -/
def cancelUserBookingVia (lookup : Env → List Slot → Int → Option Slot) (cfg : Config)
    (env : Env) (s : State) (cb : CallbackQuery) (data : String) : State :=
  let bookingID := scanBookingID data
  match lookup env s.slots bookingID with
  | none => s.answer cb "Ошибка при отмене" true
  | some booking =>
    match cancelBooking env s.slots bookingID with
    | none => s.answer cb "Ошибка при отмене" true
    | some slots =>
      let s := { s with slots := slots }
      let s := s.send (Request.edit cb.ChatID cb.MessageID "✅ Запись отменена" [])
      let s := cfg.Admins.foldl
        (fun s admin => s.send (Request.message admin
          ("❌ Отмена записи\n\n👨⚕️ " ++ booking.MasterName ++ "\n📅 " ++ booking.Date ++ "\n🕐 "
            ++ booking.Time ++ "\n💬 @" ++ cb.UserName) []))
        s
      s.answer cb "Запись отменена" false

/-! ## Theorems -/

/-! ### Basic facts about the embedding -/

theorem mapGet_mapSet {α : Type} (m : List (String × α)) (k k' : String) (v : α) :
    mapGet (mapSet m k v) k' = if k = k' then some v else mapGet m k' := by
  induction m with
  | nil => simp [mapSet, mapGet]
  | cons e rest ih =>
    obtain ⟨k₀, v₀⟩ := e
    by_cases h : k₀ = k
    · subst h
      by_cases h' : k₀ = k' <;> simp [mapSet, mapGet, h']
    · by_cases h' : k₀ = k'
      · subst h'
        have : ¬ k = k₀ := fun e => h e.symm
        simp [mapSet, mapGet, h, this]
      · simp [mapSet, mapGet, h, h', ih]

@[simp] theorem send_slots (s : State) (r : Request) : (s.send r).slots = s.slots := rfl
@[simp] theorem send_masters (s : State) (r : Request) : (s.send r).masters = s.masters := rfl
@[simp] theorem send_packages (s : State) (r : Request) : (s.send r).packages = s.packages := rfl
@[simp] theorem send_userSessions (s : State) (r : Request) :
    (s.send r).userSessions = s.userSessions := rfl
@[simp] theorem send_sent (s : State) (r : Request) : (s.send r).sent = s.sent ++ [r] := rfl
@[simp] theorem answer_slots (s : State) (cb : CallbackQuery) (t : String) (a : Bool) :
    (s.answer cb t a).slots = s.slots := rfl
@[simp] theorem answer_masters (s : State) (cb : CallbackQuery) (t : String) (a : Bool) :
    (s.answer cb t a).masters = s.masters := rfl
@[simp] theorem answer_packages (s : State) (cb : CallbackQuery) (t : String) (a : Bool) :
    (s.answer cb t a).packages = s.packages := rfl
@[simp] theorem answer_userSessions (s : State) (cb : CallbackQuery) (t : String) (a : Bool) :
    (s.answer cb t a).userSessions = s.userSessions := rfl
@[simp] theorem answer_sent (s : State) (cb : CallbackQuery) (t : String) (a : Bool) :
    (s.answer cb t a).sent = s.sent ++ [Request.callback cb.ID t a] := rfl

@[simp] theorem saveUserSession_slots (s : State) (u : Int) (x : UserSession) :
    (saveUserSession s u x).slots = s.slots := rfl
@[simp] theorem saveUserSession_masters (s : State) (u : Int) (x : UserSession) :
    (saveUserSession s u x).masters = s.masters := rfl
@[simp] theorem saveUserSession_packages (s : State) (u : Int) (x : UserSession) :
    (saveUserSession s u x).packages = s.packages := rfl
@[simp] theorem saveUserSession_sent (s : State) (u : Int) (x : UserSession) :
    (saveUserSession s u x).sent = s.sent := rfl
@[simp] theorem saveUserSession_userSessions (s : State) (u : Int) (x : UserSession) :
    (saveUserSession s u x).userSessions = Function.update s.userSessions u (some x) := rfl
@[simp] theorem setSession_eq (s : State) (u : Int) (x : UserSession) :
    setSession s u x = saveUserSession s u x := rfl
@[simp] theorem deleteUserSession_slots (s : State) (u : Int) :
    (deleteUserSession s u).slots = s.slots := rfl
@[simp] theorem deleteUserSession_masters (s : State) (u : Int) :
    (deleteUserSession s u).masters = s.masters := rfl
@[simp] theorem deleteUserSession_packages (s : State) (u : Int) :
    (deleteUserSession s u).packages = s.packages := rfl
@[simp] theorem deleteUserSession_sent (s : State) (u : Int) :
    (deleteUserSession s u).sent = s.sent := rfl
@[simp] theorem deleteUserSession_userSessions (s : State) (u : Int) :
    (deleteUserSession s u).userSessions = Function.update s.userSessions u none := rfl
@[simp] theorem clearSession_eq (s : State) (u : Int) :
    clearSession s u = deleteUserSession s u := rfl

@[simp] theorem getSession_slots (s : State) (u : Int) : (getSession s u).2.slots = s.slots := by
  simp only [getSession]; cases (loadUserSession s u).Data <;> rfl
@[simp] theorem getSession_masters (s : State) (u : Int) :
    (getSession s u).2.masters = s.masters := by
  simp only [getSession]; cases (loadUserSession s u).Data <;> rfl
@[simp] theorem getSession_packages (s : State) (u : Int) :
    (getSession s u).2.packages = s.packages := by
  simp only [getSession]; cases (loadUserSession s u).Data <;> rfl
@[simp] theorem getSession_sent (s : State) (u : Int) : (getSession s u).2.sent = s.sent := by
  simp only [getSession]; cases (loadUserSession s u).Data <;> rfl

theorem getSession_fst (s : State) (u : Int) :
    (getSession s u).1 = { Step := sessionStep s u, Data := some (sessionData s u) } := by
  unfold getSession loadUserSession sessionStep sessionData
  cases h : s.userSessions u with
  | none => simp
  | some x =>
    obtain ⟨st, d⟩ := x
    cases d <;> simp

theorem getSession_fst_get (s : State) (u : Int) (k : String) :
    (getSession s u).1.get k = (loadUserSession s u).get k := by
  unfold getSession loadUserSession UserSession.get
  cases h : s.userSessions u with
  | none => simp
  | some x =>
    obtain ⟨st, d⟩ := x
    cases d <;> simp [mapGet]

/-! ### Helper lemmas on strings, maps and offers -/

/-- The scan of `%d` stops at an underscore and at any other character that is
not a digit; without a digit, and out of the 64-bit range, it fails. -/
theorem scanInt_examples :
    scanInt "7_0".data = some 7 ∧ scanInt "7".data = some 7 ∧ scanInt "-3".data = some (-3)
      ∧ scanInt "12ab".data = some 12 ∧ scanInt "".data = none ∧ scanInt "x1".data = none
      ∧ scanInt "99999999999999999999".data = none := by
  decide

theorem hasPrefix_append (p x : String) : hasPrefix (p ++ x) p = true := by
  simp [hasPrefix, String.data_append]

theorem trimPrefix_append (p x : String) : trimPrefix (p ++ x) p = x := by
  simp [trimPrefix, hasPrefix_append, String.data_append]

theorem mapGet_foldl_mapSet (rows : List Slot) (acc : List (String × Bool)) (name : String) :
    (mapGet (rows.foldl (fun booked slot => mapSet booked slot.MasterName true) acc) name).getD false
      = ((mapGet acc name).getD false || decide (∃ r ∈ rows, r.MasterName = name)) := by
  induction rows generalizing acc with
  | nil => simp
  | cons r rest ih =>
    simp only [List.foldl_cons, ih, mapGet_mapSet]
    by_cases h : r.MasterName = name
    · simp [h]
    · simp [h]

theorem getBookedMasters_get (env : Env) (slots : List Slot) (date time name : String)
    (hread : env.readFails = false) :
    (mapGet (getBookedMasters env slots date time) name).getD false = true ↔
      ∃ r ∈ slots, r.Date = date ∧ r.Time = time ∧ r.Status = "booked" ∧ r.MasterName = name := by
  simp [getBookedMasters, hread, mapGet_foldl_mapSet, bookedRows, mapGet, and_assoc]

theorem mem_availableMasters (masters : List (String × Master)) (booked : List (String × Bool))
    (name : String) :
    name ∈ availableMasters masters booked ↔
      (∃ e ∈ masters, e.2.Name = name) ∧ (mapGet booked name).getD false = false := by
  simp only [availableMasters, List.mem_map, List.mem_filter]
  constructor
  · rintro ⟨e, ⟨he, hb⟩, rfl⟩
    exact ⟨⟨e, he, rfl⟩, by simpa using hb⟩
  · rintro ⟨⟨e, he, rfl⟩, hb⟩
    exact ⟨e, ⟨he, by simpa using hb⟩, rfl⟩

theorem offeredProviders_selection (chat mid : Int) (text : String) (names : List String)
    (id t : String) (a : Bool) :
    offeredProviders
      [Request.edit chat mid text
        (names.map (fun master => [Button.data master ("master_" ++ master)])
          ++ [[Button.data "← Назад" "back_to_time"]]),
       Request.callback id t a] = names := by
  simp only [offeredProviders, List.flatMap_cons, List.flatMap_nil, Request.buttonData,
    Request.markup, List.flatten_append, List.filterMap_append, List.append_nil]
  have h1 : ∀ l : List String,
      List.filterMap (fun d => if hasPrefix d "master_" = true then some (trimPrefix d "master_") else none)
        (List.filterMap Button.callbackData
          (l.map (fun master => [Button.data master ("master_" ++ master)])).flatten) = l := by
    intro l
    induction l with
    | nil => rfl
    | cons x xs ih =>
      simp only [List.map_cons, List.flatten_cons, List.singleton_append, List.filterMap_cons,
        Button.callbackData, hasPrefix_append, trimPrefix_append, if_true, ih]
  rw [h1]
  have h2 : hasPrefix "back_to_time" "master_" = false := by decide
  simp [Button.callbackData, h2]

theorem issued_showMasterSelection (env : Env) (s : State) (cb : CallbackQuery) (d t : String)
    (hd : (loadUserSession s cb.FromID).get "date" = some d)
    (ht : (loadUserSession s cb.FromID).get "time" = some t)
    (hd0 : d ≠ "") (ht0 : t ≠ "") :
    issued s (showMasterSelection env s cb) =
      [Request.edit cb.ChatID cb.MessageID ("Выберите мастера на " ++ d ++ " " ++ t ++ ":")
        ((availableMasters s.masters (getBookedMasters env s.slots d t)).map
            (fun master => [Button.data master ("master_" ++ master)])
          ++ [[Button.data "← Назад" "back_to_time"]]),
       Request.callback cb.ID "" false] := by
  simp [issued, showMasterSelection, getSession_fst_get, hd, ht, hd0, ht0]


/-! ### Cancellation cutoff -/

/-- C1 (defect): on the booking of 10 March 2025 at 14:00 and the instant 13:00 of
that day in Moscow (10:00 UTC, Unix 1741600800), one hour before the appointment
on the clocks of the configured zone, `canCancelBooking` returns true, while the
rule of the specification gives false: `time.Parse` reads the stored date and
time as UTC, three hours later than the Moscow reading. -/
theorem canCancelBooking_reads_slot_as_utc :
    canCancelBooking sampleSlot 1741600800 = true
      ∧ cancellableSpec moscowCfg.tzOffset sampleSlot 1741600800 = false
      ∧ unixUTC 2025 3 10 14 0 - moscowCfg.tzOffset - 1741600800 = 3600 := by
  decide

/-! ### Availability -/

/-- The guard of `showMasterSelection` on a session that no menu produces: with
the empty date and the time 14:00, a successful read, Anna in the catalog and no
booked row, the step offers no provider; the empty date stops it. -/
theorem selection_with_empty_date_offers_nobody :
    (envAt 0).readFails = false
      ∧ (loadUserSession (stateWithSession [("date", ""), ("time", "14:00")]) 5).get "date"
          = some ""
      ∧ (loadUserSession (stateWithSession [("date", ""), ("time", "14:00")]) 5).get "time"
          = some "14:00"
      ∧ (∃ e ∈ (stateWithSession [("date", ""), ("time", "14:00")]).masters, e.2.Name = "Anna")
      ∧ (stateWithSession [("date", ""), ("time", "14:00")]).slots = []
      ∧ offeredProviders
          (issued (stateWithSession [("date", ""), ("time", "14:00")])
            (showMasterSelection (envAt 0) (stateWithSession [("date", ""), ("time", "14:00")])
              (query 5 "back_to_master"))) = [] := by
  refine ⟨rfl, by decide, by decide, ⟨("anna", anna), by decide, rfl⟩, rfl, by decide⟩

/-- C2: for every catalog, every ledger and every date and time that the client
holds from the date and time menus (strings in the calendar format, so neither is
empty), when the store read succeeds, the provider names the selection step
offers are exactly the catalog names with no row of status `booked` at that date
and time; when the slot has no booked row, they are all the catalog names. -/
theorem available_excludes_exactly_booked (env : Env) (s : State) (cb : CallbackQuery)
    (d t : String) (hread : env.readFails = false)
    (hd : (loadUserSession s cb.FromID).get "date" = some d)
    (ht : (loadUserSession s cb.FromID).get "time" = some t)
    (hd0 : d ≠ "") (ht0 : t ≠ "") :
    (∀ name, name ∈ offeredProviders (issued s (showMasterSelection env s cb)) ↔
      (∃ e ∈ s.masters, e.2.Name = name) ∧
        ¬ ∃ r ∈ s.slots, r.Date = d ∧ r.Time = t ∧ r.Status = "booked" ∧ r.MasterName = name)
    ∧ ((∀ r ∈ s.slots, ¬ (r.Date = d ∧ r.Time = t ∧ r.Status = "booked")) →
        offeredProviders (issued s (showMasterSelection env s cb))
          = s.masters.map fun e => e.2.Name) := by
  rw [issued_showMasterSelection env s cb d t hd ht hd0 ht0, offeredProviders_selection]
  constructor
  · intro name
    rw [mem_availableMasters, ← getBookedMasters_get env s.slots d t name hread]
    simp
  · intro hfree
    have hb : bookedRows s.slots d t = [] := by
      simp only [bookedRows, List.filter_eq_nil_iff]
      intro r hr
      simpa using hfree r hr
    simp [availableMasters, getBookedMasters, hread, hb, mapGet]

/-- Witness of C2: client 5 holds 10 March 2025, 14:00, in the sample state. -/
theorem available_excludes_exactly_booked_witness :
    (∀ name, name ∈ offeredProviders
        (issued (stateWithSession [("date", "2025-03-10"), ("time", "14:00")])
          (showMasterSelection (envAt 0)
            (stateWithSession [("date", "2025-03-10"), ("time", "14:00")])
            (query 5 "back_to_master"))) ↔
      (∃ e ∈ (stateWithSession [("date", "2025-03-10"), ("time", "14:00")]).masters,
          e.2.Name = name) ∧
        ¬ ∃ r ∈ (stateWithSession [("date", "2025-03-10"), ("time", "14:00")]).slots,
          r.Date = "2025-03-10" ∧ r.Time = "14:00" ∧ r.Status = "booked" ∧ r.MasterName = name)
    ∧ ((∀ r ∈ (stateWithSession [("date", "2025-03-10"), ("time", "14:00")]).slots,
          ¬ (r.Date = "2025-03-10" ∧ r.Time = "14:00" ∧ r.Status = "booked")) →
        offeredProviders
          (issued (stateWithSession [("date", "2025-03-10"), ("time", "14:00")])
            (showMasterSelection (envAt 0)
              (stateWithSession [("date", "2025-03-10"), ("time", "14:00")])
              (query 5 "back_to_master")))
          = (stateWithSession [("date", "2025-03-10"), ("time", "14:00")]).masters.map
              fun e => e.2.Name) :=
  available_excludes_exactly_booked (envAt 0)
    (stateWithSession [("date", "2025-03-10"), ("time", "14:00")]) (query 5 "back_to_master")
    "2025-03-10" "14:00" rfl (by decide) (by decide) (by decide) (by decide)

/-- C3 (as stated, refuted): the store read fails while client 5 holds 10 March
2025, 14:00; the selection step offers Anna, not the empty set. -/
theorem read_failure_still_offers_anna :
    (envReadFails 0).readFails = true
      ∧ offeredProviders
          (issued (stateWithSession [("date", "2025-03-10"), ("time", "14:00")])
            (showMasterSelection (envReadFails 0)
              (stateWithSession [("date", "2025-03-10"), ("time", "14:00")])
              (query 5 "back_to_master"))) = ["Anna"] := by
  refine ⟨rfl, by decide⟩

/-- C3 (amended): for a session holding a non-empty date and a non-empty time, if
the store read of the booked rows fails, the handler of the provider selection
returns normally and offers every provider of the catalog. -/
theorem read_failure_offers_whole_catalog (cfg : Config) (env : Env) (s : State)
    (cb : CallbackQuery) (d t : String) (hfail : env.readFails = true)
    (hcb : cb.Data = "back_to_master")
    (hd : (loadUserSession s cb.FromID).get "date" = some d)
    (ht : (loadUserSession s cb.FromID).get "time" = some t)
    (hd0 : d ≠ "") (ht0 : t ≠ "") :
    handleCallback cfg env s cb = some (showMasterSelection env s cb) ∧
    offeredProviders (issued s (showMasterSelection env s cb))
      = s.masters.map fun e => e.2.Name := by
  constructor
  · simp only [handleCallback, hcb]
    rfl
  · rw [issued_showMasterSelection env s cb d t hd ht hd0 ht0, offeredProviders_selection]
    simp [availableMasters, getBookedMasters, hfail, mapGet]

/-- Witness of C3 (amended): the read fails while client 5 holds 10 March 2025, 14:00. -/
theorem read_failure_offers_whole_catalog_witness :
    handleCallback moscowCfg (envReadFails 0)
        (stateWithSession [("date", "2025-03-10"), ("time", "14:00")]) (query 5 "back_to_master")
      = some (showMasterSelection (envReadFails 0)
          (stateWithSession [("date", "2025-03-10"), ("time", "14:00")])
          (query 5 "back_to_master")) ∧
    offeredProviders
        (issued (stateWithSession [("date", "2025-03-10"), ("time", "14:00")])
          (showMasterSelection (envReadFails 0)
            (stateWithSession [("date", "2025-03-10"), ("time", "14:00")])
            (query 5 "back_to_master")))
      = (stateWithSession [("date", "2025-03-10"), ("time", "14:00")]).masters.map
          fun e => e.2.Name :=
  read_failure_offers_whole_catalog moscowCfg (envReadFails 0)
    (stateWithSession [("date", "2025-03-10"), ("time", "14:00")]) (query 5 "back_to_master")
    "2025-03-10" "14:00" rfl rfl (by decide) (by decide) (by decide) (by decide)

/-! ### Cancellation -/

/-- C5 (defect): the cancel handler never consults the cutoff. With the booked row
7 for 10 March 2025, 14:00: at 13:00 Moscow time (Unix 1741600800) the rule of the
specification refuses the cancellation, and at 16:00 Moscow time (Unix 1741611600)
`canCancelBooking` itself refuses it; in both cases handling `cancel_booking_7`
sets the row to `cancelled`. -/
theorem cancel_choice_ignores_cutoff :
    cancellableSpec moscowCfg.tzOffset sampleSlot 1741600800 = false
      ∧ (handleCallback moscowCfg (envAt 1741600800) (stateWithLedger [sampleSlot])
          (query 5 "cancel_booking_7")).map (fun s => s.slots.map fun r => (r.ID, r.Status))
        = some [(7, "cancelled")]
      ∧ canCancelBooking sampleSlot 1741611600 = false
      ∧ (handleCallback moscowCfg (envAt 1741611600) (stateWithLedger [sampleSlot])
          (query 5 "cancel_booking_7")).map (fun s => s.slots.map fun r => (r.ID, r.Status))
        = some [(7, "cancelled")] := by
  decide

/-- C6: for a booked row `r` whose provider is in the catalog and which is the only
booked row of its (date, time, provider), a successful `cancelBooking` of `r.ID`
leaves a row with that id in the ledger, leaves the number of rows unchanged, and
the availability computation for (`r.Date`, `r.Time`) then lists the provider of
`r`, whether its own read succeeds or not. -/
theorem cancel_keeps_row_and_frees_provider (env env' : Env) (masters : List (String × Master))
    (slots slots' : List Slot) (r : Slot)
    (hr : r ∈ slots) (_hbooked : r.Status = "booked")
    (hcat : ∃ e ∈ masters, e.2.Name = r.MasterName)
    (honly : ∀ r' ∈ slots, r'.Status = "booked" → r'.Date = r.Date → r'.Time = r.Time →
      r'.MasterName = r.MasterName → r' = r)
    (hcancel : cancelBooking env slots r.ID = some slots') :
    (∃ r' ∈ slots', r'.ID = r.ID) ∧ slots'.length = slots.length ∧
      r.MasterName ∈ availableMasters masters (getBookedMasters env' slots' r.Date r.Time) := by
  unfold cancelBooking at hcancel
  split at hcancel
  · exact absurd hcancel (by simp)
  · have hs := Option.some.inj hcancel
    subst hs
    refine ⟨?_, by simp, ?_⟩
    · exact ⟨_, List.mem_map_of_mem _ hr, by simp⟩
    · rw [mem_availableMasters]
      refine ⟨hcat, ?_⟩
      cases hread : env'.readFails with
      | true => simp [getBookedMasters, hread, mapGet]
      | false =>
        have hiff := getBookedMasters_get env'
          (slots.map fun r' => if r'.ID = r.ID then
            { r' with Status := "cancelled", UserID := none, Username := none, BookedAt := none }
            else r') r.Date r.Time r.MasterName hread
        cases hget : (mapGet (getBookedMasters env'
          (slots.map fun r' => if r'.ID = r.ID then
            { r' with Status := "cancelled", UserID := none, Username := none, BookedAt := none }
            else r') r.Date r.Time) r.MasterName).getD false with
        | false => rfl
        | true =>
          exfalso
          obtain ⟨x, hx, hxd, hxt, hxs, hxm⟩ := hiff.mp hget
          obtain ⟨r0, hr0, rfl⟩ := List.mem_map.mp hx
          by_cases hid : r0.ID = r.ID
          · simp [hid] at hxs
          · simp only [hid, if_false] at hxd hxt hxs hxm
            exact hid (congrArg Slot.ID (honly r0 hr0 hxs hxd hxt hxm))

/-- Witness of C6: the sample ledger with the one booked row 7 of Anna. -/
theorem cancel_keeps_row_and_frees_provider_witness :
    (∃ r' ∈ [({ sampleSlot with
          Status := "cancelled", UserID := none, Username := none, BookedAt := none } : Slot)],
        r'.ID = sampleSlot.ID)
      ∧ [({ sampleSlot with
          Status := "cancelled", UserID := none, Username := none, BookedAt := none } : Slot)].length
        = [sampleSlot].length
      ∧ sampleSlot.MasterName ∈ availableMasters freshState.masters
          (getBookedMasters (envAt 0)
            [({ sampleSlot with
              Status := "cancelled", UserID := none, Username := none, BookedAt := none } : Slot)]
            sampleSlot.Date sampleSlot.Time) :=
  cancel_keeps_row_and_frees_provider (envAt 0) (envAt 0) freshState.masters [sampleSlot] _
    sampleSlot (by decide) rfl ⟨("anna", anna), by decide, rfl⟩ (by decide) rfl

/-- C7 (defect): cancelling the sample row 7 sets its status to `cancelled` and
clears the user id, the user name and the booking time, but the client name
"Ivan" and the client phone "+79990000000" stay in the row. -/
theorem cancel_keeps_client_name_and_phone :
    cancelBooking (envAt 0) [sampleSlot] 7
        = some [{ sampleSlot with
            Status := "cancelled", UserID := none, Username := none, BookedAt := none }]
      ∧ ({ sampleSlot with
            Status := "cancelled", UserID := none, Username := none, BookedAt := none }
          : Slot).ClientName = some "Ivan"
      ∧ ({ sampleSlot with
            Status := "cancelled", UserID := none, Username := none, BookedAt := none }
          : Slot).ClientPhone = some "+79990000000" := by
  decide

/-! ### Age gate -/

theorem isPrefixOf_trans {α : Type} [BEq α] [LawfulBEq α] {a b c : List α}
    (h1 : a.isPrefixOf b = true) (h2 : b.isPrefixOf c = true) : a.isPrefixOf c = true := by
  rw [List.isPrefixOf_iff_prefix] at *
  exact List.IsPrefix.trans h1 h2

theorem hasPrefix_of_longer {data p q : String} (hpq : hasPrefix q p = true)
    (h : hasPrefix data q = true) : hasPrefix data p = true :=
  isPrefixOf_trans hpq h

/-- Case analysis on the chain of `handleCallback`: a property of the result holds
when it holds for every branch under the test that selects the branch. The
branches for `master_profile_`, `master_bookings_`, `master_profit_`,
`master_notify_` and `master_back_` do not appear: data with one of these prefixes
has the prefix `master_`, whose branch comes before them in the chain. -/
theorem handleCallback_elim {cfg : Config} {env : Env} {s : State} {cb : CallbackQuery}
    (P : Option State → Prop)
    (hPackage : hasPrefix cb.Data "package_" = true → P (onPackage s cb))
    (hBackPackages : cb.Data = "back_packages" → P (onBackPackages s cb))
    (hGender : cb.Data = "gender_male" ∨ cb.Data = "gender_female" → P (onGender s cb))
    (hAgeNo : cb.Data = "age_no" → P (onAgeNo s cb))
    (hAgeYes : cb.Data = "age_yes" → P (onAgeYes s cb))
    (hDatePage : hasPrefix cb.Data "date_page_" = true → P (onDatePage cfg env s cb))
    (hBackToGender : cb.Data = "back_to_gender" → P (onBackToGender s cb))
    (hDate : hasPrefix cb.Data "date_" = true → P (onDate s cb))
    (hTime : hasPrefix cb.Data "time_" = true → P (onTime env s cb))
    (hBackToDate : cb.Data = "back_to_date" → P (showDatePage cfg env s cb 0))
    (hMaster : hasPrefix cb.Data "master_" = true → P (onMaster s cb))
    (hBackToTime : cb.Data = "back_to_time" → P (onBackToTime cfg env s cb))
    (hConfirm : cb.Data = "confirm_booking" → P (finalizeBooking cfg env s cb))
    (hBackToMaster : cb.Data = "back_to_master" → P (some (showMasterSelection env s cb)))
    (hAdminMasters : cb.Data = "admin_masters_btn" → P (some (showAdminMasters s cb)))
    (hDeveloper : cb.Data = "admin_developer" → P (some (showDeveloperPanel s cb)))
    (hAdminBack : cb.Data = "admin_back" → P (some (showAdminMain s cb)))
    (hAddMaster : cb.Data = "add_master_start" → P (some (startAddMaster s cb)))
    (hMasterGender : hasPrefix cb.Data "gender_master_" = true →
      P (processMasterGender s cb cb.Data))
    (hCancel : hasPrefix cb.Data "cancel_booking_" = true →
      P (some (cancelUserBooking cfg env s cb cb.Data)))
    (hElse : P (some s)) :
    P (handleCallback cfg env s cb) := by
  unfold handleCallback
  by_cases c1 : hasPrefix cb.Data "package_" = true
  · rw [if_pos c1]; exact hPackage c1
  rw [if_neg c1]
  by_cases c2 : cb.Data = "back_packages"
  · rw [if_pos c2]; exact hBackPackages c2
  rw [if_neg c2]
  by_cases c3 : cb.Data = "gender_male" ∨ cb.Data = "gender_female"
  · rw [if_pos c3]; exact hGender c3
  rw [if_neg c3]
  by_cases c4 : cb.Data = "age_no"
  · rw [if_pos c4]; exact hAgeNo c4
  rw [if_neg c4]
  by_cases c5 : cb.Data = "age_yes"
  · rw [if_pos c5]; exact hAgeYes c5
  rw [if_neg c5]
  by_cases c6 : hasPrefix cb.Data "date_page_" = true
  · rw [if_pos c6]; exact hDatePage c6
  rw [if_neg c6]
  by_cases c7 : cb.Data = "back_to_gender"
  · rw [if_pos c7]; exact hBackToGender c7
  rw [if_neg c7]
  by_cases c8 : hasPrefix cb.Data "date_" = true
  · rw [if_pos c8]; exact hDate c8
  rw [if_neg c8]
  by_cases c9 : hasPrefix cb.Data "time_" = true
  · rw [if_pos c9]; exact hTime c9
  rw [if_neg c9]
  by_cases c10 : cb.Data = "back_to_date"
  · rw [if_pos c10]; exact hBackToDate c10
  rw [if_neg c10]
  by_cases c11 : hasPrefix cb.Data "master_" = true
  · rw [if_pos c11]; exact hMaster c11
  rw [if_neg c11]
  by_cases c12 : cb.Data = "back_to_time"
  · rw [if_pos c12]; exact hBackToTime c12
  rw [if_neg c12]
  by_cases c13 : cb.Data = "confirm_booking"
  · rw [if_pos c13]; exact hConfirm c13
  rw [if_neg c13]
  by_cases c14 : cb.Data = "back_to_master"
  · rw [if_pos c14]; exact hBackToMaster c14
  rw [if_neg c14]
  by_cases c15 : cb.Data = "admin_masters_btn"
  · rw [if_pos c15]; exact hAdminMasters c15
  rw [if_neg c15]
  by_cases c16 : cb.Data = "admin_developer"
  · rw [if_pos c16]; exact hDeveloper c16
  rw [if_neg c16]
  by_cases c17 : cb.Data = "admin_back"
  · rw [if_pos c17]; exact hAdminBack c17
  rw [if_neg c17]
  by_cases c18 : hasPrefix cb.Data "master_profile_" = true
  · exact absurd (hasPrefix_of_longer (by decide) c18) c11
  rw [if_neg c18]
  by_cases c19 : cb.Data = "add_master_start"
  · rw [if_pos c19]; exact hAddMaster c19
  rw [if_neg c19]
  by_cases c20 : hasPrefix cb.Data "gender_master_" = true
  · rw [if_pos c20]; exact hMasterGender c20
  rw [if_neg c20]
  by_cases c21 : hasPrefix cb.Data "master_bookings_" = true
  · exact absurd (hasPrefix_of_longer (by decide) c21) c11
  rw [if_neg c21]
  by_cases c22 : hasPrefix cb.Data "master_profit_" = true
  · exact absurd (hasPrefix_of_longer (by decide) c22) c11
  rw [if_neg c22]
  by_cases c23 : hasPrefix cb.Data "master_notify_" = true
  · exact absurd (hasPrefix_of_longer (by decide) c23) c11
  rw [if_neg c23]
  by_cases c24 : hasPrefix cb.Data "master_back_" = true
  · exact absurd (hasPrefix_of_longer (by decide) c24) c11
  rw [if_neg c24]
  by_cases c25 : hasPrefix cb.Data "cancel_booking_" = true
  · rw [if_pos c25]; exact hCancel c25
  rw [if_neg c25]
  exact hElse

/-- Case analysis on the switch of `handleSessionMessage`. -/
theorem handleSessionMessage_elim {cfg : Config} {env : Env} {s : State} {msg : Message}
    {session : UserSession} (P : Option State → Prop)
    (hLogin : session.Step = "master_login" → P (onMasterLogin s msg session))
    (hName : session.Step = "add_master_name" → P (onAddMasterName s msg session))
    (hCode : session.Step = "add_master_code" → P (onAddMasterCode s msg session))
    (hContact : session.Step = "add_master_contact" → P (onAddMasterContact s msg session))
    (hWaitName : session.Step = "waiting_name" → P (onWaitingName s msg session))
    (hWaitPhone : session.Step = "waiting_phone" → P (onWaitingPhone cfg env s msg session))
    (hElse : P (some s)) :
    P (handleSessionMessage cfg env s msg session) := by
  unfold handleSessionMessage
  by_cases c1 : session.Step = "master_login"
  · rw [if_pos c1]; exact hLogin c1
  rw [if_neg c1]
  by_cases c2 : session.Step = "add_master_name"
  · rw [if_pos c2]; exact hName c2
  rw [if_neg c2]
  by_cases c3 : session.Step = "add_master_code"
  · rw [if_pos c3]; exact hCode c3
  rw [if_neg c3]
  by_cases c4 : session.Step = "add_master_contact"
  · rw [if_pos c4]; exact hContact c4
  rw [if_neg c4]
  by_cases c5 : session.Step = "waiting_name"
  · rw [if_pos c5]; exact hWaitName c5
  rw [if_neg c5]
  by_cases c6 : session.Step = "waiting_phone"
  · rw [if_pos c6]; exact hWaitPhone c6
  rw [if_neg c6]
  exact hElse

/-- Case analysis on the switch of `handleCommand`. -/
theorem handleCommand_elim {cfg : Config} {env : Env} {s : State} {msg : Message}
    (P : Option State → Prop)
    (hStart : P (some (start cfg s msg)))
    (hBook : P (some (bookStart s msg)))
    (hAdmin : P (some (adminPanel s msg.ChatID)))
    (hOther : P (some (otherOptions s msg)))
    (hMine : P (some (showMyBookings env s msg)))
    (hElse : P (some s)) :
    P (handleCommand cfg env s msg) := by
  unfold handleCommand
  dsimp only
  by_cases c1 : toLower msg.Text = "/start"
  · rw [if_pos c1]; exact hStart
  rw [if_neg c1]
  by_cases c2 : contains (toLower msg.Text) "записаться" = true
  · rw [if_pos c2]; exact hBook
  rw [if_neg c2]
  by_cases c3 : contains (toLower msg.Text) "админ панель" = true
  · rw [if_pos c3]
    by_cases c3' : isAdmin cfg msg.FromID = true
    · rw [if_pos c3']; exact hAdmin
    · rw [if_neg c3']; exact hElse
  rw [if_neg c3]
  by_cases c4 : contains (toLower msg.Text) "другие возможности" = true
  · rw [if_pos c4]; exact hOther
  rw [if_neg c4]
  by_cases c5 : contains (toLower msg.Text) "мои записи" = true
  · rw [if_pos c5]; exact hMine
  rw [if_neg c5]
  exact hElse



theorem getSession_userSessions_ne (s : State) (u v : Int) (hv : v ≠ u) :
    (getSession s u).2.userSessions v = s.userSessions v := by
  simp only [getSession]
  cases (loadUserSession s u).Data with
  | none => simp [Function.update_noteq hv]
  | some d => rfl

theorem frame_some {u : Int} {s s' x : State} (h : some x = some s') (hx : frame u s x) :
    frame u s s' := by
  cases h; exact hx

theorem frame_onPackage {s s' : State} {cb : CallbackQuery} (h : onPackage s cb = some s') :
    frame cb.FromID s s' := by
  simp only [onPackage] at h
  split at h
  · simp only [Option.bind_eq_some] at h
    obtain ⟨x, -, h⟩ := h
    refine frame_some h ⟨?_, ?_, fun v hv => ?_⟩ <;>
      simp [Function.update_noteq, getSession_userSessions_ne, *]
  · exact frame_some h ⟨rfl, rfl, fun _ _ => rfl⟩

theorem frame_onBackPackages {s s' : State} {cb : CallbackQuery}
    (h : onBackPackages s cb = some s') : frame cb.FromID s s' :=
  frame_some h ⟨rfl, rfl, fun _ _ => rfl⟩

theorem frame_onGender {s s' : State} {cb : CallbackQuery} (h : onGender s cb = some s') :
    frame cb.FromID s s' := by
  simp only [onGender, Option.bind_eq_some] at h
  obtain ⟨x, -, h⟩ := h
  refine frame_some h ⟨?_, ?_, fun v hv => ?_⟩ <;>
    simp [Function.update_noteq, getSession_userSessions_ne, *]

theorem frame_onAgeNo {s s' : State} {cb : CallbackQuery} (h : onAgeNo s cb = some s') :
    frame cb.FromID s s' :=
  frame_some h ⟨rfl, rfl, fun _ _ => rfl⟩

theorem frame_onAgeYes {s s' : State} {cb : CallbackQuery} (h : onAgeYes s cb = some s') :
    frame cb.FromID s s' := by
  simp only [onAgeYes] at h
  refine frame_some h ⟨?_, ?_, fun v hv => ?_⟩ <;>
    simp [Function.update_noteq, getSession_userSessions_ne, *]

theorem frame_showDatePage {cfg : Config} {env : Env} {s s' : State} {cb : CallbackQuery}
    {page : Int} (h : showDatePage cfg env s cb page = some s') : frame cb.FromID s s' := by
  simp only [showDatePage, Option.map_eq_some'] at h
  obtain ⟨rows, -, h⟩ := h
  subst h
  exact ⟨rfl, rfl, fun _ _ => rfl⟩

theorem frame_showDatePageMessage {cfg : Config} {env : Env} {s s' : State} {msg : Message}
    {page : Int} (h : showDatePageMessage cfg env s msg page = some s') :
    frame msg.FromID s s' := by
  simp only [showDatePageMessage, Option.map_eq_some'] at h
  obtain ⟨rows, -, h⟩ := h
  subst h
  exact ⟨rfl, rfl, fun _ _ => rfl⟩

theorem frame_onBackToGender {s s' : State} {cb : CallbackQuery}
    (h : onBackToGender s cb = some s') : frame cb.FromID s s' := by
  simp only [onBackToGender] at h
  split at h <;>
  · refine frame_some h ⟨?_, ?_, fun v hv => ?_⟩ <;>
      simp [getSession_userSessions_ne, *]

theorem frame_showTimeSelection (u : Int) (s : State) (cb : CallbackQuery) (d : String) :
    frame u s (showTimeSelection s cb d) := ⟨rfl, rfl, fun _ _ => rfl⟩

theorem frame_onDate {s s' : State} {cb : CallbackQuery} (h : onDate s cb = some s') :
    frame cb.FromID s s' := by
  simp only [onDate] at h
  split at h
  · simp only [Option.bind_eq_some] at h
    obtain ⟨x, -, h⟩ := h
    refine frame_some h ⟨?_, ?_, fun v hv => ?_⟩ <;>
      simp [showTimeSelection, Function.update_noteq, getSession_userSessions_ne, *]
  · exact frame_some h ⟨rfl, rfl, fun _ _ => rfl⟩

theorem frame_trans {u : Int} {a b c : State} (h1 : frame u a b) (h2 : frame u b c) :
    frame u a c :=
  ⟨h2.1.trans h1.1, h2.2.1.trans h1.2.1, fun v hv => (h2.2.2 v hv).trans (h1.2.2 v hv)⟩

theorem frame_getSession (u : Int) (s : State) : frame u s (getSession s u).2 :=
  ⟨by simp, by simp, fun v hv => getSession_userSessions_ne s u v hv⟩

theorem frame_save (u : Int) (s : State) (x : UserSession) : frame u s (saveUserSession s u x) :=
  ⟨rfl, rfl, fun v hv => by simp [Function.update_noteq hv]⟩

theorem frame_delete (u : Int) (s : State) : frame u s (deleteUserSession s u) :=
  ⟨rfl, rfl, fun v hv => by simp [Function.update_noteq hv]⟩

theorem frame_send (u : Int) (s : State) (r : Request) : frame u s (s.send r) :=
  ⟨rfl, rfl, fun _ _ => rfl⟩

theorem frame_answer (u : Int) (s : State) (cb : CallbackQuery) (t : String) (a : Bool) :
    frame u s (s.answer cb t a) := ⟨rfl, rfl, fun _ _ => rfl⟩

theorem frame_showMasterSelection (env : Env) (s : State) (cb : CallbackQuery) :
    frame cb.FromID s (showMasterSelection env s cb) := by
  simp only [showMasterSelection]
  have h := frame_getSession cb.FromID s
  split
  · exact frame_trans h (frame_answer _ _ _ _ _)
  · split
    · exact frame_trans h (frame_answer _ _ _ _ _)
    · exact frame_trans h (frame_trans (frame_send _ _ _) (frame_answer _ _ _ _ _))

theorem frame_showBookingConfirmation (s : State) (cb : CallbackQuery) :
    frame cb.FromID s (showBookingConfirmation s cb) := by
  simp only [showBookingConfirmation]
  have h := frame_getSession cb.FromID s
  split
  · exact frame_trans h (frame_answer _ _ _ _ _)
  · exact frame_trans h (frame_trans (frame_send _ _ _) (frame_answer _ _ _ _ _))

theorem frame_onTime {env : Env} {s s' : State} {cb : CallbackQuery}
    (h : onTime env s cb = some s') : frame cb.FromID s s' := by
  simp only [onTime] at h
  split at h
  · simp only [Option.bind_eq_some] at h
    obtain ⟨x, -, h⟩ := h
    cases h
    exact frame_trans (frame_getSession _ _)
      (frame_trans (frame_save _ _ _) (frame_showMasterSelection _ _ _))
  · exact frame_some h ⟨rfl, rfl, fun _ _ => rfl⟩

theorem frame_onMaster {s s' : State} {cb : CallbackQuery}
    (h : onMaster s cb = some s') : frame cb.FromID s s' := by
  simp only [onMaster, Option.bind_eq_some] at h
  obtain ⟨x, -, h⟩ := h
  cases h
  exact frame_trans (frame_getSession _ _)
    (frame_trans (frame_save _ _ _) (frame_showBookingConfirmation _ _))

theorem frame_onBackToTime {cfg : Config} {env : Env} {s s' : State} {cb : CallbackQuery}
    (h : onBackToTime cfg env s cb = some s') : frame cb.FromID s s' := by
  simp only [onBackToTime] at h
  split at h
  · exact frame_trans (frame_getSession _ _) (frame_showDatePage h)
  · cases h
    exact frame_trans (frame_getSession _ _) (frame_showTimeSelection _ _ _ _)

theorem frame_processMasterGender {s s' : State} {cb : CallbackQuery} {data : String}
    (h : processMasterGender s cb data = some s') : frame cb.FromID s s' := by
  simp only [processMasterGender] at h
  split at h
  · exact frame_some h ⟨rfl, rfl, fun _ _ => rfl⟩
  · split at h
    · exact frame_some h ⟨rfl, rfl, fun _ _ => rfl⟩
    · simp only [Option.bind_eq_some] at h
      obtain ⟨x, -, name, -, code, -, contact, -, h⟩ := h
      refine frame_some h ⟨rfl, rfl, fun v hv => ?_⟩
      simp [State.answer, State.send, deleteUserSession, saveUserSession,
        Function.update_noteq hv]

/-- Every branch of `handleCallback` other than the confirmation and the
cancellation leaves the packages, the ledger and the sessions of the other
clients as they are. -/
theorem handleCallback_frame {cfg : Config} {env : Env} {s s' : State} {cb : CallbackQuery}
    (h : handleCallback cfg env s cb = some s') :
    frame cb.FromID s s'
      ∨ (cb.Data = "confirm_booking" ∧ finalizeBooking cfg env s cb = some s')
      ∨ s' = cancelUserBooking cfg env s cb cb.Data := by
  revert h
  refine handleCallback_elim
    (fun r => r = some s' → frame cb.FromID s s'
      ∨ (cb.Data = "confirm_booking" ∧ finalizeBooking cfg env s cb = some s')
      ∨ s' = cancelUserBooking cfg env s cb cb.Data)
    ?_ ?_ ?_ ?_ ?_ ?_ ?_ ?_ ?_ ?_ ?_ ?_ ?_ ?_ ?_ ?_ ?_ ?_ ?_ ?_ ?_
  · exact fun _ h => Or.inl (frame_onPackage h)
  · exact fun _ h => Or.inl (frame_onBackPackages h)
  · exact fun _ h => Or.inl (frame_onGender h)
  · exact fun _ h => Or.inl (frame_onAgeNo h)
  · exact fun _ h => Or.inl (frame_onAgeYes h)
  · exact fun _ h => Or.inl (frame_showDatePage h)
  · exact fun _ h => Or.inl (frame_onBackToGender h)
  · exact fun _ h => Or.inl (frame_onDate h)
  · exact fun _ h => Or.inl (frame_onTime h)
  · exact fun _ h => Or.inl (frame_showDatePage h)
  · exact fun _ h => Or.inl (frame_onMaster h)
  · exact fun _ h => Or.inl (frame_onBackToTime h)
  · exact fun c h => Or.inr (Or.inl ⟨c, h⟩)
  · exact fun _ h => Or.inl (frame_some h (frame_showMasterSelection _ _ _))
  · exact fun _ h => Or.inl (frame_some h ⟨rfl, rfl, fun _ _ => rfl⟩)
  · exact fun _ h => Or.inl (frame_some h ⟨rfl, rfl, fun _ _ => rfl⟩)
  · exact fun _ h => Or.inl (frame_some h ⟨rfl, rfl, fun _ _ => rfl⟩)
  · exact fun _ h => Or.inl (frame_some h (frame_trans (frame_save _ _ _)
      (frame_trans (frame_send _ _ _) (frame_answer _ _ _ _ _))))
  · exact fun _ h => Or.inl (frame_processMasterGender h)
  · exact fun _ h => Or.inr (Or.inr (Option.some.inj h).symm)
  · exact fun h => Or.inl (frame_some h ⟨rfl, rfl, fun _ _ => rfl⟩)


theorem frame_showMasterProfile (u : Int) (s : State) (chat : Int) (masterID : String) :
    frame u s (showMasterProfile s chat masterID) := ⟨rfl, rfl, fun _ _ => rfl⟩

theorem frame_onMasterLogin {s s' : State} {msg : Message} {session : UserSession}
    (h : onMasterLogin s msg session = some s') : frame msg.FromID s s' := by
  simp only [onMasterLogin, Option.bind_eq_some] at h
  obtain ⟨masterID, -, h⟩ := h
  cases h
  split
  · exact frame_trans (frame_showMasterProfile _ _ _ _) (frame_delete _ _)
  · exact frame_trans (frame_send _ _ _) (frame_delete _ _)

theorem frame_onAddMasterName {s s' : State} {msg : Message} {session : UserSession}
    (h : onAddMasterName s msg session = some s') : frame msg.FromID s s' := by
  simp only [onAddMasterName, Option.bind_eq_some] at h
  obtain ⟨x, -, h⟩ := h
  exact frame_some h (frame_trans (frame_save _ _ _) (frame_send _ _ _))

theorem frame_onAddMasterCode {s s' : State} {msg : Message} {session : UserSession}
    (h : onAddMasterCode s msg session = some s') : frame msg.FromID s s' := by
  simp only [onAddMasterCode, Option.bind_eq_some] at h
  obtain ⟨x, -, h⟩ := h
  exact frame_some h (frame_trans (frame_save _ _ _) (frame_send _ _ _))

theorem frame_onAddMasterContact {s s' : State} {msg : Message} {session : UserSession}
    (h : onAddMasterContact s msg session = some s') : frame msg.FromID s s' := by
  simp only [onAddMasterContact, Option.bind_eq_some] at h
  obtain ⟨x, -, h⟩ := h
  exact frame_some h (frame_trans (frame_save _ _ _) (frame_send _ _ _))

theorem frame_onWaitingName {s s' : State} {msg : Message} {session : UserSession}
    (h : onWaitingName s msg session = some s') : frame msg.FromID s s' := by
  simp only [onWaitingName, Option.bind_eq_some] at h
  obtain ⟨x, -, h⟩ := h
  exact frame_some h (frame_trans (frame_send _ _ _) (frame_save _ _ _))

theorem frame_onWaitingPhone {cfg : Config} {env : Env} {s s' : State} {msg : Message}
    {session : UserSession} (h : onWaitingPhone cfg env s msg session = some s') :
    frame msg.FromID s s' := by
  simp only [onWaitingPhone, Option.bind_eq_some] at h
  obtain ⟨x, -, h⟩ := h
  exact frame_trans (frame_save _ _ _) (frame_showDatePageMessage h)

theorem frame_showMyBookings (u : Int) (env : Env) (s : State) (msg : Message) :
    frame u s (showMyBookings env s msg) := by
  simp only [showMyBookings]
  split
  · exact frame_send _ _ _
  · exact frame_send _ _ _
  · split <;> exact frame_send _ _ _

/-- A text message leaves the packages, the ledger and the sessions of the other
clients as they are. -/
theorem handleMessage_frame {cfg : Config} {env : Env} {s s' : State} {msg : Message}
    (h : handleMessage cfg env s msg = some s') : frame msg.FromID s s' := by
  unfold handleMessage at h
  split at h
  · revert h
    refine handleSessionMessage_elim (fun r => r = some s' → frame msg.FromID s s')
      ?_ ?_ ?_ ?_ ?_ ?_ ?_
    · exact fun _ h => frame_onMasterLogin h
    · exact fun _ h => frame_onAddMasterName h
    · exact fun _ h => frame_onAddMasterCode h
    · exact fun _ h => frame_onAddMasterContact h
    · exact fun _ h => frame_onWaitingName h
    · exact fun _ h => frame_onWaitingPhone h
    · exact fun h => frame_some h ⟨rfl, rfl, fun _ _ => rfl⟩
  · revert h
    refine handleCommand_elim (fun r => r = some s' → frame msg.FromID s s') ?_ ?_ ?_ ?_ ?_ ?_
    · exact fun h => frame_some h ⟨rfl, rfl, fun _ _ => rfl⟩
    · exact fun h => frame_some h ⟨rfl, rfl, fun _ _ => rfl⟩
    · exact fun h => frame_some h ⟨rfl, rfl, fun _ _ => rfl⟩
    · exact fun h => frame_some h ⟨rfl, rfl, fun _ _ => rfl⟩
    · exact fun h => frame_some h (frame_showMyBookings _ _ _ _)
    · exact fun h => frame_some h ⟨rfl, rfl, fun _ _ => rfl⟩

/-! ### Ledger effects of confirmation and cancellation -/

theorem foldl_send_slots (admins : List Int) (f : Int → Request) (s : State) :
    (admins.foldl (fun s admin => s.send (f admin)) s).slots = s.slots := by
  induction admins generalizing s with
  | nil => rfl
  | cons a rest ih => simp [List.foldl_cons, ih]

theorem foldl_send_packages (admins : List Int) (f : Int → Request) (s : State) :
    (admins.foldl (fun s admin => s.send (f admin)) s).packages = s.packages := by
  induction admins generalizing s with
  | nil => rfl
  | cons a rest ih => simp [List.foldl_cons, ih]

theorem foldl_send_userSessions (admins : List Int) (f : Int → Request) (s : State) :
    (admins.foldl (fun s admin => s.send (f admin)) s).userSessions = s.userSessions := by
  induction admins generalizing s with
  | nil => rfl
  | cons a rest ih => simp [List.foldl_cons, ih]

/-- What `finalizeBooking` does to the ledger: nothing, or it appends one row with
status `booked` for the date, time and provider of the session of the sender. -/
theorem finalizeBooking_slots {cfg : Config} {env : Env} {s s' : State} {cb : CallbackQuery}
    (h : finalizeBooking cfg env s cb = some s') :
    s'.slots = s.slots ∨ ∃ row, s'.slots = s.slots ++ [row] ∧ row.Status = "booked"
      ∧ (loadUserSession s cb.FromID).get "date" = some row.Date
      ∧ (loadUserSession s cb.FromID).get "time" = some row.Time
      ∧ (loadUserSession s cb.FromID).get "master" = some row.MasterName := by
  simp only [finalizeBooking, Option.bind_eq_some, getSession_fst_get] at h
  obtain ⟨date, hd, time, ht, master, hm, gender, -, pkgKey, -, h⟩ := h
  simp only [bookSlotWithPackage, getSession_slots] at h
  split at h
  · cases h
    left
    simp
  · rename_i slots hs
    cases h
    right
    by_cases hw : env.writeFails = true
    · simp [hw] at hs
    · rw [if_neg hw, Option.some.injEq] at hs
      subst hs
      refine ⟨{ ID := nextID s.slots, Date := date, Time := time, Gender := gender,
                MasterName := master, Status := "booked", UserID := some (fmtD cb.FromID),
                Username := some cb.UserName,
                BookedAt := some (formatDateTime (env.now + cfg.tzOffset)), Source := "bot",
                ClientName := some (((loadUserSession s cb.FromID).get "client_name").getD ""),
                ClientPhone := some (((loadUserSession s cb.FromID).get "client_phone").getD ""),
                PackageName := some ((mapGet s.packages pkgKey).getD Package.zero).Name },
        ?_, rfl, hd, ht, hm⟩
      simp [foldl_send_slots]

/-- What `cancelUserBooking` does to the ledger: nothing, or the update of
`cancelBooking` for some id. -/
theorem cancelUserBooking_slots (cfg : Config) (env : Env) (s : State) (cb : CallbackQuery)
    (data : String) :
    (cancelUserBooking cfg env s cb data).slots = s.slots
      ∨ cancelBooking env s.slots (scanBookingID data)
          = some (cancelUserBooking cfg env s cb data).slots := by
  simp only [cancelUserBooking]
  split
  · left; rfl
  · split
    · left; rfl
    · rename_i slots hs
      right
      simp [hs, foldl_send_slots]


theorem countBooked_append (l : List Slot) (row : Slot) (d t m : String) :
    countBooked (l ++ [row]) d t m
      = countBooked l d t m
        + (if row.Date = d ∧ row.Time = t ∧ row.MasterName = m ∧ row.Status = "booked"
            then 1 else 0) := by
  simp only [countBooked, List.filter_append, List.length_append]
  congr 1
  by_cases h : row.Date = d ∧ row.Time = t ∧ row.MasterName = m ∧ row.Status = "booked"
  · simp [List.filter_cons, h]
  · simp [List.filter_cons, h]

theorem countBooked_cancel_le (l : List Slot) (id : Int) (d t m : String) :
    countBooked (l.map fun r =>
        if r.ID = id then
          { r with Status := "cancelled", UserID := none, Username := none, BookedAt := none }
        else r) d t m ≤ countBooked l d t m := by
  induction l with
  | nil => simp [countBooked]
  | cons r rest ih =>
    simp only [countBooked, List.map_cons, List.filter_cons] at ih ⊢
    by_cases hid : r.ID = id
    · simp only [hid, if_true]
      have hc : ¬ ("cancelled" = "booked") := by decide
      simp only [hc, and_false, decide_False, Bool.false_eq_true, if_false]
      split
      · exact Nat.le_succ_of_le ih
      · exact ih
    · simp only [hid, if_false]
      split
      · simpa using ih
      · exact ih

theorem atMostOneBooked_cancel {env : Env} {slots slots' : List Slot} {id : Int}
    (hinv : atMostOneBooked slots) (h : cancelBooking env slots id = some slots') :
    atMostOneBooked slots' := by
  unfold cancelBooking at h
  split at h
  · cases h
  · cases h
    intro d t m
    exact le_trans (countBooked_cancel_le slots id d t m) (hinv d t m)

theorem atMostOneBooked_insert {slots : List Slot} {row : Slot}
    (hinv : atMostOneBooked slots)
    (hfree : countBooked slots row.Date row.Time row.MasterName = 0) :
    atMostOneBooked (slots ++ [row]) := by
  intro d t m
  rw [countBooked_append]
  by_cases h : row.Date = d ∧ row.Time = t ∧ row.MasterName = m ∧ row.Status = "booked"
  · obtain ⟨rfl, rfl, rfl, -⟩ := h
    rw [hfree]
    split <;> omega
  · simp only [h, if_false, Nat.add_zero]
    exact hinv d t m

/-- One update keeps the ledger invariant unless it confirms a slot that is
already booked. -/
theorem handleUpdate_keeps_invariant {cfg : Config} {env : Env} {s s' : State} {update : Update}
    (hinv : atMostOneBooked s.slots) (hfree : confirmsTakenSlot s update = false)
    (h : handleUpdate cfg env s update = some s') : atMostOneBooked s'.slots := by
  cases update with
  | message msg =>
    have hf := handleMessage_frame h
    rw [hf.2.1]; exact hinv
  | other =>
    cases h; exact hinv
  | callback cb =>
    rcases handleCallback_frame h with hf | ⟨hdata, hfin⟩ | hcancel
    · rw [hf.2.1]; exact hinv
    · rcases finalizeBooking_slots hfin with hsame | ⟨row, hrow, -, hd, ht, hm⟩
      · rw [hsame]; exact hinv
      · rw [hrow]
        apply atMostOneBooked_insert hinv
        simp only [confirmsTakenSlot, hdata, decide_True, Bool.true_and, sessionSlotTaken,
          hd, ht, hm] at hfree
        simpa using hfree
    · subst hcancel
      rcases cancelUserBooking_slots cfg env s cb cb.Data with hsame | hc
      · rw [hsame]; exact hinv
      · exact atMostOneBooked_cancel hinv hc


/-! ### Ledger invariant -/

/-- The race of two clients for one slot ends with two booked rows for it. -/
theorem race_books_twice :
    (run moscowCfg freshState raceEvents).map
      (fun s => countBooked s.slots "2025-03-10" "14:00" "Anna") = some 2 := by
  decide

/-- C4 (as stated, refuted): from the empty ledger, two clients select Anna on
10 March 2025 at 14:00 while the slot is free and then both confirm; the run ends
without a panic in a ledger with two booked rows for that triple. -/
theorem two_clients_book_the_same_slot :
    atMostOneBooked freshState.slots
      ∧ ∃ s', run moscowCfg freshState raceEvents = some s' ∧ ¬ atMostOneBooked s'.slots := by
  refine ⟨fun _ _ _ => Nat.zero_le _, ?_⟩
  have hrace := race_books_twice
  cases hrun : run moscowCfg freshState raceEvents with
  | none => simp [hrun] at hrace
  | some s' =>
    refine ⟨s', rfl, fun hinv => ?_⟩
    simp only [hrun, Option.map_some', Option.some.injEq] at hrace
    have := hinv "2025-03-10" "14:00" "Anna"
    omega

/-- C4 (amended): starting from a ledger with at most one booked row for every
(date, time, provider), every state the engine goes through satisfies the same
invariant, provided that no `confirm_booking` is handled while the ledger already
holds a booked row for the date, time and provider of the confirming session. -/
theorem ledger_invariant_kept (cfg : Config) (evs : List (Env × Update)) (s : State)
    (hinv : atMostOneBooked s.slots) (hfree : neverConfirmsTaken cfg s evs = true) :
    ∀ s' ∈ reached cfg s evs, atMostOneBooked s'.slots := by
  induction evs generalizing s with
  | nil =>
    intro s' hs'
    simp only [reached, List.mem_singleton] at hs'
    subst hs'; exact hinv
  | cons e rest ih =>
    obtain ⟨env, update⟩ := e
    intro s' hs'
    simp only [reached, List.mem_cons] at hs'
    simp only [neverConfirmsTaken, Bool.and_eq_true, Bool.not_eq_true'] at hfree
    rcases hs' with rfl | hs'
    · exact hinv
    · cases hstep : handleUpdate cfg env s update with
      | none => simp [hstep] at hs'
      | some s1 =>
        simp only [hstep] at hs' hfree
        exact ih s1 (handleUpdate_keeps_invariant hinv hfree.1 hstep) hfree.2 s' hs'

/-- Witness of C4 (amended): two clients book 14:00 and 15:00 with Anna, one after
the other, from the empty ledger. -/
theorem ledger_invariant_kept_witness :
    neverConfirmsTaken moscowCfg freshState twoBookings = true
      ∧ (run moscowCfg freshState twoBookings).map (fun s => s.slots.length) = some 2
      ∧ ∀ s' ∈ reached moscowCfg freshState twoBookings, atMostOneBooked s'.slots :=
  ⟨by decide, by decide,
    ledger_invariant_kept moscowCfg twoBookings freshState (fun _ _ _ => Nat.zero_le _)
      (by decide)⟩

/-! ### The age gate as an invariant -/

theorem safeChoice_append (p x : String) (c : Char) (cs : List Char)
    (hp : p.data = c :: cs) (hd : c ≠ 'd') (hb : c ≠ 'b') : safeChoice (p ++ x) = true := by
  have h1 : hasPrefix (p ++ x) "date_" = false := by
    have : ("date_" : String).data = ['d', 'a', 't', 'e', '_'] := rfl
    simp [hasPrefix, String.data_append, hp, this, List.isPrefixOf, Ne.symm hd]
  have h2 : p ++ x ≠ "back_to_date" := by
    intro h
    have := congrArg String.data h
    have hl : ("back_to_date" : String).data = 'b' :: "ack_to_date".data := rfl
    simp [String.data_append, hp, hl, hb] at this
  have h3 : p ++ x ≠ "back_to_time" := by
    intro h
    have := congrArg String.data h
    have hl : ("back_to_time" : String).data = 'b' :: "ack_to_time".data := rfl
    simp [String.data_append, hp, hl, hb] at this
  simp [safeChoice, h1, h2, h3]

theorem safe_edit (chat mid : Int) (text : String) (markup : List (List Button))
    (h : (markup.flatten.filterMap Button.callbackData).all safeChoice = true) :
    ∀ d ∈ (Request.edit chat mid text markup).buttonData, safeChoice d = true := by
  intro d hd
  exact List.all_eq_true.mp h d hd

theorem safe_message (chat : Int) (text : String) (markup : List (List Button))
    (h : (markup.flatten.filterMap Button.callbackData).all safeChoice = true) :
    ∀ d ∈ (Request.message chat text markup).buttonData, safeChoice d = true := by
  intro d hd
  exact List.all_eq_true.mp h d hd

theorem gate_send {u : Int} {s : State} {r : Request} (h : beforeAgeGate u s)
    (hr : ∀ d ∈ r.buttonData, safeChoice d = true) : beforeAgeGate u (s.send r) := by
  refine ⟨fun r' hr' => ?_, h.2⟩
  simp only [send_sent, List.mem_append, List.mem_singleton] at hr'
  rcases hr' with hr' | rfl
  · exact h.1 r' hr'
  · exact hr

theorem gate_answer {u : Int} {s : State} {cb : CallbackQuery} {t : String} {a : Bool}
    (h : beforeAgeGate u s) : beforeAgeGate u (s.answer cb t a) :=
  gate_send h (fun d hd => by simp [Request.buttonData, Request.markup] at hd)

theorem gate_save {u : Int} {s : State} {x : UserSession} (h : beforeAgeGate u s)
    (hx : sessionBeforeAgeGate x) : beforeAgeGate u (saveUserSession s u x) := by
  refine ⟨h.1, fun y hy => ?_⟩
  simp only [saveUserSession_userSessions, Function.update_same, Option.some.injEq] at hy
  subst hy; exact hx

theorem gate_delete {u : Int} {s : State} (h : beforeAgeGate u s) :
    beforeAgeGate u (deleteUserSession s u) := by
  refine ⟨h.1, fun y hy => ?_⟩
  simp at hy

theorem gate_session {u : Int} {s : State} (h : beforeAgeGate u s) :
    sessionBeforeAgeGate (getSession s u).1 := by
  rw [getSession_fst]
  unfold sessionStep sessionData
  cases hx : s.userSessions u with
  | none => exact ⟨by decide, by decide, rfl⟩
  | some x =>
    obtain ⟨h1, h2, h3⟩ := h.2 x hx
    refine ⟨by simpa using h1, by simpa using h2, ?_⟩
    obtain ⟨st, d⟩ := x
    cases d with
    | none => rfl
    | some d => simpa [UserSession.get] using h3

theorem gate_getSession {u : Int} {s : State} (h : beforeAgeGate u s) :
    beforeAgeGate u (getSession s u).2 := by
  have hs := gate_session h
  simp only [getSession] at hs ⊢
  cases hd : (loadUserSession s u).Data with
  | none =>
    simp only [hd] at hs ⊢
    exact gate_save h hs
  | some d => exact h

theorem gate_set {x x' : UserSession} {k v : String} (hx : sessionBeforeAgeGate x)
    (hk : k ≠ "date") (h : x.set k v = some x') : sessionBeforeAgeGate x' := by
  obtain ⟨st, d⟩ := x
  cases d with
  | none => simp [UserSession.set] at h
  | some d =>
    simp only [UserSession.set, Option.map_some', Option.some.injEq] at h
    subst h
    refine ⟨hx.1, hx.2.1, ?_⟩
    have h3 := hx.2.2
    simp only [UserSession.get, Option.some_bind] at h3 ⊢
    rw [mapGet_mapSet, if_neg hk]
    exact h3

theorem gate_step {x : UserSession} (hx : sessionBeforeAgeGate x) (st : String)
    (h1 : st ≠ "waiting_name") (h2 : st ≠ "waiting_phone") :
    sessionBeforeAgeGate { x with Step := st } :=
  ⟨h1, h2, hx.2.2⟩

theorem safe_serviceKeyboard (s : State) (chat mid : Int) (text : String) :
    ∀ d ∈ (Request.edit chat mid text (createServiceKeyboard s)).buttonData,
      safeChoice d = true := by
  intro d hd
  simp only [Request.buttonData, Request.markup, createServiceKeyboard, List.mem_filterMap,
    List.mem_flatten] at hd
  obtain ⟨b, ⟨row, ⟨key, -, hrow⟩, hb⟩, hd⟩ := hd
  cases hp : mapGet s.packages key with
  | none => simp [hp] at hrow
  | some pkg =>
    simp only [hp, Option.map_some', Option.some.injEq] at hrow
    subst hrow
    simp only [List.mem_singleton] at hb
    subst hb
    simp only [Button.callbackData, Option.some.injEq] at hd
    subst hd
    exact safeChoice_append "package_" key 'p' _ rfl (by decide) (by decide)

theorem safe_serviceKeyboard_message (s : State) (chat : Int) (text : String) :
    ∀ d ∈ (Request.message chat text (createServiceKeyboard s)).buttonData,
      safeChoice d = true :=
  safe_serviceKeyboard s chat 0 text

theorem gate_onPackage {s s' : State} {cb : CallbackQuery} (hg : beforeAgeGate cb.FromID s)
    (h : onPackage s cb = some s') : beforeAgeGate cb.FromID s' := by
  simp only [onPackage] at h
  split at h
  · simp only [Option.bind_eq_some] at h
    obtain ⟨x, hx, h⟩ := h
    cases h
    have hx' := gate_set (gate_step (gate_session hg) "package_selected" (by decide) (by decide))
      (by decide) hx
    exact gate_answer (gate_send (gate_save (gate_getSession hg) hx')
      (safe_edit _ _ _ _ (by decide)))
  · cases h; exact hg

theorem gate_onBackPackages {s s' : State} {cb : CallbackQuery}
    (hg : beforeAgeGate cb.FromID s) (h : onBackPackages s cb = some s') :
    beforeAgeGate cb.FromID s' := by
  simp only [onBackPackages] at h
  cases h
  exact gate_answer (gate_send hg (safe_serviceKeyboard _ _ _ _))

theorem gate_onGender {s s' : State} {cb : CallbackQuery} (hg : beforeAgeGate cb.FromID s)
    (h : onGender s cb = some s') : beforeAgeGate cb.FromID s' := by
  simp only [onGender, Option.bind_eq_some] at h
  obtain ⟨x, hx, h⟩ := h
  cases h
  have hx' := gate_set (gate_session hg) (by decide) hx
  exact gate_answer (gate_send (gate_save (gate_getSession hg) hx')
    (safe_edit _ _ _ _ (by decide)))

theorem gate_onAgeNo {s s' : State} {cb : CallbackQuery} (hg : beforeAgeGate cb.FromID s)
    (h : onAgeNo s cb = some s') : beforeAgeGate cb.FromID s' := by
  simp only [onAgeNo] at h
  cases h
  exact gate_answer (gate_send hg (safe_edit _ _ _ _ (by decide)))

theorem gate_onBackToGender {s s' : State} {cb : CallbackQuery}
    (hg : beforeAgeGate cb.FromID s) (h : onBackToGender s cb = some s') :
    beforeAgeGate cb.FromID s' := by
  simp only [onBackToGender] at h
  split at h
  · cases h
    exact gate_answer (gate_send (gate_getSession hg) (safe_serviceKeyboard _ _ _ _))
  · cases h
    exact gate_answer (gate_send (gate_getSession hg) (safe_edit _ _ _ _ (by decide)))

theorem gate_showMasterSelection {env : Env} {s : State} {cb : CallbackQuery}
    (hg : beforeAgeGate cb.FromID s) : beforeAgeGate cb.FromID (showMasterSelection env s cb) := by
  have hd := (gate_session hg).2.2
  simp only [showMasterSelection, hd]
  exact gate_answer (gate_getSession hg)

theorem gate_onTime {env : Env} {s s' : State} {cb : CallbackQuery}
    (hg : beforeAgeGate cb.FromID s) (h : onTime env s cb = some s') :
    beforeAgeGate cb.FromID s' := by
  simp only [onTime] at h
  split at h
  · simp only [Option.bind_eq_some] at h
    obtain ⟨x, hx, h⟩ := h
    cases h
    have hx' := gate_set (gate_session hg) (by decide) hx
    exact gate_showMasterSelection (gate_save (gate_getSession hg) hx')
  · cases h; exact hg

theorem gate_showBookingConfirmation {s : State} {cb : CallbackQuery}
    (hg : beforeAgeGate cb.FromID s) :
    beforeAgeGate cb.FromID (showBookingConfirmation s cb) := by
  simp only [showBookingConfirmation]
  split
  · exact gate_answer (gate_getSession hg)
  · exact gate_answer (gate_send (gate_getSession hg) (safe_edit _ _ _ _ (by decide)))

theorem gate_onMaster {s s' : State} {cb : CallbackQuery} (hg : beforeAgeGate cb.FromID s)
    (h : onMaster s cb = some s') : beforeAgeGate cb.FromID s' := by
  simp only [onMaster, Option.bind_eq_some] at h
  obtain ⟨x, hx, h⟩ := h
  cases h
  have hx' := gate_set (gate_session hg) (by decide) hx
  exact gate_showBookingConfirmation (gate_save (gate_getSession hg) hx')

theorem finalizeBooking_none_of_gate {cfg : Config} {env : Env} {s : State}
    {cb : CallbackQuery} (hg : beforeAgeGate cb.FromID s) :
    finalizeBooking cfg env s cb = none := by
  have hd := (gate_session hg).2.2
  simp [finalizeBooking, hd]

theorem safe_adminMasters (s : State) (chat mid : Int) (text : String) :
    ∀ d ∈ (Request.edit chat mid text
        (s.masters.map (fun e => [Button.data e.2.Name ("master_profile_" ++ e.1)])
          ++ [[Button.data "➕ Добавить мастера" "add_master_start",
               Button.data "← Назад" "admin_back"]])).buttonData,
      safeChoice d = true := by
  intro d hd
  simp only [Request.buttonData, Request.markup, List.flatten_append, List.filterMap_append,
    List.mem_append, List.mem_filterMap, List.mem_flatten, List.mem_map] at hd
  rcases hd with ⟨b, ⟨row, ⟨e, -, rfl⟩, hb⟩, hd⟩ | ⟨b, ⟨row, hrow, hb⟩, hd⟩
  · simp only [List.mem_singleton] at hb
    subst hb
    simp only [Button.callbackData, Option.some.injEq] at hd
    subst hd
    exact safeChoice_append "master_profile_" e.1 'm' _ rfl (by decide) (by decide)
  · simp only [List.mem_singleton] at hrow
    subst hrow
    simp only [List.mem_cons, List.mem_singleton, List.not_mem_nil, or_false] at hb
    rcases hb with rfl | rfl
    · simp only [Button.callbackData, Option.some.injEq] at hd
      subst hd; decide
    · simp only [Button.callbackData, Option.some.injEq] at hd
      subst hd; decide

theorem gate_showAdminMasters {s : State} {cb : CallbackQuery}
    (hg : beforeAgeGate cb.FromID s) : beforeAgeGate cb.FromID (showAdminMasters s cb) := by
  simp only [showAdminMasters]
  exact gate_answer (gate_send hg (safe_adminMasters _ _ _ _))

theorem gate_processMasterGender {s s' : State} {cb : CallbackQuery} {data : String}
    (hg : beforeAgeGate cb.FromID s) (h : processMasterGender s cb data = some s') :
    beforeAgeGate cb.FromID s' := by
  simp only [processMasterGender] at h
  split at h
  · cases h; exact hg
  · split at h
    · cases h; exact hg
    · simp only [Option.bind_eq_some] at h
      obtain ⟨x, -, name, -, code, -, contact, -, h⟩ := h
      cases h
      refine gate_answer ?_
      refine ⟨fun r hr => ?_, fun y hy => ?_⟩
      · simp only [deleteUserSession_sent, send_sent, List.mem_append, List.mem_singleton] at hr
        rcases hr with hr | rfl
        · exact hg.1 r hr
        · intro d hd
          simp [Request.buttonData, Request.markup] at hd
      · simp at hy

theorem cancelUserBooking_length (cfg : Config) (env : Env) (s : State) (cb : CallbackQuery)
    (data : String) : (cancelUserBooking cfg env s cb data).slots.length = s.slots.length := by
  rcases cancelUserBooking_slots cfg env s cb data with h | h
  · rw [h]
  · unfold cancelBooking at h
    split at h
    · cases h
    · rw [Option.some.injEq] at h
      rw [← h, List.length_map]

theorem foldl_send_gate {u : Int} (admins : List Int) (f : Int → Request) (s : State)
    (hf : ∀ a, ∀ d ∈ (f a).buttonData, safeChoice d = true) (hg : beforeAgeGate u s) :
    beforeAgeGate u (admins.foldl (fun s admin => s.send (f admin)) s) := by
  induction admins generalizing s with
  | nil => exact hg
  | cons a rest ih => exact ih _ (gate_send hg (hf a))

theorem gate_cancelUserBooking {cfg : Config} {env : Env} {s : State} {cb : CallbackQuery}
    {data : String} (hg : beforeAgeGate cb.FromID s) :
    beforeAgeGate cb.FromID (cancelUserBooking cfg env s cb data) := by
  simp only [cancelUserBooking]
  split
  · exact gate_answer hg
  · split
    · exact gate_answer hg
    · refine gate_answer (foldl_send_gate _ _ _ (fun a d hd => ?_) ?_)
      · simp [Request.buttonData, Request.markup] at hd
      · exact gate_send (s := { s with slots := _ }) hg (safe_edit _ _ _ _ (by decide))


theorem gate_showMasterProfile {u : Int} {s : State} (chat : Int) (masterID : String)
    (hg : beforeAgeGate u s) : beforeAgeGate u (showMasterProfile s chat masterID) := by
  simp only [showMasterProfile]
  refine gate_send hg (fun d hd => ?_)
  simp only [Request.buttonData, Request.markup, List.flatten, List.append_nil,
    List.singleton_append, List.filterMap_cons, Button.callbackData, List.filterMap_nil,
    List.mem_cons, List.mem_singleton, List.not_mem_nil, or_false] at hd
  rcases hd with rfl | rfl | rfl | rfl
  · exact safeChoice_append "master_bookings_" masterID 'm' _ rfl (by decide) (by decide)
  · exact safeChoice_append "master_profit_" masterID 'm' _ rfl (by decide) (by decide)
  · exact safeChoice_append "master_notify_" masterID 'm' _ rfl (by decide) (by decide)
  · decide

theorem gate_onMasterLogin {s s' : State} {msg : Message} {session : UserSession}
    (hg : beforeAgeGate msg.FromID s) (h : onMasterLogin s msg session = some s') :
    beforeAgeGate msg.FromID s' := by
  simp only [onMasterLogin, Option.bind_eq_some] at h
  obtain ⟨masterID, -, h⟩ := h
  cases h
  split
  · exact gate_delete (gate_showMasterProfile _ _ hg)
  · exact gate_delete (gate_send hg (safe_message _ _ _ (by decide)))

theorem gate_onAddMasterName {s s' : State} {msg : Message} {session : UserSession}
    (hg : beforeAgeGate msg.FromID s) (hs : sessionBeforeAgeGate session)
    (h : onAddMasterName s msg session = some s') : beforeAgeGate msg.FromID s' := by
  simp only [onAddMasterName, Option.bind_eq_some] at h
  obtain ⟨x, hx, h⟩ := h
  cases h
  exact gate_send (gate_save hg (gate_step (gate_set hs (by decide) hx) _ (by decide)
    (by decide))) (safe_message _ _ _ (by decide))

theorem gate_onAddMasterCode {s s' : State} {msg : Message} {session : UserSession}
    (hg : beforeAgeGate msg.FromID s) (hs : sessionBeforeAgeGate session)
    (h : onAddMasterCode s msg session = some s') : beforeAgeGate msg.FromID s' := by
  simp only [onAddMasterCode, Option.bind_eq_some] at h
  obtain ⟨x, hx, h⟩ := h
  cases h
  exact gate_send (gate_save hg (gate_step (gate_set hs (by decide) hx) _ (by decide)
    (by decide))) (safe_message _ _ _ (by decide))

theorem gate_onAddMasterContact {s s' : State} {msg : Message} {session : UserSession}
    (hg : beforeAgeGate msg.FromID s) (hs : sessionBeforeAgeGate session)
    (h : onAddMasterContact s msg session = some s') : beforeAgeGate msg.FromID s' := by
  simp only [onAddMasterContact, Option.bind_eq_some] at h
  obtain ⟨x, hx, h⟩ := h
  cases h
  exact gate_send (gate_save hg (gate_step (gate_set hs (by decide) hx) _ (by decide)
    (by decide))) (safe_message _ _ _ (by decide))

theorem gate_start {cfg : Config} {s : State} {msg : Message} (hg : beforeAgeGate msg.FromID s) :
    beforeAgeGate msg.FromID (start cfg s msg) := by
  simp only [start]
  refine gate_send hg (fun d hd => ?_)
  split at hd <;> simp [Request.buttonData, Request.markup, Button.callbackData] at hd

theorem gate_showMyBookings {env : Env} {s : State} {msg : Message}
    (hg : beforeAgeGate msg.FromID s) : beforeAgeGate msg.FromID (showMyBookings env s msg) := by
  simp only [showMyBookings]
  split
  · exact gate_send hg (safe_message _ _ _ (by decide))
  · exact gate_send hg (safe_message _ _ _ (by decide))
  · split
    · refine gate_send hg (fun d hd => ?_)
      simp only [Request.buttonData, Request.markup, List.flatten, List.append_nil,
        List.filterMap_cons, Button.callbackData, List.filterMap_nil, List.mem_singleton] at hd
      subst hd
      exact safeChoice_append "cancel_booking_" _ 'c' _ rfl (by decide) (by decide)
    · exact gate_send hg (safe_message _ _ _ (by decide))

/-- A text message keeps a client before the age gate and adds no row. -/
theorem gate_handleMessage {cfg : Config} {env : Env} {s s' : State} {msg : Message}
    (hg : beforeAgeGate msg.FromID s) (h : handleMessage cfg env s msg = some s') :
    beforeAgeGate msg.FromID s' ∧ s'.slots.length = s.slots.length := by
  refine ⟨?_, by rw [(handleMessage_frame h).2.1]⟩
  unfold handleMessage at h
  split at h
  · rename_i session hsession
    have hs := hg.2 session hsession
    revert h
    refine handleSessionMessage_elim (fun r => r = some s' → beforeAgeGate msg.FromID s')
      ?_ ?_ ?_ ?_ ?_ ?_ ?_
    · exact fun _ h => gate_onMasterLogin hg h
    · exact fun _ h => gate_onAddMasterName hg hs h
    · exact fun _ h => gate_onAddMasterCode hg hs h
    · exact fun _ h => gate_onAddMasterContact hg hs h
    · exact fun c _ => absurd c hs.1
    · exact fun c _ => absurd c hs.2.1
    · exact fun h => by cases h; exact hg
  · revert h
    refine handleCommand_elim (fun r => r = some s' → beforeAgeGate msg.FromID s')
      ?_ ?_ ?_ ?_ ?_ ?_
    · exact fun h => by cases h; exact gate_start hg
    · exact fun h => by cases h; exact gate_send hg (safe_serviceKeyboard_message _ _ _)
    · exact fun h => by cases h; exact gate_send hg (safe_message _ _ _ (by decide))
    · exact fun h => by cases h; exact gate_send hg (safe_message _ _ _ (by decide))
    · exact fun h => by cases h; exact gate_showMyBookings hg
    · exact fun h => by cases h; exact hg

theorem not_safe_of_date {data : String} (h : hasPrefix data "date_" = true) :
    safeChoice data = false := by
  simp [safeChoice, h]

/-- A menu choice other than `age_yes`, a date, a date page and the ways back to
them keeps a client before the age gate and adds no row. -/
theorem gate_handleCallback {cfg : Config} {env : Env} {s s' : State} {cb : CallbackQuery}
    (hg : beforeAgeGate cb.FromID s) (hsafe : safeChoice cb.Data = true)
    (hage : cb.Data ≠ "age_yes") (h : handleCallback cfg env s cb = some s') :
    beforeAgeGate cb.FromID s' ∧ s'.slots.length = s.slots.length := by
  constructor
  · revert h
    refine handleCallback_elim (fun r => r = some s' → beforeAgeGate cb.FromID s')
      ?_ ?_ ?_ ?_ ?_ ?_ ?_ ?_ ?_ ?_ ?_ ?_ ?_ ?_ ?_ ?_ ?_ ?_ ?_ ?_ ?_
    · exact fun _ h => gate_onPackage hg h
    · exact fun _ h => gate_onBackPackages hg h
    · exact fun _ h => gate_onGender hg h
    · exact fun _ h => gate_onAgeNo hg h
    · exact fun c _ => absurd c hage
    · intro c _
      rw [not_safe_of_date (hasPrefix_of_longer (by decide) c)] at hsafe
      cases hsafe
    · exact fun _ h => gate_onBackToGender hg h
    · intro c _
      rw [not_safe_of_date c] at hsafe
      cases hsafe
    · exact fun _ h => gate_onTime hg h
    · intro c _
      rw [c] at hsafe
      exact absurd hsafe (by decide)
    · exact fun _ h => gate_onMaster hg h
    · intro c _
      rw [c] at hsafe
      exact absurd hsafe (by decide)
    · intro _ h
      rw [finalizeBooking_none_of_gate hg] at h
      cases h
    · exact fun _ h => by cases h; exact gate_showMasterSelection hg
    · exact fun _ h => by cases h; exact gate_showAdminMasters hg
    · exact fun _ h => by
        cases h
        exact gate_answer (gate_send hg (safe_edit _ _ _ _ (by decide)))
    · exact fun _ h => by
        cases h
        exact gate_answer (gate_send hg (safe_edit _ _ _ _ (by decide)))
    · exact fun _ h => by
        cases h
        exact gate_answer (gate_send
          (gate_save hg ⟨by decide, by decide, rfl⟩) (safe_edit _ _ _ _ (by decide)))
    · exact fun _ h => gate_processMasterGender hg h
    · exact fun _ h => by cases h; exact gate_cancelUserBooking hg
    · exact fun h => by cases h; exact hg
  · rcases handleCallback_frame h with hf | ⟨-, hfin⟩ | hc
    · rw [hf.2.1]
    · rw [finalizeBooking_none_of_gate hg] at hfin
      cases hfin
    · rw [hc, cancelUserBooking_length]

theorem safe_of_offered {u : Int} {s : State} {data : String} (hg : beforeAgeGate u s)
    (h : offered s data = true) : safeChoice data = true := by
  simp only [offered, List.any_eq_true, decide_eq_true_eq] at h
  obtain ⟨r, hr, hd⟩ := h
  exact hg.1 r hr data hd

/-- One update of the client, not `age_yes` and offered if it is a menu choice,
keeps the client before the age gate and adds no row. -/
theorem gate_handleUpdate {cfg : Config} {env : Env} {s s' : State} {update : Update} {u : Int}
    (hg : beforeAgeGate u s) (hfrom : fromClient u update = true)
    (hage : isAgeYes update = false) (hoff : choiceOffered s update = true)
    (h : handleUpdate cfg env s update = some s') :
    beforeAgeGate u s' ∧ s'.slots.length = s.slots.length := by
  cases update with
  | message msg =>
    simp only [fromClient, decide_eq_true_eq] at hfrom
    subst hfrom
    exact gate_handleMessage hg h
  | callback cb =>
    simp only [fromClient, decide_eq_true_eq] at hfrom
    subst hfrom
    simp only [isAgeYes, decide_eq_false_iff_not] at hage
    exact gate_handleCallback hg (safe_of_offered hg hoff) hage h
  | other =>
    cases h
    exact ⟨hg, rfl⟩

theorem gate_run (cfg : Config) (u : Int) (evs : List (Env × Update)) (s : State)
    (hg : beforeAgeGate u s)
    (hfrom : ∀ e ∈ evs, fromClient u e.2 = true)
    (hage : ∀ e ∈ evs, isAgeYes e.2 = false)
    (hoff : choicesOffered cfg s evs = true) :
    ∀ s' ∈ reached cfg s evs, s'.slots.length = s.slots.length := by
  induction evs generalizing s with
  | nil =>
    intro s' hs'
    simp only [reached, List.mem_singleton] at hs'
    rw [hs']
  | cons e rest ih =>
    obtain ⟨env, update⟩ := e
    intro s' hs'
    simp only [reached, List.mem_cons] at hs'
    simp only [choicesOffered, Bool.and_eq_true] at hoff
    rcases hs' with rfl | hs'
    · rfl
    · cases hstep : handleUpdate cfg env s update with
      | none => simp [hstep] at hs'
      | some s1 =>
        simp only [hstep] at hs' hoff
        have h1 := gate_handleUpdate hg (hfrom _ (List.mem_cons_self _ _))
          (hage _ (List.mem_cons_self _ _)) hoff.1 hstep
        rw [← h1.2]
        exact ih s1 h1.1 (fun e he => hfrom e (List.mem_cons_of_mem _ he))
          (fun e he => hage e (List.mem_cons_of_mem _ he)) hoff.2 s' hs'


/-! ### Evaluation of the chain on the choices of the booking flow -/

theorem isPrefixOf_of_diverge {p q : List Char} (h : diverge p q = true) (y : List Char) :
    q.isPrefixOf (p ++ y) = false := by
  induction p generalizing q with
  | nil => simp [diverge] at h
  | cons a as ih =>
    cases q with
    | nil => simp [diverge] at h
    | cons b bs =>
      simp only [diverge, Bool.or_eq_true, bne_iff_ne, ne_eq] at h
      simp only [List.cons_append, List.isPrefixOf]
      by_cases hab : a = b
      · subst hab
        simp only [beq_self_eq_true, Bool.true_and]
        exact ih (h.resolve_left (fun hn => hn rfl))
      · have : (b == a) = false := by simpa using fun e => hab e.symm
        simp [this]

theorem ne_of_diverge {p q : List Char} (h : diverge p q = true) (y : List Char) :
    p ++ y ≠ q := by
  intro he
  have := isPrefixOf_of_diverge h y
  rw [he, List.isPrefixOf_iff_prefix.mpr (List.prefix_refl q)] at this
  cases this

theorem hasPrefix_diverge (p q x : String) (h : diverge p.data q.data = true) :
    hasPrefix (p ++ x) q = false := by
  simp only [hasPrefix, String.data_append]
  exact isPrefixOf_of_diverge h _

theorem append_ne_diverge (p q x : String) (h : diverge p.data q.data = true) :
    p ++ x ≠ q := by
  intro he
  have := congrArg String.data he
  rw [String.data_append] at this
  exact ne_of_diverge h _ this

theorem not_page_of_no_underscore (d : String) (hd : '_' ∉ d.data) :
    hasPrefix ("date_" ++ d) "date_page_" = false := by
  have h1 : ("date_" : String).data = ['d', 'a', 't', 'e', '_'] := rfl
  have h2 : ("date_page_" : String).data = ['d', 'a', 't', 'e', '_', 'p', 'a', 'g', 'e', '_'] := rfl
  simp only [hasPrefix, String.data_append, h1, h2, List.cons_append, List.nil_append,
    List.isPrefixOf, beq_self_eq_true, Bool.true_and]
  cases hdd : d.data with
  | nil => rfl
  | cons c0 r0 =>
    cases r0 with
    | nil => simp [List.isPrefixOf]
    | cons c1 r1 =>
      cases r1 with
      | nil => simp [List.isPrefixOf]
      | cons c2 r2 =>
        cases r2 with
        | nil => simp [List.isPrefixOf]
        | cons c3 r3 =>
          cases r3 with
          | nil => simp [List.isPrefixOf]
          | cons c4 r4 =>
            rw [hdd] at hd
            simp only [List.mem_cons, not_or] at hd
            have : ('_' == c4) = false := by simpa using hd.2.2.2.2.1
            simp [List.isPrefixOf, this]

theorem handleCallback_package {cfg : Config} {env : Env} {s : State} {cb : CallbackQuery}
    {k : String} (h : cb.Data = "package_" ++ k) :
    handleCallback cfg env s cb = onPackage s cb := by
  unfold handleCallback
  rw [h, if_pos (hasPrefix_append _ _)]

theorem handleCallback_gender {cfg : Config} {env : Env} {s : State} {cb : CallbackQuery}
    (h : cb.Data = "gender_male" ∨ cb.Data = "gender_female") :
    handleCallback cfg env s cb = onGender s cb := by
  unfold handleCallback
  rcases h with h | h <;> rw [h] <;> rfl

theorem handleCallback_age_yes {cfg : Config} {env : Env} {s : State} {cb : CallbackQuery}
    (h : cb.Data = "age_yes") : handleCallback cfg env s cb = onAgeYes s cb := by
  unfold handleCallback
  rw [h]; rfl

theorem handleCallback_date {cfg : Config} {env : Env} {s : State} {cb : CallbackQuery}
    {d : String} (h : cb.Data = "date_" ++ d) (hd : '_' ∉ d.data) :
    handleCallback cfg env s cb = onDate s cb := by
  unfold handleCallback
  have e1 : ¬ hasPrefix ("date_" ++ d) "package_" = true := by
    rw [hasPrefix_diverge _ _ _ (by decide)]; simp
  have e2 : ¬ ("date_" ++ d = "back_packages") := append_ne_diverge _ _ _ (by decide)
  have e3 : ¬ ("date_" ++ d = "gender_male" ∨ "date_" ++ d = "gender_female") := by
    rintro (e | e)
    · exact append_ne_diverge _ _ _ (by decide) e
    · exact append_ne_diverge _ _ _ (by decide) e
  have e4 : ¬ ("date_" ++ d = "age_no") := append_ne_diverge _ _ _ (by decide)
  have e5 : ¬ ("date_" ++ d = "age_yes") := append_ne_diverge _ _ _ (by decide)
  have e6 : ¬ hasPrefix ("date_" ++ d) "date_page_" = true := by
    rw [not_page_of_no_underscore d hd]; simp
  have e7 : ¬ ("date_" ++ d = "back_to_gender") := append_ne_diverge _ _ _ (by decide)
  simp only [h]
  rw [if_neg e1, if_neg e2, if_neg e3, if_neg e4, if_neg e5, if_neg e6, if_neg e7,
    if_pos (hasPrefix_append _ _)]

theorem handleCallback_time {cfg : Config} {env : Env} {s : State} {cb : CallbackQuery}
    {x : String} (h : cb.Data = "time_" ++ x) :
    handleCallback cfg env s cb = onTime env s cb := by
  unfold handleCallback
  have e1 : ¬ hasPrefix ("time_" ++ x) "package_" = true := by
    rw [hasPrefix_diverge _ _ _ (by decide)]; simp
  have e2 : ¬ ("time_" ++ x = "back_packages") := append_ne_diverge _ _ _ (by decide)
  have e3 : ¬ ("time_" ++ x = "gender_male" ∨ "time_" ++ x = "gender_female") := by
    rintro (e | e)
    · exact append_ne_diverge _ _ _ (by decide) e
    · exact append_ne_diverge _ _ _ (by decide) e
  have e4 : ¬ ("time_" ++ x = "age_no") := append_ne_diverge _ _ _ (by decide)
  have e5 : ¬ ("time_" ++ x = "age_yes") := append_ne_diverge _ _ _ (by decide)
  have e6 : ¬ hasPrefix ("time_" ++ x) "date_page_" = true := by
    rw [hasPrefix_diverge _ _ _ (by decide)]; simp
  have e7 : ¬ ("time_" ++ x = "back_to_gender") := append_ne_diverge _ _ _ (by decide)
  have e8 : ¬ hasPrefix ("time_" ++ x) "date_" = true := by
    rw [hasPrefix_diverge _ _ _ (by decide)]; simp
  simp only [h]
  rw [if_neg e1, if_neg e2, if_neg e3, if_neg e4, if_neg e5, if_neg e6, if_neg e7, if_neg e8,
    if_pos (hasPrefix_append _ _)]

theorem handleCallback_master {cfg : Config} {env : Env} {s : State} {cb : CallbackQuery}
    {m : String} (h : cb.Data = "master_" ++ m) :
    handleCallback cfg env s cb = onMaster s cb := by
  unfold handleCallback
  have e1 : ¬ hasPrefix ("master_" ++ m) "package_" = true := by
    rw [hasPrefix_diverge _ _ _ (by decide)]; simp
  have e2 : ¬ ("master_" ++ m = "back_packages") := append_ne_diverge _ _ _ (by decide)
  have e3 : ¬ ("master_" ++ m = "gender_male" ∨ "master_" ++ m = "gender_female") := by
    rintro (e | e)
    · exact append_ne_diverge _ _ _ (by decide) e
    · exact append_ne_diverge _ _ _ (by decide) e
  have e4 : ¬ ("master_" ++ m = "age_no") := append_ne_diverge _ _ _ (by decide)
  have e5 : ¬ ("master_" ++ m = "age_yes") := append_ne_diverge _ _ _ (by decide)
  have e6 : ¬ hasPrefix ("master_" ++ m) "date_page_" = true := by
    rw [hasPrefix_diverge _ _ _ (by decide)]; simp
  have e7 : ¬ ("master_" ++ m = "back_to_gender") := append_ne_diverge _ _ _ (by decide)
  have e8 : ¬ hasPrefix ("master_" ++ m) "date_" = true := by
    rw [hasPrefix_diverge _ _ _ (by decide)]; simp
  have e9 : ¬ hasPrefix ("master_" ++ m) "time_" = true := by
    rw [hasPrefix_diverge _ _ _ (by decide)]; simp
  have e10 : ¬ ("master_" ++ m = "back_to_date") := append_ne_diverge _ _ _ (by decide)
  simp only [h]
  rw [if_neg e1, if_neg e2, if_neg e3, if_neg e4, if_neg e5, if_neg e6, if_neg e7, if_neg e8,
    if_neg e9, if_neg e10, if_pos (hasPrefix_append _ _)]


/-! ### Effects of the choices of the booking flow on the session -/

theorem splitL_no_sep (l : List Char) (h : '_' ∉ l) : splitL '_' l = [l] := by
  induction l with
  | nil => rfl
  | cons c cs ih =>
    simp only [List.mem_cons, not_or] at h
    have hc : ¬ c = '_' := fun e => h.1 e.symm
    simp [splitL, hc, ih h.2]

theorem splitL_append_sep (l rest : List Char) (h : '_' ∉ l) :
    splitL '_' (l ++ '_' :: rest) = l :: splitL '_' rest := by
  induction l with
  | nil => simp [splitL]
  | cons c cs ih =>
    simp only [List.mem_cons, not_or] at h
    have hc : ¬ c = '_' := fun e => h.1 e.symm
    simp [splitL, hc, ih h.2]

theorem splitUnderscore_time (d t : String) (hd : '_' ∉ d.data) (ht : '_' ∉ t.data) :
    splitUnderscore ("time_" ++ d ++ "_" ++ t) = ["time", d, t] := by
  have h1 : ("time_" : String).data = ['t', 'i', 'm', 'e'] ++ '_' :: [] := rfl
  have h2 : ("_" : String).data = ['_'] := rfl
  have e : ("time_" ++ d ++ "_" ++ t).data
      = ['t', 'i', 'm', 'e'] ++ '_' :: (d.data ++ '_' :: t.data) := by
    simp [String.data_append, h1, h2]
  unfold splitUnderscore
  rw [e, splitL_append_sep _ _ (by decide), splitL_append_sep _ _ hd, splitL_no_sep _ ht]
  rfl

theorem getSession_of_some {s : State} {u : Int} {st : String} {D : List (String × String)}
    (h : s.userSessions u = some { Step := st, Data := some D }) :
    getSession s u = ({ Step := st, Data := some D }, s) := by
  simp [getSession, loadUserSession, h]

theorem package_effect {cfg : Config} {env : Env} {s s' : State} {cb : CallbackQuery}
    {k : String} {pkg : Package} (hk : mapGet s.packages k = some pkg)
    (hdata : cb.Data = "package_" ++ k) (h : handleCallback cfg env s cb = some s') :
    s'.userSessions cb.FromID
        = some { Step := "package_selected",
                 Data := some (mapSet (sessionData s cb.FromID) "package" k) }
      ∧ s'.packages = s.packages := by
  rw [handleCallback_package hdata] at h
  refine ⟨?_, (frame_onPackage h).1⟩
  simp only [onPackage, hdata, trimPrefix_append, hk, getSession_fst, UserSession.set,
    Option.map_some', Option.some_bind, Option.some.injEq] at h
  subst h
  simp

theorem gender_effect {cfg : Config} {env : Env} {s s' : State} {cb : CallbackQuery}
    {st : String} {D : List (String × String)}
    (hs : s.userSessions cb.FromID = some { Step := st, Data := some D })
    (hdata : cb.Data = "gender_male" ∨ cb.Data = "gender_female")
    (h : handleCallback cfg env s cb = some s') :
    (∃ g, s'.userSessions cb.FromID = some { Step := st, Data := some (mapSet D "gender" g) })
      ∧ s'.packages = s.packages := by
  rw [handleCallback_gender hdata] at h
  refine ⟨?_, (frame_onGender h).1⟩
  simp only [onGender, getSession_of_some hs, UserSession.set,
    Option.map_some', Option.some_bind, Option.some.injEq] at h
  subst h
  exact ⟨if cb.Data = "gender_female" then "female" else "male", by simp⟩

theorem age_yes_effect {cfg : Config} {env : Env} {s s' : State} {cb : CallbackQuery}
    {st : String} {D : List (String × String)}
    (hs : s.userSessions cb.FromID = some { Step := st, Data := some D })
    (hdata : cb.Data = "age_yes") (h : handleCallback cfg env s cb = some s') :
    s'.userSessions cb.FromID = some { Step := "waiting_name", Data := some D }
      ∧ s'.packages = s.packages := by
  rw [handleCallback_age_yes hdata] at h
  refine ⟨?_, (frame_onAgeYes h).1⟩
  have hs' : (s.send (Request.edit cb.ChatID cb.MessageID
      "Прежде чем начать запись, укажите свое имя:"
      [[Button.data "← Назад" "back_to_gender"]])).userSessions cb.FromID
        = some { Step := st, Data := some D } := hs
  simp only [onAgeYes, getSession_of_some hs', Option.some.injEq] at h
  subst h
  simp

theorem name_effect {cfg : Config} {env : Env} {s s' : State} {msg : Message}
    {D : List (String × String)}
    (hs : s.userSessions msg.FromID = some { Step := "waiting_name", Data := some D })
    (h : handleMessage cfg env s msg = some s') :
    s'.userSessions msg.FromID
        = some { Step := "waiting_phone", Data := some (mapSet D "client_name" msg.Text) }
      ∧ s'.packages = s.packages := by
  refine ⟨?_, (handleMessage_frame h).1⟩
  simp only [handleMessage, hs] at h
  have hstep : handleSessionMessage cfg env s msg { Step := "waiting_name", Data := some D }
      = onWaitingName s msg { Step := "waiting_name", Data := some D } := rfl
  rw [hstep] at h
  simp only [onWaitingName, UserSession.set, Option.map_some', Option.some_bind,
    Option.some.injEq] at h
  subst h
  simp

theorem phone_effect {cfg : Config} {env : Env} {s s' : State} {msg : Message}
    {D : List (String × String)}
    (hs : s.userSessions msg.FromID = some { Step := "waiting_phone", Data := some D })
    (h : handleMessage cfg env s msg = some s') :
    s'.userSessions msg.FromID
        = some { Step := "", Data := some (mapSet D "client_phone" msg.Text) }
      ∧ s'.packages = s.packages := by
  refine ⟨?_, (handleMessage_frame h).1⟩
  simp only [handleMessage, hs] at h
  have hstep : handleSessionMessage cfg env s msg { Step := "waiting_phone", Data := some D }
      = onWaitingPhone cfg env s msg { Step := "waiting_phone", Data := some D } := rfl
  rw [hstep] at h
  simp only [onWaitingPhone, UserSession.set, Option.map_some', Option.some_bind,
    showDatePageMessage, Option.map_eq_some'] at h
  obtain ⟨rows, -, h⟩ := h
  subst h
  simp

theorem date_effect {cfg : Config} {env : Env} {s s' : State} {cb : CallbackQuery}
    {st d : String} {D : List (String × String)}
    (hs : s.userSessions cb.FromID = some { Step := st, Data := some D })
    (hdata : cb.Data = "date_" ++ d) (hd : '_' ∉ d.data)
    (h : handleCallback cfg env s cb = some s') :
    s'.userSessions cb.FromID = some { Step := st, Data := some (mapSet D "date" d) }
      ∧ s'.packages = s.packages := by
  rw [handleCallback_date hdata hd] at h
  refine ⟨?_, (frame_onDate h).1⟩
  simp only [onDate, hdata, not_page_of_no_underscore d hd, trimPrefix_append,
    getSession_of_some hs, UserSession.set, Option.map_some', Option.some_bind,
    Bool.not_false, if_true, Option.some.injEq] at h
  subst h
  simp [showTimeSelection]

theorem showMasterSelection_userSessions {env : Env} {s : State} {cb : CallbackQuery}
    {st : String} {D : List (String × String)}
    (hs : s.userSessions cb.FromID = some { Step := st, Data := some D }) :
    (showMasterSelection env s cb).userSessions = s.userSessions := by
  simp only [showMasterSelection, getSession_of_some hs]
  split
  · rfl
  · split <;> rfl

theorem time_effect {cfg : Config} {env : Env} {s s' : State} {cb : CallbackQuery}
    {st d t : String} {D : List (String × String)}
    (hs : s.userSessions cb.FromID = some { Step := st, Data := some D })
    (hdata : cb.Data = "time_" ++ d ++ "_" ++ t) (hd : '_' ∉ d.data) (ht : '_' ∉ t.data)
    (h : handleCallback cfg env s cb = some s') :
    s'.userSessions cb.FromID = some { Step := st, Data := some (mapSet D "time" t) }
      ∧ s'.packages = s.packages := by
  have hdata' : cb.Data = "time_" ++ (d ++ "_" ++ t) := by
    rw [hdata]; simp [String.append_assoc]
  rw [handleCallback_time hdata'] at h
  refine ⟨?_, (frame_onTime h).1⟩
  simp only [onTime, hdata, splitUnderscore_time d t hd ht, getSession_of_some hs,
    UserSession.set, Option.map_some', Option.some_bind] at h
  simp only [List.length_cons, List.length_nil, ge_iff_le, Nat.reduceAdd, le_refl, if_true,
    List.get?_cons_succ, List.get?_cons_zero, Option.getD_some, Option.some.injEq] at h
  subst h
  rw [@showMasterSelection_userSessions env _ cb st (mapSet D "time" t) (by simp)]
  simp

theorem cancelUserBooking_others (cfg : Config) (env : Env) (s : State) (cb : CallbackQuery)
    (data : String) :
    (cancelUserBooking cfg env s cb data).packages = s.packages
      ∧ (cancelUserBooking cfg env s cb data).userSessions = s.userSessions := by
  simp only [cancelUserBooking]
  split
  · exact ⟨rfl, rfl⟩
  · split
    · exact ⟨rfl, rfl⟩
    · exact ⟨by simp [foldl_send_packages], by simp [foldl_send_userSessions]⟩

theorem run_append (cfg : Config) (a b : List (Env × Update)) (s : State) :
    run cfg s (a ++ b) = (run cfg s a).bind fun s1 => run cfg s1 b := by
  induction a generalizing s with
  | nil => simp [run]
  | cons e rest ih =>
    obtain ⟨env, update⟩ := e
    simp only [List.cons_append, run]
    cases handleUpdate cfg env s update with
    | none => rfl
    | some s1 => simp [ih]

theorem package_total {cfg : Config} {env : Env} {s : State} {cb : CallbackQuery}
    {k : String} {pkg : Package} (hk : mapGet s.packages k = some pkg)
    (hdata : cb.Data = "package_" ++ k) : ∃ s', handleCallback cfg env s cb = some s' := by
  rw [handleCallback_package hdata]
  simp only [onPackage, hdata, trimPrefix_append, hk, getSession_fst, UserSession.set,
    Option.map_some', Option.some_bind]
  exact ⟨_, rfl⟩

theorem gender_total {cfg : Config} {env : Env} {s : State} {cb : CallbackQuery}
    (hdata : cb.Data = "gender_male" ∨ cb.Data = "gender_female") :
    ∃ s', handleCallback cfg env s cb = some s' := by
  rw [handleCallback_gender hdata]
  simp only [onGender, getSession_fst, UserSession.set, Option.map_some', Option.some_bind]
  exact ⟨_, rfl⟩

theorem age_yes_total {cfg : Config} {env : Env} {s : State} {cb : CallbackQuery}
    (hdata : cb.Data = "age_yes") : ∃ s', handleCallback cfg env s cb = some s' := by
  rw [handleCallback_age_yes hdata]
  exact ⟨_, rfl⟩

theorem name_total {cfg : Config} {env : Env} {s : State} {msg : Message}
    {D : List (String × String)}
    (hs : s.userSessions msg.FromID = some { Step := "waiting_name", Data := some D }) :
    ∃ s', handleMessage cfg env s msg = some s' := by
  simp only [handleMessage, hs]
  exact ⟨_, rfl⟩

theorem datePageRows_zero (cfg : Config) (env : Env) : (datePageRows cfg env 0).isSome = true := by
  simp [datePageRows, wrap64]

theorem phone_total {cfg : Config} {env : Env} {s : State} {msg : Message}
    {D : List (String × String)}
    (hs : s.userSessions msg.FromID = some { Step := "waiting_phone", Data := some D }) :
    ∃ s', handleMessage cfg env s msg = some s' := by
  simp only [handleMessage, hs]
  have hstep : handleSessionMessage cfg env s msg { Step := "waiting_phone", Data := some D }
      = onWaitingPhone cfg env s msg { Step := "waiting_phone", Data := some D } := rfl
  rw [hstep]
  obtain ⟨rows, hrows⟩ := Option.isSome_iff_exists.mp (datePageRows_zero cfg env)
  simp only [onWaitingPhone, UserSession.set, Option.map_some', Option.some_bind,
    showDatePageMessage, hrows]
  exact ⟨_, rfl⟩

theorem date_total {cfg : Config} {env : Env} {s : State} {cb : CallbackQuery} {d : String}
    (hdata : cb.Data = "date_" ++ d) (hd : '_' ∉ d.data) :
    ∃ s', handleCallback cfg env s cb = some s' := by
  rw [handleCallback_date hdata hd]
  simp only [onDate, hdata, not_page_of_no_underscore d hd, trimPrefix_append,
    getSession_fst, UserSession.set, Option.map_some', Option.some_bind,
    Bool.not_false, if_true]
  exact ⟨_, rfl⟩

theorem time_total {cfg : Config} {env : Env} {s : State} {cb : CallbackQuery} {d t : String}
    (hdata : cb.Data = "time_" ++ d ++ "_" ++ t) (hd : '_' ∉ d.data) (ht : '_' ∉ t.data) :
    ∃ s', handleCallback cfg env s cb = some s' := by
  have hdata' : cb.Data = "time_" ++ (d ++ "_" ++ t) := by
    rw [hdata]; simp [String.append_assoc]
  rw [handleCallback_time hdata']
  simp only [onTime, hdata, splitUnderscore_time d t hd ht, getSession_fst,
    UserSession.set, Option.map_some', Option.some_bind]
  simp only [List.length_cons, List.length_nil, ge_iff_le, Nat.reduceAdd, le_refl, if_true]
  exact ⟨_, rfl⟩

theorem run_rebuild {cfg : Config} {os rest : List (Env × Update)} {e : Env × Update}
    {s a b s' : State} (h1 : run cfg s os = some a)
    (h2 : handleUpdate cfg e.1 a e.2 = some b) (h3 : run cfg b rest = some s') :
    run cfg s (os ++ e :: rest) = some s' := by
  obtain ⟨env, update⟩ := e
  rw [run_append, h1]
  simp only [Option.some_bind, run]
  simp only at h2
  rw [h2]
  exact h3

/-- A date page choice with a suffix after the number: the scan reads 7 from
`date_page_7_0`, the slice `dates[35:30]` is out of range and the handler panics;
a run in which client 6 sends it is not one in which the others survive. -/
theorem date_page_with_suffix_panics :
    (handleCallback moscowCfg march8 freshState (query 6 "date_page_7_0")).isNone = true
      ∧ othersSurvive moscowCfg 5 freshState [(march8, click 6 "date_page_7_0")] = false := by
  decide

/-! ### Age gate and the ledger insert -/

/-- C9 (as stated, refuted): client 5, starting with no session, sends the choices
of a package, a gender, a date, a time and a provider and then `confirm_booking`,
never `age_yes`; the engine accepts each of them and inserts a booked row for the
client. -/
theorem booking_without_age_yes :
    freshState.userSessions 5 = none
      ∧ skipAgeEvents.all (fun e => fromClient 5 e.2 && !isAgeYes e.2) = true
      ∧ (run moscowCfg freshState skipAgeEvents).map
          (fun s => s.slots.map fun r => (r.UserID, r.Status))
        = some [(some "5", "booked")] := by
  decide

/-- C9 (amended): for every sequence of updates of one client who starts with no
session and with no prompt sent, in which every menu choice is one that a prompt
sent earlier in the sequence offers, and which does not contain `age_yes`, no row
is inserted: in every state the engine goes through, the ledger has as many rows
as at the start. (A row is therefore inserted only after an `age_yes`.) -/
theorem no_row_inserted_before_age_yes (cfg : Config) (u : Int) (evs : List (Env × Update))
    (s : State) (hnone : s.userSessions u = none) (hsent : s.sent = [])
    (hfrom : ∀ e ∈ evs, fromClient u e.2 = true)
    (hage : ∀ e ∈ evs, isAgeYes e.2 = false)
    (hoff : choicesOffered cfg s evs = true) :
    ∀ s' ∈ reached cfg s evs, s'.slots.length = s.slots.length :=
  gate_run cfg u evs s
    ⟨fun r hr => by simp [hsent] at hr, fun x hx => by simp [hnone] at hx⟩ hfrom hage hoff

/-- Witness of C9 (amended): client 5 declines the 18+ question and goes on with
the choices still offered. -/
theorem no_row_inserted_before_age_yes_witness :
    choicesOffered moscowCfg freshState declineEvents = true
      ∧ (run moscowCfg freshState declineEvents).isSome = true
      ∧ ∀ s' ∈ reached moscowCfg freshState declineEvents,
          s'.slots.length = freshState.slots.length :=
  ⟨by decide, by decide,
    no_row_inserted_before_age_yes moscowCfg 5 declineEvents freshState rfl rfl
      (by decide) (by decide) (by decide)⟩

/-! ### Confirmation text -/

theorem handleCallback_confirm {cfg : Config} {env : Env} {s : State} {cb : CallbackQuery}
    (h : cb.Data = "confirm_booking") :
    handleCallback cfg env s cb = finalizeBooking cfg env s cb := by
  unfold handleCallback
  rw [h]; rfl

theorem foldl_send_sent (admins : List Int) (f : Int → Request) (s : State) :
    (admins.foldl (fun s admin => s.send (f admin)) s).sent = s.sent ++ admins.map f := by
  induction admins generalizing s with
  | nil => simp
  | cons a rest ih => simp [List.foldl_cons, ih]

theorem foldl_send_masters (admins : List Int) (f : Int → Request) (s : State) :
    (admins.foldl (fun s admin => s.send (f admin)) s).masters = s.masters := by
  induction admins generalizing s with
  | nil => rfl
  | cons a rest ih => simp [List.foldl_cons, ih]

/-- When the insert fails, `finalizeBooking` only answers the callback with the alert. -/
theorem finalizeBooking_write_fails {cfg : Config} {env : Env} {s : State} {cb : CallbackQuery}
    {st date time master gender k : String} {D : List (String × String)}
    (hs : s.userSessions cb.FromID = some { Step := st, Data := some D })
    (hdate : mapGet D "date" = some date) (htime : mapGet D "time" = some time)
    (hmaster : mapGet D "master" = some master) (hgender : mapGet D "gender" = some gender)
    (hk : mapGet D "package" = some k) (hw : env.writeFails = true) :
    finalizeBooking cfg env s cb = some (s.answer cb "Ошибка при бронировании" true) := by
  simp [finalizeBooking, getSession_of_some hs, UserSession.get, hdate, htime, hmaster, hgender,
    hk, bookSlotWithPackage, hw]

/-- When the insert succeeds, `finalizeBooking` appends the row of the session,
edits the prompt, sends one message per entry of the administrator list, deletes
the session and answers the callback. -/
theorem finalizeBooking_books {cfg : Config} {env : Env} {s : State} {cb : CallbackQuery}
    {st date time master gender k : String} {D : List (String × String)}
    (hs : s.userSessions cb.FromID = some { Step := st, Data := some D })
    (hdate : mapGet D "date" = some date) (htime : mapGet D "time" = some time)
    (hmaster : mapGet D "master" = some master) (hgender : mapGet D "gender" = some gender)
    (hk : mapGet D "package" = some k) (hw : env.writeFails = false) :
    ∃ s' row, finalizeBooking cfg env s cb = some s'
      ∧ s'.slots = s.slots ++ [row]
      ∧ row.Status = "booked" ∧ row.MasterName = master ∧ row.Date = date ∧ row.Time = time
      ∧ row.Gender = gender
      ∧ row.PackageName = some ((mapGet s.packages k).getD Package.zero).Name
      ∧ row.ClientName = some ((mapGet D "client_name").getD "")
      ∧ row.ClientPhone = some ((mapGet D "client_phone").getD "")
      ∧ row.UserID = some (fmtD cb.FromID)
      ∧ issued s s' =
          Request.edit cb.ChatID cb.MessageID
              ("✅ Запись подтверждена!\n\n📅 " ++ date ++ "\n🕐 " ++ time ++ "\n👨⚕️ " ++ master
                ++ "\n\nЦентр: HGN Москва\nАдрес: Мичуринский проспект, 19к1") []
            :: (cfg.Admins.map fun admin => Request.message admin
                (newBookingText master date time ((mapGet s.packages k).getD Package.zero)
                  ((mapGet D "client_name").getD "") ((mapGet D "client_phone").getD "")
                  cb.UserName) [])
            ++ [Request.callback cb.ID "Запись успешна!" false]
      ∧ s'.userSessions = Function.update s.userSessions cb.FromID none
      ∧ s'.masters = s.masters ∧ s'.packages = s.packages := by
  simp only [finalizeBooking, getSession_of_some hs, UserSession.get, Option.some_bind, hdate,
    htime, hmaster, hgender, hk, bookSlotWithPackage, hw]
  refine ⟨_, { ID := nextID s.slots, Date := date, Time := time, Gender := gender,
               MasterName := master, Status := "booked", UserID := some (fmtD cb.FromID),
               Username := some cb.UserName,
               BookedAt := some (formatDateTime (env.now + cfg.tzOffset)), Source := "bot",
               ClientName := some ((mapGet D "client_name").getD ""),
               ClientPhone := some ((mapGet D "client_phone").getD ""),
               PackageName := some ((mapGet s.packages k).getD Package.zero).Name },
    rfl, ?_, rfl, rfl, rfl, rfl, rfl, rfl, rfl, rfl, rfl, ?_, ?_, ?_, ?_⟩
  · simp [clearSession, foldl_send_slots]
  · simp [issued, clearSession, foldl_send_sent]
  · simp [clearSession, foldl_send_userSessions]
  · simp [clearSession, foldl_send_masters]
  · simp [clearSession, foldl_send_packages]

/-- C12: the client holds a session with the date, the time, the provider, the
gender and the package (the fields `finalizeBooking` reads), and the insert fails
while `confirm_booking` is handled. Then the handler returns normally; the session
table, the ledger and the catalogs are exactly as before; the only request issued
is the answer to the callback with the failure alert (no message to an
administrator); and the same `confirm_booking`, handled again when the store
accepts the write, inserts the row of the session. -/
theorem failed_insert_leaves_session_for_retry (cfg : Config) (env env' : Env) (s : State)
    (cb : CallbackQuery) (st date time master gender k : String) (D : List (String × String))
    (hdata : cb.Data = "confirm_booking")
    (hs : s.userSessions cb.FromID = some { Step := st, Data := some D })
    (hdate : mapGet D "date" = some date) (htime : mapGet D "time" = some time)
    (hmaster : mapGet D "master" = some master) (hgender : mapGet D "gender" = some gender)
    (hk : mapGet D "package" = some k)
    (hw : env.writeFails = true) (hw' : env'.writeFails = false) :
    ∃ s', handleCallback cfg env s cb = some s'
      ∧ s'.userSessions = s.userSessions ∧ s'.slots = s.slots
      ∧ s'.masters = s.masters ∧ s'.packages = s.packages
      ∧ issued s s' = [Request.callback cb.ID "Ошибка при бронировании" true]
      ∧ ∃ s'' row, handleCallback cfg env' s' cb = some s''
          ∧ s''.slots = s.slots ++ [row] ∧ row.Status = "booked" ∧ row.MasterName = master
          ∧ row.Date = date ∧ row.Time = time ∧ s''.userSessions cb.FromID = none := by
  refine ⟨s.answer cb "Ошибка при бронировании" true, ?_, rfl, rfl, rfl, rfl, ?_, ?_⟩
  · rw [handleCallback_confirm hdata]
    exact finalizeBooking_write_fails hs hdate htime hmaster hgender hk hw
  · simp [issued]
  · have hs' : (s.answer cb "Ошибка при бронировании" true).userSessions cb.FromID
        = some { Step := st, Data := some D } := hs
    obtain ⟨s'', row, h1, h2, h3, h4, h5, h6, -, -, -, -, -, -, h7, -⟩ :=
      @finalizeBooking_books cfg env' _ cb st date time master gender k D hs' hdate htime
        hmaster hgender hk hw'
    refine ⟨s'', row, ?_, h2, h3, h4, h5, h6, ?_⟩
    · rw [handleCallback_confirm hdata]; exact h1
    · rw [h7]; simp

/-- Witness of C12: client 5 has chosen everything and the store refuses the write. -/
theorem failed_insert_leaves_session_for_retry_witness :
    ∃ s', handleCallback moscowCfg { now := 1741435200, readFails := false, writeFails := true }
          (stateWithSession [("package", "complex"), ("gender", "male"), ("client_name", "Ivan"),
            ("client_phone", "+79990000000"), ("date", "2025-03-10"), ("time", "14:00"),
            ("master", "Anna")]) (query 5 "confirm_booking") = some s'
      ∧ s'.userSessions = (stateWithSession [("package", "complex"), ("gender", "male"),
            ("client_name", "Ivan"), ("client_phone", "+79990000000"), ("date", "2025-03-10"),
            ("time", "14:00"), ("master", "Anna")]).userSessions
      ∧ s'.slots = (stateWithSession [("package", "complex"), ("gender", "male"),
            ("client_name", "Ivan"), ("client_phone", "+79990000000"), ("date", "2025-03-10"),
            ("time", "14:00"), ("master", "Anna")]).slots
      ∧ s'.masters = (stateWithSession [("package", "complex"), ("gender", "male"),
            ("client_name", "Ivan"), ("client_phone", "+79990000000"), ("date", "2025-03-10"),
            ("time", "14:00"), ("master", "Anna")]).masters
      ∧ s'.packages = (stateWithSession [("package", "complex"), ("gender", "male"),
            ("client_name", "Ivan"), ("client_phone", "+79990000000"), ("date", "2025-03-10"),
            ("time", "14:00"), ("master", "Anna")]).packages
      ∧ issued (stateWithSession [("package", "complex"), ("gender", "male"),
            ("client_name", "Ivan"), ("client_phone", "+79990000000"), ("date", "2025-03-10"),
            ("time", "14:00"), ("master", "Anna")]) s'
          = [Request.callback (query 5 "confirm_booking").ID "Ошибка при бронировании" true]
      ∧ ∃ s'' row, handleCallback moscowCfg march8 s' (query 5 "confirm_booking") = some s''
          ∧ s''.slots = (stateWithSession [("package", "complex"), ("gender", "male"),
              ("client_name", "Ivan"), ("client_phone", "+79990000000"), ("date", "2025-03-10"),
              ("time", "14:00"), ("master", "Anna")]).slots ++ [row]
          ∧ row.Status = "booked" ∧ row.MasterName = "Anna"
          ∧ row.Date = "2025-03-10" ∧ row.Time = "14:00"
          ∧ s''.userSessions (query 5 "confirm_booking").FromID = none :=
  failed_insert_leaves_session_for_retry moscowCfg
    { now := 1741435200, readFails := false, writeFails := true } march8 _
    (query 5 "confirm_booking") "" "2025-03-10" "14:00" "Anna" "male" "complex" _ rfl rfl
    (by decide) (by decide) (by decide) (by decide) (by decide) rfl rfl

/-- C13 (the code fails the claim): `confirm_booking` makes `finalizeBooking` panic
when the session of the sender lacks a field it asserts to be a string. Client 5
has no session (as after a restart, which empties the session table, while the
confirmation prompt is still in the chat); or holds every field but the provider,
but the gender, or but the package. In the same states the sibling handlers, which
read the session with the comma-ok form, answer with an alert: `back_to_master`
without a session answers that no date is chosen. -/
theorem confirm_booking_panics_on_missing_field :
    handleUpdate moscowCfg march8 freshState (click 5 "confirm_booking") = none
    ∧ handleUpdate moscowCfg march8
        (stateWithSession [("package", "complex"), ("gender", "male"), ("date", "2025-03-10"),
          ("time", "14:00")]) (click 5 "confirm_booking") = none
    ∧ handleUpdate moscowCfg march8
        (stateWithSession [("package", "complex"), ("date", "2025-03-10"), ("time", "14:00"),
          ("master", "Anna")]) (click 5 "confirm_booking") = none
    ∧ handleUpdate moscowCfg march8
        (stateWithSession [("gender", "male"), ("date", "2025-03-10"), ("time", "14:00"),
          ("master", "Anna")]) (click 5 "confirm_booking") = none
    ∧ (handleUpdate moscowCfg march8 freshState (click 5 "back_to_master")).map
        (fun s => s.sent) = some [Request.callback "cb" "Ошибка: дата не выбрана" true] := by
  refine ⟨?_, ?_, ?_, ?_, ?_⟩ <;>
    first
      | exact Option.isNone_iff_eq_none.mp (by decide)
      | decide

/-! ### Back navigation -/

theorem handleCallback_back_packages (cfg : Config) (env : Env) (s : State)
    (cb : CallbackQuery) (h : cb.Data = "back_packages") :
    handleCallback cfg env s cb = onBackPackages s cb := by
  unfold handleCallback
  rw [h]; rfl

theorem handleCallback_back_to_gender (cfg : Config) (env : Env) (s : State)
    (cb : CallbackQuery) (h : cb.Data = "back_to_gender") :
    handleCallback cfg env s cb = onBackToGender s cb := by
  unfold handleCallback
  rw [h]; rfl

theorem handleCallback_back_to_date (cfg : Config) (env : Env) (s : State)
    (cb : CallbackQuery) (h : cb.Data = "back_to_date") :
    handleCallback cfg env s cb = showDatePage cfg env s cb 0 := by
  unfold handleCallback
  rw [h]; rfl

theorem handleCallback_back_to_time (cfg : Config) (env : Env) (s : State)
    (cb : CallbackQuery) (h : cb.Data = "back_to_time") :
    handleCallback cfg env s cb = onBackToTime cfg env s cb := by
  unfold handleCallback
  rw [h]; rfl

theorem handleCallback_back_to_master (cfg : Config) (env : Env) (s : State)
    (cb : CallbackQuery) (h : cb.Data = "back_to_master") :
    handleCallback cfg env s cb = some (showMasterSelection env s cb) := by
  unfold handleCallback
  rw [h]; rfl

theorem sameSessions_of_eq {s s' : State} (h : s'.userSessions = s.userSessions) :
    sameSessions s s' := by
  intro v
  simp [sessionData, sessionStep, h]

theorem sameSessions_getSession (s : State) (u : Int) : sameSessions s (getSession s u).2 := by
  intro v
  simp only [getSession, loadUserSession]
  cases hu : s.userSessions u with
  | none => simp [sessionData, sessionStep]
  | some x =>
    obtain ⟨st, D⟩ := x
    cases D with
    | some d => simp [sessionData, sessionStep]
    | none =>
      by_cases hv : v = u
      · subst hv
        simp [sessionData, sessionStep, hu]
      · simp [sessionData, sessionStep, Function.update_noteq hv]

theorem sameSessions_trans {a b c : State} (h1 : sameSessions a b) (h2 : sameSessions b c) :
    sameSessions a c := fun v =>
  ⟨(h2 v).1.trans (h1 v).1, (h2 v).2.1.trans (h1 v).2.1, (h2 v).2.2.trans (h1 v).2.2⟩

theorem showDatePage_zero (cfg : Config) (env : Env) (s : State) (cb : CallbackQuery) :
    ∃ s', showDatePage cfg env s cb 0 = some s' ∧ s'.userSessions = s.userSessions
      ∧ s'.slots = s.slots := by
  obtain ⟨rows, hrows⟩ := Option.isSome_iff_exists.mp (datePageRows_zero cfg env)
  simp only [showDatePage, hrows, Option.map_some']
  exact ⟨_, rfl, rfl, rfl⟩

theorem showMasterSelection_same (env : Env) (s : State) (cb : CallbackQuery) :
    sameSessions s (showMasterSelection env s cb)
      ∧ (showMasterSelection env s cb).slots = s.slots := by
  have hg := sameSessions_getSession s cb.FromID
  have hsl : (getSession s cb.FromID).2.slots = s.slots := by simp
  simp only [showMasterSelection]
  split
  · exact ⟨hg, hsl⟩
  · split
    · exact ⟨hg, hsl⟩
    · exact ⟨hg, hsl⟩

/-- C14: for every state (every session of the sender, also none and one with a
nil map) and each of the five back choices of the booking flow, the handler
returns normally and every client, the sender included, holds afterwards the
same fields with the same values, is in the same step, and has a session exactly
when it had one; the ledger is unchanged too. -/
theorem back_choices_keep_collected_fields (cfg : Config) (env : Env) (s : State)
    (cb : CallbackQuery)
    (h : cb.Data ∈ ["back_packages", "back_to_gender", "back_to_date", "back_to_time",
      "back_to_master"]) :
    ∃ s', handleCallback cfg env s cb = some s'
      ∧ (∀ v, sessionData s' v = sessionData s v ∧ sessionStep s' v = sessionStep s v
          ∧ (s'.userSessions v).isSome = (s.userSessions v).isSome)
      ∧ s'.slots = s.slots := by
  have hg := sameSessions_getSession s cb.FromID
  have hsl : (getSession s cb.FromID).2.slots = s.slots := by simp
  simp only [List.mem_cons, List.mem_singleton, List.not_mem_nil, or_false] at h
  rcases h with h | h | h | h | h
  · rw [handleCallback_back_packages cfg env s cb h]
    exact ⟨_, rfl, sameSessions_of_eq rfl, rfl⟩
  · rw [handleCallback_back_to_gender cfg env s cb h]
    simp only [onBackToGender]
    split
    · exact ⟨_, rfl, hg, hsl⟩
    · exact ⟨_, rfl, hg, hsl⟩
  · rw [handleCallback_back_to_date cfg env s cb h]
    obtain ⟨s', h1, h2, h3⟩ := showDatePage_zero cfg env s cb
    exact ⟨s', h1, sameSessions_of_eq h2, h3⟩
  · rw [handleCallback_back_to_time cfg env s cb h]
    simp only [onBackToTime]
    split
    · obtain ⟨s', h1, h2, h3⟩ := showDatePage_zero cfg env (getSession s cb.FromID).2 cb
      exact ⟨s', h1, sameSessions_trans hg (sameSessions_of_eq h2), h3.trans hsl⟩
    · exact ⟨_, rfl, hg, hsl⟩
  · rw [handleCallback_back_to_master cfg env s cb h]
    exact ⟨_, rfl, (showMasterSelection_same env s cb).1, (showMasterSelection_same env s cb).2⟩

/-- Witness of C14: client 5, who has chosen everything, goes back to the times. -/
theorem back_choices_keep_collected_fields_witness :
    (query 5 "back_to_time").Data ∈ ["back_packages", "back_to_gender", "back_to_date",
        "back_to_time", "back_to_master"]
    ∧ ∃ s', handleCallback moscowCfg march8
          (stateWithSession [("package", "complex"), ("gender", "male"), ("client_name", "Ivan"),
            ("client_phone", "+79990000000"), ("date", "2025-03-10"), ("time", "14:00"),
            ("master", "Anna")]) (query 5 "back_to_time") = some s'
      ∧ (∀ v, sessionData s' v
            = sessionData (stateWithSession [("package", "complex"), ("gender", "male"),
                ("client_name", "Ivan"), ("client_phone", "+79990000000"),
                ("date", "2025-03-10"), ("time", "14:00"), ("master", "Anna")]) v
          ∧ sessionStep s' v
            = sessionStep (stateWithSession [("package", "complex"), ("gender", "male"),
                ("client_name", "Ivan"), ("client_phone", "+79990000000"),
                ("date", "2025-03-10"), ("time", "14:00"), ("master", "Anna")]) v
          ∧ (s'.userSessions v).isSome
            = ((stateWithSession [("package", "complex"), ("gender", "male"),
                ("client_name", "Ivan"), ("client_phone", "+79990000000"),
                ("date", "2025-03-10"), ("time", "14:00"), ("master", "Anna")]).userSessions
                  v).isSome)
      ∧ s'.slots = (stateWithSession [("package", "complex"), ("gender", "male"),
            ("client_name", "Ivan"), ("client_phone", "+79990000000"), ("date", "2025-03-10"),
            ("time", "14:00"), ("master", "Anna")]).slots :=
  ⟨by decide, back_choices_keep_collected_fields moscowCfg march8 _ (query 5 "back_to_time")
    (by decide)⟩

/-! ### Administrative flows -/

theorem handleCallback_add_master_start (cfg : Config) (env : Env) (s : State)
    (cb : CallbackQuery) (h : cb.Data = "add_master_start") :
    handleCallback cfg env s cb = some (startAddMaster s cb) := by
  unfold handleCallback
  rw [h]; rfl

theorem handleCallback_admin_masters (cfg : Config) (env : Env) (s : State)
    (cb : CallbackQuery) (h : cb.Data = "admin_masters_btn") :
    handleCallback cfg env s cb = some (showAdminMasters s cb) := by
  unfold handleCallback
  rw [h]; rfl

theorem showBookingConfirmation_userSessions {s : State} {cb : CallbackQuery}
    {st : String} {D : List (String × String)}
    (hs : s.userSessions cb.FromID = some { Step := st, Data := some D }) :
    (showBookingConfirmation s cb).userSessions = s.userSessions := by
  simp only [showBookingConfirmation, getSession_of_some hs]
  split <;> rfl

theorem showBookingConfirmation_store (s : State) (cb : CallbackQuery) :
    (showBookingConfirmation s cb).slots = s.slots
      ∧ (showBookingConfirmation s cb).packages = s.packages
      ∧ (showBookingConfirmation s cb).masters = s.masters := by
  simp only [showBookingConfirmation]
  split <;> simp

/-- The branch `master_` on any state: the rest of the data becomes the field
`master` of the session of the sender, whose step stays what it was. -/
theorem master_session_effect {cfg : Config} {env : Env} {s : State} {cb : CallbackQuery}
    {m : String} (hdata : cb.Data = "master_" ++ m) :
    ∃ s', handleCallback cfg env s cb = some s'
      ∧ s'.userSessions cb.FromID
          = some { Step := sessionStep s cb.FromID,
                   Data := some (mapSet (sessionData s cb.FromID) "master" m) }
      ∧ s'.slots = s.slots ∧ s'.packages = s.packages ∧ s'.masters = s.masters := by
  rw [handleCallback_master hdata]
  simp only [onMaster, hdata, trimPrefix_append, getSession_fst, UserSession.set,
    Option.map_some', Option.some_bind, setSession_eq]
  refine ⟨_, rfl, ?_, ?_⟩
  · rw [@showBookingConfirmation_userSessions _ cb (sessionStep s cb.FromID)
      (mapSet (sessionData s cb.FromID) "master" m) (by simp)]
    simp
  · obtain ⟨h1, h2, h3⟩ := showBookingConfirmation_store
      (saveUserSession (getSession s cb.FromID).2 cb.FromID
        { Step := sessionStep s cb.FromID,
          Data := some (mapSet (sessionData s cb.FromID) "master" m) }) cb
    exact ⟨by rw [h1]; simp, by rw [h2]; simp, by rw [h3]; simp⟩

/-- C15 (the code fails the claim): the data `master_profile_<id>` has the prefix
`master_`, whose branch of `handleCallback` comes before the branch
`master_profile_`; so for every state and every id the choice is handled as the
provider choice of the booking flow: the session of the sender keeps its step and
gets the field `master` with the value `profile_<id>`; `showMasterProfileLogin`
is never called. On the sample catalog: the provider list offers
`master_profile_anna`; a client without a session who chooses it ends with a
session in step `""` holding `master = profile_anna` and is told that no
procedure is chosen; the access code of Anna sent next is ignored. -/
theorem master_profile_choice_is_read_as_provider_choice :
    (∀ (cfg : Config) (env : Env) (s : State) (cb : CallbackQuery) (id : String),
      ∃ s', handleCallback cfg env s { cb with Data := "master_profile_" ++ id } = some s'
        ∧ s'.userSessions cb.FromID
            = some { Step := sessionStep s cb.FromID,
                     Data := some (mapSet (sessionData s cb.FromID) "master" ("profile_" ++ id)) })
    ∧ mapGet freshState.masters "anna" = some anna
    ∧ offered (showAdminMasters freshState (query 5 "admin_masters_btn")) "master_profile_anna"
        = true
    ∧ (run moscowCfg freshState
        [(march8, click 5 "admin_masters_btn"), (march8, click 5 "master_profile_anna")]).map
          (fun s => (s.userSessions 5, s.sent.drop 2))
        = some (some { Step := "", Data := some [("master", "profile_anna")] },
            [Request.callback "cb" "Ошибка: процедура не выбрана" true])
    ∧ (run moscowCfg freshState
        [(march8, click 5 "admin_masters_btn"), (march8, click 5 "master_profile_anna"),
         (march8, say 5 "1234")]).map (fun s => (s.userSessions 5, s.sent.drop 3))
        = some (some { Step := "", Data := some [("master", "profile_anna")] }, []) := by
  refine ⟨?_, by decide, by decide, by decide, by decide⟩
  intro cfg env s cb id
  have hdata : ({ cb with Data := "master_profile_" ++ id } : CallbackQuery).Data
      = "master_" ++ ("profile_" ++ id) := by
    show "master_profile_" ++ id = "master_" ++ ("profile_" ++ id)
    rw [← String.append_assoc]; rfl
  obtain ⟨s', h1, h2, -⟩ := @master_session_effect cfg env s _ _ hdata
  exact ⟨s', h1, h2⟩

/-- C16 (the code fails the claim): `startAddMaster` stores a session whose map
is nil, and the case `add_master_name` writes the name into that map. For every
state, every client and every text, `add_master_start` is handled normally and
leaves the session in step `add_master_name` with a nil map, and the text message
of the same client that follows makes the handler panic. On the sample state the
run of the two events ends in the panic, so no provider is added. -/
theorem add_master_flow_panics_on_the_name :
    (∀ (cfg : Config) (env env' : Env) (s : State) (cb : CallbackQuery) (msg : Message),
      ∃ s1, handleCallback cfg env s { cb with Data := "add_master_start" } = some s1
        ∧ s1.userSessions cb.FromID = some { Step := "add_master_name", Data := none }
        ∧ handleMessage cfg env' s1 { msg with FromID := cb.FromID } = none)
    ∧ freshState.userSessions 5 = none
    ∧ run moscowCfg freshState
        [(march8, click 5 "add_master_start"), (march8, say 5 "Oleg")] = none := by
  refine ⟨?_, rfl, Option.isNone_iff_eq_none.mp (by decide)⟩
  intro cfg env env' s cb msg
  refine ⟨_, handleCallback_add_master_start cfg env s _ rfl, ?_, ?_⟩
  · simp [startAddMaster]
  · simp [handleMessage, startAddMaster, handleSessionMessage, onAddMasterName, UserSession.set]

/-- C17 (the code fails the claim): `admin_masters_btn`, which the prompts of the
administrative steps offer under the label `Отмена`, is handled by
`showAdminMasters`, which never touches the session table. For every state and
every sender it returns normally, leaves the session table, the catalog and the
ledger as they were, and issues only the edit to the provider list and the answer
to the callback. So client 5, who starts the add-provider flow and cancels, is
still in step `add_master_name`, and the text sent next is still taken as the
provider name (where the write to the nil map ends the process); and a client in
step `master_login` for Anna who cancels is still in that step, and the text sent
next is taken as the access code and, being the code of Anna, opens her profile.
The other exits of these flows delete the session: the text handled in step
`master_login` does, as the same run shows. -/
theorem cancel_of_admin_flow_keeps_the_session :
    (∀ (cfg : Config) (env : Env) (s : State) (cb : CallbackQuery),
      ∃ s', handleCallback cfg env s { cb with Data := "admin_masters_btn" } = some s'
        ∧ s'.userSessions = s.userSessions ∧ s'.masters = s.masters ∧ s'.slots = s.slots
        ∧ issued s s' =
            [Request.edit cb.ChatID cb.MessageID "Выберите мастера:"
              ((s.masters.map fun e => [Button.data e.2.Name ("master_profile_" ++ e.1)])
                ++ [[Button.data "➕ Добавить мастера" "add_master_start",
                     Button.data "← Назад" "admin_back"]]),
             Request.callback cb.ID "" false])
    ∧ freshState.userSessions 5 = none
    ∧ (run moscowCfg freshState [(march8, click 5 "add_master_start")]).map
        (fun s => (s.userSessions 5, offered s "admin_masters_btn"))
      = some (some { Step := "add_master_name", Data := none }, true)
    ∧ (run moscowCfg freshState
        [(march8, click 5 "add_master_start"), (march8, click 5 "admin_masters_btn")]).map
        (fun s => s.userSessions 5)
      = some (some { Step := "add_master_name", Data := none })
    ∧ (run moscowCfg freshState
        [(march8, click 5 "add_master_start"), (march8, click 5 "admin_masters_btn"),
         (march8, say 5 "/start")]).isNone = true
    ∧ loginState.userSessions 5
        = some { Step := "master_login", Data := some [("master_id", "anna")] }
    ∧ (run moscowCfg loginState [(march8, click 5 "admin_masters_btn")]).map
        (fun s => s.userSessions 5)
      = some (some { Step := "master_login", Data := some [("master_id", "anna")] })
    ∧ (run moscowCfg loginState
        [(march8, click 5 "admin_masters_btn"), (march8, say 5 "1234")]).map
        (fun s => (s.userSessions 5, lastPromptText s))
      = some (none, some "👨⚕️ Anna\n📞 @anna\n\nВыполненно: 0\nПрибыль: 0 ₽") := by
  refine ⟨?_, rfl, by decide, by decide, by decide, by decide, by decide, by decide⟩
  intro cfg env s cb
  refine ⟨_, handleCallback_admin_masters cfg env s _ rfl, rfl, rfl, rfl, ?_⟩
  simp [issued, showAdminMasters]

/-! ### The whole booking flow -/

theorem book_keyword_effect {cfg : Config} {env : Env} {s : State} {msg : Message}
    (hnone : s.userSessions msg.FromID = none)
    (hword : contains (toLower msg.Text) "записаться" = true) :
    handleMessage cfg env s msg = some (bookStart s msg) := by
  have hne : ¬ toLower msg.Text = "/start" := by
    intro h
    rw [h] at hword
    exact absurd hword (by decide)
  simp only [handleMessage, hnone, handleCommand]
  rw [if_neg hne, if_pos hword]

theorem messageChats_notices (admins : List Int) (text : String) (a b : Request)
    (ha : messageChats [a] = []) (hb : messageChats [b] = []) :
    messageChats (a :: (admins.map fun admin => Request.message admin text []) ++ [b])
      = admins := by
  have h1 : ∀ l : List Int, messageChats (l.map fun admin => Request.message admin text []) = l := by
    intro l
    induction l with
    | nil => rfl
    | cons x xs ih =>
      simp only [messageChats, List.map_cons, List.filterMap_cons] at ih ⊢
      rw [ih]
  simp only [messageChats, List.filterMap_cons, List.filterMap_append, List.filterMap_nil] at *
  cases a <;> cases b <;> simp_all

/-- C11: a client without a session sends a text with the book keyword, chooses a
package of the catalog, a gender, answers `age_yes`, sends a name and a phone,
chooses a date and a time (both without underscore, as the menus offer them) and
a provider, and confirms while the store accepts the write. Then every event is
handled normally; the first nine leave the ledger as it was and the confirmation
appends exactly one row, with status `booked`, the chosen provider, date and
time, the name of the chosen package, the name and the phone sent and the id of
the client; while the confirmation is handled, the new messages go to exactly the
entries of the administrator list, each carrying the booking (so each
administrator of a list without repetition receives exactly one); and the client
is left without a session. -/
theorem booking_flow_adds_one_row (cfg : Config) (s : State) (u : Int)
    (word k name phone d t m : String) (pkg : Package)
    (e0 e1 e2 e3 e4 e5 e6 e7 e8 e9 : Env × Update)
    (hnone : s.userSessions u = none)
    (hk : mapGet s.packages k = some pkg)
    (hd : '_' ∉ d.data) (ht : '_' ∉ t.data)
    (h0 : isText u word e0.2) (hword : contains (toLower word) "записаться" = true)
    (h1 : isChoice u ("package_" ++ k) e1.2)
    (h2 : isChoice u "gender_male" e2.2 ∨ isChoice u "gender_female" e2.2)
    (h3 : isChoice u "age_yes" e3.2)
    (h4 : isText u name e4.2) (h5 : isText u phone e5.2)
    (h6 : isChoice u ("date_" ++ d) e6.2)
    (h7 : isChoice u ("time_" ++ d ++ "_" ++ t) e7.2)
    (h8 : isChoice u ("master_" ++ m) e8.2)
    (h9 : isChoice u "confirm_booking" e9.2)
    (hw : e9.1.writeFails = false) :
    ∃ sPrev s' row cb, e9.2 = Update.callback cb
      ∧ run cfg s [e0, e1, e2, e3, e4, e5, e6, e7, e8] = some sPrev
      ∧ handleUpdate cfg e9.1 sPrev e9.2 = some s'
      ∧ run cfg s [e0, e1, e2, e3, e4, e5, e6, e7, e8, e9] = some s'
      ∧ sPrev.slots = s.slots
      ∧ s'.slots = s.slots ++ [row]
      ∧ row.Status = "booked" ∧ row.MasterName = m ∧ row.Date = d ∧ row.Time = t
      ∧ row.PackageName = some pkg.Name
      ∧ row.ClientName = some name ∧ row.ClientPhone = some phone
      ∧ row.UserID = some (fmtD u)
      ∧ issued sPrev s' =
          Request.edit cb.ChatID cb.MessageID
              ("✅ Запись подтверждена!\n\n📅 " ++ d ++ "\n🕐 " ++ t ++ "\n👨⚕️ " ++ m
                ++ "\n\nЦентр: HGN Москва\nАдрес: Мичуринский проспект, 19к1") []
            :: (cfg.Admins.map fun admin => Request.message admin
                (newBookingText m d t pkg name phone cb.UserName) [])
            ++ [Request.callback cb.ID "Запись успешна!" false]
      ∧ messageChats (issued sPrev s') = cfg.Admins
      ∧ (cfg.Admins.Nodup → ∀ a ∈ cfg.Admins, (messageChats (issued sPrev s')).count a = 1)
      ∧ s'.userSessions u = none := by
  -- the book keyword
  obtain ⟨m0, hm0, hf0, ht0⟩ := h0
  have hu0 : handleUpdate cfg e0.1 s e0.2 = some (bookStart s m0) := by
    rw [hm0]
    exact book_keyword_effect (by rw [hf0]; exact hnone) (by rw [ht0]; exact hword)
  -- the package choice
  obtain ⟨cb1, hcb1, hf1, hdata1⟩ := h1
  have hk1 : mapGet (bookStart s m0).packages k = some pkg := hk
  obtain ⟨b1, hb1⟩ := @package_total cfg e1.1 _ _ _ _ hk1 hdata1
  have hE1 := package_effect hk1 hdata1 hb1
  have hsl1 : b1.slots = (bookStart s m0).slots :=
    (frame_onPackage (by rw [← handleCallback_package hdata1]; exact hb1)).2.1
  have hu1 : handleUpdate cfg e1.1 (bookStart s m0) e1.2 = some b1 := by rw [hcb1]; exact hb1
  have hD1 : sessionData (bookStart s m0) cb1.FromID = [] := by
    simp [sessionData, bookStart, hf1, hnone]
  rw [hD1, hf1] at hE1
  -- the gender choice
  have hcb2 : ∃ cb2, e2.2 = Update.callback cb2 ∧ cb2.FromID = u
      ∧ (cb2.Data = "gender_male" ∨ cb2.Data = "gender_female") := by
    rcases h2 with ⟨c, hc, hf, hdata⟩ | ⟨c, hc, hf, hdata⟩
    · exact ⟨c, hc, hf, Or.inl hdata⟩
    · exact ⟨c, hc, hf, Or.inr hdata⟩
  obtain ⟨cb2, hcb2, hf2, hdata2⟩ := hcb2
  obtain ⟨b2, hb2⟩ := @gender_total cfg e2.1 b1 _ hdata2
  rw [← hf2] at hE1
  obtain ⟨⟨g, hS2⟩, hP2⟩ := gender_effect hE1.1 hdata2 hb2
  have hsl2 : b2.slots = b1.slots :=
    (frame_onGender (by rw [← handleCallback_gender hdata2]; exact hb2)).2.1
  have hu2 : handleUpdate cfg e2.1 b1 e2.2 = some b2 := by rw [hcb2]; exact hb2
  rw [hf2] at hS2 hE1
  -- the 18+ confirmation
  obtain ⟨cb3, hcb3, hf3, hdata3⟩ := h3
  obtain ⟨b3, hb3⟩ := @age_yes_total cfg e3.1 b2 _ hdata3
  rw [← hf3] at hS2
  have hE3 := age_yes_effect hS2 hdata3 hb3
  have hsl3 : b3.slots = b2.slots :=
    (frame_onAgeYes (by rw [← handleCallback_age_yes hdata3]; exact hb3)).2.1
  have hu3 : handleUpdate cfg e3.1 b2 e3.2 = some b3 := by rw [hcb3]; exact hb3
  rw [hf3] at hE3
  -- the name
  obtain ⟨m4, hm4, hf4, ht4⟩ := h4
  rw [← hf4] at hE3
  obtain ⟨b4, hb4⟩ := @name_total cfg e4.1 _ _ _ hE3.1
  have hE4 := name_effect hE3.1 hb4
  have hsl4 : b4.slots = b3.slots := (handleMessage_frame hb4).2.1
  have hu4 : handleUpdate cfg e4.1 b3 e4.2 = some b4 := by rw [hm4]; exact hb4
  rw [hf4, ht4] at hE4
  -- the phone
  obtain ⟨m5, hm5, hf5, ht5⟩ := h5
  rw [← hf5] at hE4
  obtain ⟨b5, hb5⟩ := @phone_total cfg e5.1 _ _ _ hE4.1
  have hE5 := phone_effect hE4.1 hb5
  have hsl5 : b5.slots = b4.slots := (handleMessage_frame hb5).2.1
  have hu5 : handleUpdate cfg e5.1 b4 e5.2 = some b5 := by rw [hm5]; exact hb5
  rw [hf5, ht5] at hE5
  -- the date
  obtain ⟨cb6, hcb6, hf6, hdata6⟩ := h6
  obtain ⟨b6, hb6⟩ := @date_total cfg e6.1 b5 _ _ hdata6 hd
  rw [← hf6] at hE5
  have hE6 := date_effect hE5.1 hdata6 hd hb6
  have hsl6 : b6.slots = b5.slots :=
    (frame_onDate (by rw [← handleCallback_date hdata6 hd]; exact hb6)).2.1
  have hu6 : handleUpdate cfg e6.1 b5 e6.2 = some b6 := by rw [hcb6]; exact hb6
  rw [hf6] at hE6
  -- the time
  obtain ⟨cb7, hcb7, hf7, hdata7⟩ := h7
  obtain ⟨b7, hb7⟩ := @time_total cfg e7.1 b6 _ _ _ hdata7 hd ht
  rw [← hf7] at hE6
  have hE7 := time_effect hE6.1 hdata7 hd ht hb7
  have hsl7 : b7.slots = b6.slots := by
    have hdata7' : cb7.Data = "time_" ++ (d ++ "_" ++ t) := by
      rw [hdata7]; simp [String.append_assoc]
    exact (frame_onTime (by rw [← handleCallback_time hdata7']; exact hb7)).2.1
  have hu7 : handleUpdate cfg e7.1 b6 e7.2 = some b7 := by rw [hcb7]; exact hb7
  rw [hf7] at hE7
  -- the provider
  obtain ⟨cb8, hcb8, hf8, hdata8⟩ := h8
  obtain ⟨b8, hb8, hS8, hsl8, hP8, -⟩ := @master_session_effect cfg e8.1 b7 cb8 m hdata8
  have hu8 : handleUpdate cfg e8.1 b7 e8.2 = some b8 := by rw [hcb8]; exact hb8
  rw [hf8] at hS8
  simp only [sessionStep, sessionData, hE7.1, Option.map_some', Option.getD_some,
    Option.some_bind] at hS8
  -- the confirmation
  obtain ⟨cb9, hcb9, hf9, hdata9⟩ := h9
  rw [← hf9] at hS8
  have hpk : b8.packages = s.packages := by
    rw [hP8, hE7.2, hE6.2, hE5.2, hE4.2, hE3.2, hP2, hE1.2]; rfl
  obtain ⟨s', row, hfin, hrow, hst, hma, hda, hti, -, hpn, hcn, hcp, hui, hiss, hses, -, -⟩ :=
    @finalizeBooking_books cfg e9.1 b8 cb9 "" d t m g k _ hS8
      (by simp [mapGet_mapSet]) (by simp [mapGet_mapSet]) (by simp [mapGet_mapSet])
      (by simp [mapGet_mapSet]) (by simp [mapGet_mapSet]) hw
  have hu9 : handleUpdate cfg e9.1 b8 e9.2 = some s' := by
    rw [hcb9]
    show handleCallback cfg e9.1 b8 cb9 = some s'
    rw [handleCallback_confirm hdata9]; exact hfin
  have hslPrev : b8.slots = s.slots := by
    rw [hsl8, hsl7, hsl6, hsl5, hsl4, hsl3, hsl2, hsl1]; rfl
  rw [hpk, hk] at hpn hiss
  simp only [mapGet_mapSet, Option.getD_some] at hcn hcp hiss
  simp at hcn hcp hiss
  have hmc : messageChats (issued b8 s') = cfg.Admins := by
    rw [hiss]; exact messageChats_notices _ _ _ _ (by rfl) (by rfl)
  refine ⟨b8, s', row, cb9, hcb9, ?_, hu9, ?_, hslPrev, by rw [hrow, hslPrev], hst, hma, hda,
    hti, hpn, hcn, hcp, by rw [hui, hf9], hiss, hmc, ?_, by rw [hses, hf9]; simp⟩
  · exact @run_rebuild cfg [] _ _ _ _ _ _ rfl hu0 (@run_rebuild cfg [] _ _ _ _ _ _ rfl hu1
      (@run_rebuild cfg [] _ _ _ _ _ _ rfl hu2 (@run_rebuild cfg [] _ _ _ _ _ _ rfl hu3
      (@run_rebuild cfg [] _ _ _ _ _ _ rfl hu4 (@run_rebuild cfg [] _ _ _ _ _ _ rfl hu5
      (@run_rebuild cfg [] _ _ _ _ _ _ rfl hu6 (@run_rebuild cfg [] _ _ _ _ _ _ rfl hu7
      (@run_rebuild cfg [] _ _ _ _ _ _ rfl hu8 rfl))))))))
  · exact @run_rebuild cfg [] _ _ _ _ _ _ rfl hu0 (@run_rebuild cfg [] _ _ _ _ _ _ rfl hu1
      (@run_rebuild cfg [] _ _ _ _ _ _ rfl hu2 (@run_rebuild cfg [] _ _ _ _ _ _ rfl hu3
      (@run_rebuild cfg [] _ _ _ _ _ _ rfl hu4 (@run_rebuild cfg [] _ _ _ _ _ _ rfl hu5
      (@run_rebuild cfg [] _ _ _ _ _ _ rfl hu6 (@run_rebuild cfg [] _ _ _ _ _ _ rfl hu7
      (@run_rebuild cfg [] _ _ _ _ _ _ rfl hu8 (@run_rebuild cfg [] _ _ _ _ _ _ rfl hu9 rfl)))))))))
  · intro hnd a ha
    rw [hmc]
    exact List.count_eq_one_of_mem hnd ha

/-- Witness of C11: the scenario of the specification, on the sample catalog in
which the package `complex` is named `complex`. -/
theorem booking_flow_adds_one_row_witness :
    freshState.userSessions 5 = none
    ∧ mapGet freshState.packages "complex" = some complexPackage
    ∧ moscowCfg.Admins.Nodup
    ∧ (run moscowCfg freshState
          (selectionFlow march8 5 "gender_male" "Ivan" "+79990000000" "2025-03-10" "14:00"
            "Anna" ++ [(march8, click 5 "confirm_booking")])).map
        (fun s => s.slots.map fun r => [r.MasterName, r.Date, r.Time, r.PackageName.getD "",
          r.Status])
      = some [["Anna", "2025-03-10", "14:00", "complex", "booked"]]
    ∧ ∃ sPrev s' row cb, click 5 "confirm_booking" = Update.callback cb
      ∧ run moscowCfg freshState
          [(march8, say 5 "записаться"), (march8, click 5 "package_complex"),
           (march8, click 5 "gender_male"), (march8, click 5 "age_yes"), (march8, say 5 "Ivan"),
           (march8, say 5 "+79990000000"), (march8, click 5 "date_2025-03-10"),
           (march8, click 5 "time_2025-03-10_14:00"), (march8, click 5 "master_Anna")]
          = some sPrev
      ∧ handleUpdate moscowCfg march8 sPrev (click 5 "confirm_booking") = some s'
      ∧ run moscowCfg freshState
          [(march8, say 5 "записаться"), (march8, click 5 "package_complex"),
           (march8, click 5 "gender_male"), (march8, click 5 "age_yes"), (march8, say 5 "Ivan"),
           (march8, say 5 "+79990000000"), (march8, click 5 "date_2025-03-10"),
           (march8, click 5 "time_2025-03-10_14:00"), (march8, click 5 "master_Anna"),
           (march8, click 5 "confirm_booking")] = some s'
      ∧ sPrev.slots = freshState.slots
      ∧ s'.slots = freshState.slots ++ [row]
      ∧ row.Status = "booked" ∧ row.MasterName = "Anna" ∧ row.Date = "2025-03-10"
      ∧ row.Time = "14:00"
      ∧ row.PackageName = some complexPackage.Name
      ∧ row.ClientName = some "Ivan" ∧ row.ClientPhone = some "+79990000000"
      ∧ row.UserID = some (fmtD 5)
      ∧ issued sPrev s' =
          Request.edit cb.ChatID cb.MessageID
              ("✅ Запись подтверждена!\n\n📅 " ++ "2025-03-10" ++ "\n🕐 " ++ "14:00" ++ "\n👨⚕️ "
                ++ "Anna" ++ "\n\nЦентр: HGN Москва\nАдрес: Мичуринский проспект, 19к1") []
            :: (moscowCfg.Admins.map fun admin => Request.message admin
                (newBookingText "Anna" "2025-03-10" "14:00" complexPackage "Ivan" "+79990000000"
                  cb.UserName) [])
            ++ [Request.callback cb.ID "Запись успешна!" false]
      ∧ messageChats (issued sPrev s') = moscowCfg.Admins
      ∧ (moscowCfg.Admins.Nodup →
          ∀ a ∈ moscowCfg.Admins, (messageChats (issued sPrev s')).count a = 1)
      ∧ s'.userSessions 5 = none :=
  ⟨rfl, rfl, by decide, by decide,
    booking_flow_adds_one_row moscowCfg freshState 5 "записаться" "complex" "Ivan"
      "+79990000000" "2025-03-10" "14:00" "Anna" complexPackage
      (march8, say 5 "записаться") (march8, click 5 "package_complex")
      (march8, click 5 "gender_male") (march8, click 5 "age_yes") (march8, say 5 "Ivan")
      (march8, say 5 "+79990000000") (march8, click 5 "date_2025-03-10")
      (march8, click 5 "time_2025-03-10_14:00") (march8, click 5 "master_Anna")
      (march8, click 5 "confirm_booking")
      rfl rfl (by decide) (by decide)
      ⟨_, rfl, rfl, rfl⟩ (by decide) ⟨_, rfl, rfl, rfl⟩ (Or.inl ⟨_, rfl, rfl, rfl⟩)
      ⟨_, rfl, rfl, rfl⟩ ⟨_, rfl, rfl, rfl⟩ ⟨_, rfl, rfl, rfl⟩ ⟨_, rfl, rfl, rfl⟩
      ⟨_, rfl, rfl, rfl⟩ ⟨_, rfl, rfl, rfl⟩ ⟨_, rfl, rfl, rfl⟩ rfl⟩

/-! ### Top-level commands -/

theorem containsL_iff (sub l : List Char) : containsL sub l = true ↔ sub <:+: l := by
  induction l with
  | nil =>
    simp only [containsL, List.isPrefixOf_iff_prefix, List.prefix_nil, List.infix_nil]
  | cons c cs ih =>
    simp only [containsL, Bool.or_eq_true, List.isPrefixOf_iff_prefix, ih, List.infix_cons_iff]

theorem contains_toLower_iff (text kw : String) :
    contains (toLower text) kw = true ↔ mentions text kw := by
  simp only [contains, toLower, containsL_iff, mentions]
  constructor
  · rintro ⟨a, b, h⟩
    rw [List.append_assoc] at h
    obtain ⟨l1, l23, h1, h2, h3⟩ := List.map_eq_append_iff.mp h.symm
    obtain ⟨l2, l3, h4, h5, h6⟩ := List.map_eq_append_iff.mp h3
    exact ⟨l1, l2, l3, by rw [h1, h4, List.append_assoc], h5⟩
  · rintro ⟨pre, mid, post, h1, h2⟩
    refine ⟨pre.map toLowerRune, post.map toLowerRune, ?_⟩
    rw [h1, ← h2]
    simp

theorem showMyBookings_userSessions (env : Env) (s : State) (msg : Message) :
    (showMyBookings env s msg).userSessions = s.userSessions
      ∧ (showMyBookings env s msg).slots = s.slots := by
  simp only [showMyBookings]
  split
  · exact ⟨rfl, rfl⟩
  · exact ⟨rfl, rfl⟩
  · split <;> exact ⟨rfl, rfl⟩

theorem handleCommand_store (cfg : Config) (env : Env) (s : State) (msg : Message) :
    ∃ s', handleCommand cfg env s msg = some s' ∧ s'.userSessions = s.userSessions
      ∧ s'.slots = s.slots := by
  refine handleCommand_elim
    (fun r => ∃ s', r = some s' ∧ s'.userSessions = s.userSessions ∧ s'.slots = s.slots)
    ?_ ?_ ?_ ?_ ?_ ?_
  · exact ⟨_, rfl, rfl, rfl⟩
  · exact ⟨_, rfl, rfl, rfl⟩
  · exact ⟨_, rfl, rfl, rfl⟩
  · exact ⟨_, rfl, rfl, rfl⟩
  · exact ⟨_, rfl, (showMyBookings_userSessions env s msg).1,
      (showMyBookings_userSessions env s msg).2⟩
  · exact ⟨_, rfl, rfl, rfl⟩

/-- C18 (as stated, refuted): client 5 has no session. The text `/start now`
contains the keyword of the start command and triggers nothing; the text
`/start записаться` contains the keywords of start and of book and triggers book,
not start; the text `Админ панель` contains the keyword of the admin panel and,
client 5 not being an administrator, triggers nothing. -/
theorem start_keyword_inside_a_text_triggers_nothing :
    freshState.userSessions 5 = none
    ∧ mentions "/start now" "/start"
    ∧ (handleUpdate moscowCfg march8 freshState (say 5 "/start now")).map (fun s => s.sent)
        = some []
    ∧ mentions "/start записаться" "/start"
    ∧ (handleUpdate moscowCfg march8 freshState (say 5 "/start записаться")).map lastPromptText
        = some (some "Выберите услугу:")
    ∧ mentions "Админ панель" "админ панель"
    ∧ (handleUpdate moscowCfg march8 freshState (say 5 "Админ панель")).map (fun s => s.sent)
        = some [] := by
  refine ⟨rfl, ⟨[], "/start".data, " now".data, by decide, by decide⟩, by decide,
    ⟨[], "/start".data, " записаться".data, by decide, by decide⟩, by decide,
    ⟨[], "Админ панель".data, [], by decide, by decide⟩, by decide⟩

/-- C18 (amended): for a client without a session and every text message. The
start command is triggered exactly by a text that is `/start` once lower-cased
(equality, not containment). Otherwise the first of the following that applies:
book, when the text contains `записаться` in some letter case; the admin panel,
when it contains `админ панель`, and then the panel is shown only to a sender of
the administrator list, any other sender gets nothing; other options, when it
contains `другие возможности`; my bookings, when it contains `мои записи`. A text
that matches none triggers nothing. In every case the handler returns normally
and leaves the session table (no session is created) and the ledger as they were. -/
theorem commands_recognized_by_keyword (cfg : Config) (env : Env) (s : State) (msg : Message)
    (hnone : s.userSessions msg.FromID = none) :
    (toLower msg.Text = "/start" → handleMessage cfg env s msg = some (start cfg s msg))
    ∧ (toLower msg.Text ≠ "/start" → mentions msg.Text "записаться" →
        handleMessage cfg env s msg = some (bookStart s msg))
    ∧ (toLower msg.Text ≠ "/start" → ¬ mentions msg.Text "записаться" →
        mentions msg.Text "админ панель" →
        handleMessage cfg env s msg
          = some (if isAdmin cfg msg.FromID then adminPanel s msg.ChatID else s))
    ∧ (toLower msg.Text ≠ "/start" → ¬ mentions msg.Text "записаться" →
        ¬ mentions msg.Text "админ панель" → mentions msg.Text "другие возможности" →
        handleMessage cfg env s msg = some (otherOptions s msg))
    ∧ (toLower msg.Text ≠ "/start" → ¬ mentions msg.Text "записаться" →
        ¬ mentions msg.Text "админ панель" → ¬ mentions msg.Text "другие возможности" →
        mentions msg.Text "мои записи" →
        handleMessage cfg env s msg = some (showMyBookings env s msg))
    ∧ (toLower msg.Text ≠ "/start" → ¬ mentions msg.Text "записаться" →
        ¬ mentions msg.Text "админ панель" → ¬ mentions msg.Text "другие возможности" →
        ¬ mentions msg.Text "мои записи" → handleMessage cfg env s msg = some s)
    ∧ ∃ s', handleMessage cfg env s msg = some s' ∧ s'.userSessions = s.userSessions
        ∧ s'.slots = s.slots := by
  have hm : handleMessage cfg env s msg = handleCommand cfg env s msg := by
    simp only [handleMessage, hnone]
  rw [hm]
  simp only [← contains_toLower_iff]
  refine ⟨?_, ?_, ?_, ?_, ?_, ?_, handleCommand_store cfg env s msg⟩
  · intro h1
    simp only [handleCommand]
    rw [if_pos h1]
  · intro h1 h2
    simp only [handleCommand]
    rw [if_neg h1, if_pos h2]
  · intro h1 h2 h3
    simp only [handleCommand]
    rw [if_neg h1, if_neg h2, if_pos h3]
    split <;> rfl
  · intro h1 h2 h3 h4
    simp only [handleCommand]
    rw [if_neg h1, if_neg h2, if_neg h3, if_pos h4]
  · intro h1 h2 h3 h4 h5
    simp only [handleCommand]
    rw [if_neg h1, if_neg h2, if_neg h3, if_neg h4, if_pos h5]
  · intro h1 h2 h3 h4 h5
    simp only [handleCommand]
    rw [if_neg h1, if_neg h2, if_neg h3, if_neg h4, if_neg h5]

/-- Witness of C18 (amended): client 5, without a session, writes the book keyword
in capitals inside a sentence, and `/START`. -/
theorem commands_recognized_by_keyword_witness :
    freshState.userSessions 5 = none
    ∧ handleMessage moscowCfg march8 freshState
        { FromID := 5, UserName := "client", ChatID := 5, Text := "Хочу ЗАПИСАТЬСЯ завтра" }
      = some (bookStart freshState
          { FromID := 5, UserName := "client", ChatID := 5, Text := "Хочу ЗАПИСАТЬСЯ завтра" })
    ∧ handleMessage moscowCfg march8 freshState
        { FromID := 5, UserName := "client", ChatID := 5, Text := "/START" }
      = some (start moscowCfg freshState
          { FromID := 5, UserName := "client", ChatID := 5, Text := "/START" }) :=
  ⟨rfl,
    (commands_recognized_by_keyword moscowCfg march8 freshState
      { FromID := 5, UserName := "client", ChatID := 5, Text := "Хочу ЗАПИСАТЬСЯ завтра" }
      rfl).2.1 (by decide)
      ⟨"Хочу ".data, "ЗАПИСАТЬСЯ".data, " завтра".data, by decide, by decide⟩,
    (commands_recognized_by_keyword moscowCfg march8 freshState
      { FromID := 5, UserName := "client", ChatID := 5, Text := "/START" } rfl).1 (by decide)⟩

/-! ### Date pages -/

theorem wrap64_small (x : Int) (h1 : -9223372036854775808 ≤ x) (h2 : x ≤ 9223372036854775807) :
    wrap64 x = x := by
  simp only [wrap64]; omega

theorem wrap64_range (x : Int) :
    -9223372036854775808 ≤ wrap64 x ∧ wrap64 x ≤ 9223372036854775807 := by
  simp only [wrap64]; omega

/-- The slice of the date page is in range exactly when the wrapped product of
the page index and the page size lies between 0 and the number of dates. -/
theorem datePageRows_isSome (cfg : Config) (env : Env) (page : Int) :
    (datePageRows cfg env page).isSome = true
      ↔ 0 ≤ wrap64 (page * 5) ∧ wrap64 (page * 5) ≤ 30 := by
  have hr := wrap64_range (page * 5)
  generalize hst : wrap64 (page * 5) = start at hr
  have key : (start < 0 ∨ (if wrap64 (start + 5) > 30 then 30 else wrap64 (start + 5)) < start)
      ↔ ¬ (0 ≤ start ∧ start ≤ 30) := by
    by_cases h0 : start < 0
    · constructor
      · intro _; omega
      · intro _; exact Or.inl h0
    · by_cases h30 : start ≤ 30
      · rw [wrap64_small (start + 5) (by omega) (by omega)]
        split <;> constructor <;> intro h <;> omega
      · constructor
        · intro _; omega
        · intro _
          right
          split <;> omega
  simp only [datePageRows, hst]
  by_cases hc : start < 0 ∨ (if wrap64 (start + 5) > 30 then 30 else wrap64 (start + 5)) < start
  · rw [if_pos hc]
    simp only [Option.isSome_none, Bool.false_eq_true, false_iff]
    exact key.mp hc
  · rw [if_neg hc]
    simp only [Option.isSome_some, true_iff]
    exact not_not.mp (fun h => hc (key.mpr h))

theorem datePageRows_six (cfg : Config) (env : Env) :
    datePageRows cfg env 6 = some [[Button.data "← Назад" "date_page_5"]] := by
  simp [datePageRows, wrap64]
  rfl

theorem pageDates_page (cfg : Config) (env : Env) (p : Int) (h0 : 0 ≤ p) (h5 : p ≤ 5) :
    pageDates cfg env p
      = some ((List.range 5).map fun (i : Nat) => todayIn cfg env + 5 * p + (i : Int)) := by
  interval_cases p <;> simp [pageDates, wrap64, todayIn, List.range, List.range.loop] <;> omega

/-- The rows of `datePageRows` are the rows of the dates of `pageDates`, followed
by the navigation row when it has a button. -/
theorem datePageRows_of_pageDates (cfg : Config) (env : Env) (page : Int) :
    datePageRows cfg env page
      = (pageDates cfg env page).map fun dates =>
          dates.map dateRow ++
            (if ((if page > 0 then [Button.data "← Назад" ("date_page_" ++ fmtD (wrap64 (page - 1)))]
                  else [])
                ++ (if (if wrap64 (wrap64 (page * 5) + 5) > 30 then 30
                        else wrap64 (wrap64 (page * 5) + 5)) < 30
                    then [Button.data "Далее →" ("date_page_" ++ fmtD (wrap64 (page + 1)))]
                    else [])).length > 0
              then [(if page > 0 then
                      [Button.data "← Назад" ("date_page_" ++ fmtD (wrap64 (page - 1)))]
                    else [])
                  ++ (if (if wrap64 (wrap64 (page * 5) + 5) > 30 then 30
                          else wrap64 (wrap64 (page * 5) + 5)) < 30
                      then [Button.data "Далее →" ("date_page_" ++ fmtD (wrap64 (page + 1)))]
                      else [])]
              else []) := by
  by_cases hc : wrap64 (page * 5) < 0
      ∨ (if wrap64 (wrap64 (page * 5) + 5) > 30 then 30 else wrap64 (wrap64 (page * 5) + 5))
          < wrap64 (page * 5)
  · simp only [datePageRows, pageDates]
    rw [if_pos hc, if_pos hc]
    rfl
  · simp only [datePageRows, pageDates]
    rw [if_neg hc, if_neg hc]
    rfl

theorem datePageRows_page (cfg : Config) (env : Env) (p : Int) (h0 : 0 ≤ p) (h5 : p ≤ 5) :
    datePageRows cfg env p
      = some (((List.range 5).map fun (i : Nat) => dateRow (todayIn cfg env + 5 * p + (i : Int)))
          ++ [(if 0 < p then [Button.data "← Назад" ("date_page_" ++ fmtD (p - 1))] else [])
              ++ (if p < 5 then [Button.data "Далее →" ("date_page_" ++ fmtD (p + 1))]
                else [])]) := by
  rw [datePageRows_of_pageDates, pageDates_page cfg env p h0 h5]
  interval_cases p <;> simp [wrap64, List.map_map, Function.comp_def]

theorem pageDates_concat (cfg : Config) (env : Env) :
    ((List.range 6).flatMap fun (q : Nat) => (pageDates cfg env (q : Int)).getD [])
      = (List.range 30).map fun (i : Nat) => todayIn cfg env + (i : Int) := by
  simp [List.range, List.range.loop, List.flatMap, pageDates_page]
  omega

theorem pairwise_shift (today : Int) (l : List Nat) (h : l.Pairwise (fun a b => a < b)) :
    (l.map fun (i : Nat) => today + (i : Int)).Pairwise (fun a b => a < b) := by
  induction h with
  | nil => simp
  | cons h1 _ ih =>
    simp only [List.map_cons, List.pairwise_cons]
    refine ⟨?_, ih⟩
    intro b hb
    simp only [List.mem_map] at hb
    obtain ⟨j, hj, rfl⟩ := hb
    have := h1 j hj
    omega

theorem thirty_days_increasing (today : Int) :
    ((List.range 30).map fun (i : Nat) => today + (i : Int)).Pairwise (fun a b => a < b) :=
  pairwise_shift today _ (List.pairwise_lt_range 30)

/-- C19: for a page index `p` from 0 to 5, with today the calendar day of the
instant `now` in the configured zone: the slice of the page holds exactly the five
days today+5p, ..., today+5p+4 in this order; the keyboard of the page is one row
per such day (its date as button data), followed by the navigation row, which
holds the next-page button (for page p+1) exactly when p < 5, the previous-page
button (for page p-1) exactly when p > 0, and nothing else; `showDatePage` and
`showDatePageMessage` send that keyboard; and the slices of the pages 0 to 5, one
after the other, are the 30 days today, ..., today+29, in strictly increasing order
(so each of them once). -/
theorem date_pages_cover_thirty_days (cfg : Config) (env : Env) (s : State)
    (cb : CallbackQuery) (msg : Message) (p : Int) (h0 : 0 ≤ p) (h5 : p ≤ 5) :
    pageDates cfg env p
        = some ((List.range 5).map fun (i : Nat) => todayIn cfg env + 5 * p + (i : Int))
    ∧ (∃ nav, datePageRows cfg env p
          = some (((List.range 5).map fun (i : Nat) => dateRow (todayIn cfg env + 5 * p + (i : Int)))
              ++ [nav])
        ∧ (Button.data "Далее →" ("date_page_" ++ fmtD (p + 1)) ∈ nav ↔ p < 5)
        ∧ (Button.data "← Назад" ("date_page_" ++ fmtD (p - 1)) ∈ nav ↔ 0 < p)
        ∧ (∀ b ∈ nav, b = Button.data "Далее →" ("date_page_" ++ fmtD (p + 1))
            ∨ b = Button.data "← Назад" ("date_page_" ++ fmtD (p - 1)))
        ∧ showDatePage cfg env s cb p
            = some ((s.send (Request.edit cb.ChatID cb.MessageID "Выберите дату:"
                (((List.range 5).map fun (i : Nat) => dateRow (todayIn cfg env + 5 * p + (i : Int)))
                  ++ [nav] ++ [[Button.data "← Назад" "back_to_gender"]]))).answer cb "" false)
        ∧ showDatePageMessage cfg env s msg p
            = some (s.send (Request.message msg.ChatID "Выберите дату:"
                (((List.range 5).map fun (i : Nat) => dateRow (todayIn cfg env + 5 * p + (i : Int)))
                  ++ [nav]))))
    ∧ ((List.range 6).flatMap fun (q : Nat) => (pageDates cfg env (q : Int)).getD [])
        = (List.range 30).map (fun (i : Nat) => todayIn cfg env + (i : Int))
    ∧ ((List.range 30).map fun (i : Nat) => todayIn cfg env + (i : Int)).Pairwise (fun a b => a < b) := by
  refine ⟨pageDates_page cfg env p h0 h5, ⟨_, datePageRows_page cfg env p h0 h5, ?_, ?_, ?_, ?_, ?_⟩,
    pageDates_concat cfg env, thirty_days_increasing _⟩
  · interval_cases p <;> decide
  · interval_cases p <;> decide
  · interval_cases p <;> decide
  · simp only [showDatePage, datePageRows_page cfg env p h0 h5, Option.map_some']
  · simp only [showDatePageMessage, datePageRows_page cfg env p h0 h5, Option.map_some']

/-- Witness of C19: page 2 on 8 March 2025 in Moscow. -/
theorem date_pages_cover_thirty_days_witness :
    (0 : Int) ≤ 2 ∧ (2 : Int) ≤ 5
    ∧ pageDates moscowCfg march8 2
        = some ((List.range 5).map fun (i : Nat) => todayIn moscowCfg march8 + 5 * 2 + (i : Int))
    ∧ (Option.map (fun rows => rows.flatten.filterMap Button.callbackData)
          (datePageRows moscowCfg march8 2))
        = some ["date_2025-03-18", "date_2025-03-19", "date_2025-03-20", "date_2025-03-21",
            "date_2025-03-22", "date_page_1", "date_page_3"] :=
  ⟨by decide, by decide,
    (date_pages_cover_thirty_days moscowCfg march8 freshState (query 5 "date_page_2")
      { FromID := 5, UserName := "client", ChatID := 5, Text := "" } 2 (by decide) (by decide)).1,
    by decide⟩

/-- C20 (as stated, refuted): the page index -3689348814741910323, which the scan
of `date_page_-3689348814741910323` yields, is negative, and `showDatePage` neither
fails nor lists nothing: the product with the page size wraps around to 1 in the
64-bit `int`, and the page lists the five dates after today. -/
theorem date_page_far_below_zero_is_built :
    scanInt "-3689348814741910323".data = some (-3689348814741910323)
    ∧ ¬ ((0 : Int) ≤ -3689348814741910323 ∧ (-3689348814741910323 : Int) ≤ 6)
    ∧ wrap64 (-3689348814741910323 * 5) = 1
    ∧ (handleCallback moscowCfg march8 freshState
          (query 5 "date_page_-3689348814741910323")).map
        (fun s => s.sent.flatMap Request.buttonData)
      = some ["date_2025-03-09", "date_2025-03-10", "date_2025-03-11", "date_2025-03-12",
          "date_2025-03-13", "date_page_-3689348814741910322", "back_to_gender"] := by
  decide

/-- C20 (amended): `showDatePage` has valid slice bounds and returns normally
exactly when the product of the page index and 5, wrapped to the 64-bit `int`,
lies between 0 and 30. For a page index whose product with 5 does not overflow
(between -1844674407370955161 and 1844674407370955161) this is exactly
0 <= page <= 6: a negative page and a page above 6 make the slice expression
panic. Page 6 lists no date, only the previous-page button. -/
theorem date_page_is_built_iff (cfg : Config) (env : Env) (s : State) (cb : CallbackQuery)
    (page : Int) (hlo : -1844674407370955161 ≤ page) (hhi : page ≤ 1844674407370955161) :
    ((showDatePage cfg env s cb page).isSome = true ↔ 0 ≤ page ∧ page ≤ 6)
    ∧ (∀ q : Int, (showDatePage cfg env s cb q).isSome = true
        ↔ 0 ≤ wrap64 (q * 5) ∧ wrap64 (q * 5) ≤ 30)
    ∧ datePageRows cfg env 6 = some [[Button.data "← Назад" "date_page_5"]]
    ∧ pageDates cfg env 6 = some [] := by
  have hgen : ∀ q : Int, (showDatePage cfg env s cb q).isSome = true
      ↔ 0 ≤ wrap64 (q * 5) ∧ wrap64 (q * 5) ≤ 30 := by
    intro q
    rw [← datePageRows_isSome cfg env q]
    simp only [showDatePage, Option.isSome_map']
  refine ⟨?_, hgen, datePageRows_six cfg env, ?_⟩
  · rw [hgen page, wrap64_small (page * 5) (by omega) (by omega)]
    constructor <;> intro h <;> constructor <;> omega
  · simp [pageDates, wrap64]

/-- Witness of C20 (amended): the pages 6 and 7 on 8 March 2025 in Moscow. -/
theorem date_page_is_built_iff_witness :
    ((-1844674407370955161 : Int) ≤ 7 ∧ (7 : Int) ≤ 1844674407370955161)
    ∧ ((showDatePage moscowCfg march8 freshState (query 5 "date_page_7") 7).isSome = true
        ↔ (0 : Int) ≤ 7 ∧ (7 : Int) ≤ 6)
    ∧ (handleCallback moscowCfg march8 freshState (query 5 "date_page_7")).isNone = true
    ∧ (handleCallback moscowCfg march8 freshState (query 5 "date_page_-1")).isNone = true
    ∧ (handleCallback moscowCfg march8 freshState (query 5 "date_page_6")).map
        (fun s => s.sent.flatMap Request.buttonData) = some ["date_page_5", "back_to_gender"] :=
  ⟨by decide,
    (date_page_is_built_iff moscowCfg march8 freshState (query 5 "date_page_7") 7
      (by decide) (by decide)).1,
    by decide, by decide, by decide⟩

/-! ### Who may cancel -/

theorem not_hasPrefix_of_diverge (p q x : String) (h : diverge p.data q.data = true) :
    ¬ hasPrefix (p ++ x) q = true := by
  rw [hasPrefix_diverge p q x h]; simp

/-- Data that starts with `cancel_booking_` reaches the last branch of the chain. -/
theorem handleCallback_cancel {cfg : Config} {env : Env} {s : State} {cb : CallbackQuery}
    {x : String} (h : cb.Data = "cancel_booking_" ++ x) :
    handleCallback cfg env s cb = some (cancelUserBooking cfg env s cb cb.Data) := by
  unfold handleCallback
  have e3 : ¬ ("cancel_booking_" ++ x = "gender_male" ∨ "cancel_booking_" ++ x = "gender_female") := by
    rintro (e | e)
    · exact append_ne_diverge _ _ _ (by decide) e
    · exact append_ne_diverge _ _ _ (by decide) e
  simp only [h]
  rw [if_neg (not_hasPrefix_of_diverge _ "package_" _ (by decide)),
    if_neg (append_ne_diverge _ "back_packages" _ (by decide)),
    if_neg e3,
    if_neg (append_ne_diverge _ "age_no" _ (by decide)),
    if_neg (append_ne_diverge _ "age_yes" _ (by decide)),
    if_neg (not_hasPrefix_of_diverge _ "date_page_" _ (by decide)),
    if_neg (append_ne_diverge _ "back_to_gender" _ (by decide)),
    if_neg (not_hasPrefix_of_diverge _ "date_" _ (by decide)),
    if_neg (not_hasPrefix_of_diverge _ "time_" _ (by decide)),
    if_neg (append_ne_diverge _ "back_to_date" _ (by decide)),
    if_neg (not_hasPrefix_of_diverge _ "master_" _ (by decide)),
    if_neg (append_ne_diverge _ "back_to_time" _ (by decide)),
    if_neg (append_ne_diverge _ "confirm_booking" _ (by decide)),
    if_neg (append_ne_diverge _ "back_to_master" _ (by decide)),
    if_neg (append_ne_diverge _ "admin_masters_btn" _ (by decide)),
    if_neg (append_ne_diverge _ "admin_developer" _ (by decide)),
    if_neg (append_ne_diverge _ "admin_back" _ (by decide)),
    if_neg (not_hasPrefix_of_diverge _ "master_profile_" _ (by decide)),
    if_neg (append_ne_diverge _ "add_master_start" _ (by decide)),
    if_neg (not_hasPrefix_of_diverge _ "gender_master_" _ (by decide)),
    if_neg (not_hasPrefix_of_diverge _ "master_bookings_" _ (by decide)),
    if_neg (not_hasPrefix_of_diverge _ "master_profit_" _ (by decide)),
    if_neg (not_hasPrefix_of_diverge _ "master_notify_" _ (by decide)),
    if_neg (not_hasPrefix_of_diverge _ "master_back_" _ (by decide)),
    if_pos (hasPrefix_append _ _)]

/-- The ledger that `cancelUserBooking` leaves, for any lookup: it is a function
of the environment, the ledger and the data, not of the callback query. -/
theorem cancelUserBookingVia_slots (lookup : Env → List Slot → Int → Option Slot)
    (cfg : Config) (env : Env) (s : State) (cb : CallbackQuery) (data : String) :
    (cancelUserBookingVia lookup cfg env s cb data).slots
      = match lookup env s.slots (scanBookingID data),
          cancelBooking env s.slots (scanBookingID data) with
        | some _, some slots => slots
        | _, _ => s.slots := by
  simp only [cancelUserBookingVia]
  cases lookup env s.slots (scanBookingID data) with
  | none => rfl
  | some booking =>
    cases cancelBooking env s.slots (scanBookingID data) with
    | none => rfl
    | some slots => simp [foldl_send_slots]

theorem cancelBooking_cancels {env : Env} {slots slots' : List Slot} {id : Int}
    (h : cancelBooking env slots id = some slots') :
    slots'.length = slots.length
      ∧ ∀ r ∈ slots', r.ID = id → r.Status = "cancelled" ∧ r.UserID = none := by
  simp only [cancelBooking] at h
  split at h
  · cases h
  · cases h
    refine ⟨by simp, ?_⟩
    intro r hr hid
    simp only [List.mem_map] at hr
    obtain ⟨r0, -, rfl⟩ := hr
    split
    · exact ⟨rfl, rfl⟩
    · rename_i hne
      split at hid
      · exact absurd ‹r0.ID = id› hne
      · exact absurd hid hne

/-- C21: two clients send the same choice `cancel_booking_<id>` in the same state
and environment. Both are handled normally and leave the same ledger; neither
changes the session table. The sender enters neither the lookup nor the update:
with any lookup in the place of `getBookingByID` the ledger left is the same for
the two callback queries. And when the store answers and the ledger holds a row
with the id scanned from the data, every row with that id ends with status
`cancelled` and no user id, whoever is stored in its `user_id` and whoever asks. -/
theorem cancel_does_not_depend_on_who_asks (cfg : Config) (env : Env) (s : State)
    (cb1 cb2 : CallbackQuery) (id : Int)
    (h1 : cb1.Data = "cancel_booking_" ++ fmtD id)
    (h2 : cb2.Data = "cancel_booking_" ++ fmtD id) :
    ∃ s1 s2, handleCallback cfg env s cb1 = some s1 ∧ handleCallback cfg env s cb2 = some s2
      ∧ s1.slots = s2.slots
      ∧ s1.userSessions = s.userSessions ∧ s2.userSessions = s.userSessions
      ∧ s1 = cancelUserBookingVia getBookingByID cfg env s cb1 cb1.Data
      ∧ (∀ lookup : Env → List Slot → Int → Option Slot,
          (cancelUserBookingVia lookup cfg env s cb1 cb1.Data).slots
            = (cancelUserBookingVia lookup cfg env s cb2 cb2.Data).slots)
      ∧ (env.readFails = false → env.writeFails = false →
          (∃ r ∈ s.slots, r.ID = scanBookingID cb1.Data) →
          s1.slots.length = s.slots.length
            ∧ ∀ r ∈ s1.slots, r.ID = scanBookingID cb1.Data →
                r.Status = "cancelled" ∧ r.UserID = none) := by
  have hvia : ∀ cb : CallbackQuery, cancelUserBooking cfg env s cb cb.Data
      = cancelUserBookingVia getBookingByID cfg env s cb cb.Data := fun _ => rfl
  refine ⟨_, _, handleCallback_cancel h1, handleCallback_cancel h2, ?_,
    (cancelUserBooking_others cfg env s cb1 cb1.Data).2,
    (cancelUserBooking_others cfg env s cb2 cb2.Data).2, hvia cb1, ?_, ?_⟩
  · rw [hvia cb1, hvia cb2, cancelUserBookingVia_slots, cancelUserBookingVia_slots, h1, h2]
  · intro lookup
    rw [cancelUserBookingVia_slots, cancelUserBookingVia_slots, h1, h2]
  · intro hr hw hex
    obtain ⟨r0, hr0, hid0⟩ := hex
    rw [hvia cb1, cancelUserBookingVia_slots]
    have hfind : ∃ b, getBookingByID env s.slots (scanBookingID cb1.Data) = some b := by
      simp only [getBookingByID, hr, Bool.false_eq_true, if_false]
      cases hf : s.slots.find? fun r => decide (r.ID = scanBookingID cb1.Data) with
      | some b => exact ⟨b, rfl⟩
      | none =>
        rw [List.find?_eq_none] at hf
        exact absurd (by simpa using hid0) (hf r0 hr0)
    obtain ⟨b, hb⟩ := hfind
    have hc : ∃ slots', cancelBooking env s.slots (scanBookingID cb1.Data) = some slots' := by
      simp only [cancelBooking, hw, Bool.false_eq_true, if_false]
      exact ⟨_, rfl⟩
    obtain ⟨slots', hsl⟩ := hc
    rw [hb, hsl]
    exact cancelBooking_cancels hsl

/-- Witness of C21: the booking 7 belongs to client 5; client 6 and client 5 send
`cancel_booking_7`, and either way the row ends cancelled. -/
theorem cancel_does_not_depend_on_who_asks_witness :
    sampleSlot.UserID = some (fmtD 5)
    ∧ (handleCallback moscowCfg march8 (stateWithLedger [sampleSlot])
          (query 6 "cancel_booking_7")).map (fun s => s.slots.map fun r => (r.ID, r.Status))
        = some [(7, "cancelled")]
    ∧ ∃ s1 s2,
        handleCallback moscowCfg march8 (stateWithLedger [sampleSlot])
            (query 6 "cancel_booking_7") = some s1
        ∧ handleCallback moscowCfg march8 (stateWithLedger [sampleSlot])
            (query 5 "cancel_booking_7") = some s2
        ∧ s1.slots = s2.slots := by
  refine ⟨by decide, by decide, ?_⟩
  obtain ⟨s1, s2, h1, h2, h3, -⟩ :=
    cancel_does_not_depend_on_who_asks moscowCfg march8 (stateWithLedger [sampleSlot])
      (query 6 "cancel_booking_7") (query 5 "cancel_booking_7") 7 (by decide) (by decide)
  exact ⟨s1, s2, h1, h2, h3⟩

end Hidjama
